import Mathlib

/-!
# The audio mixing core of `Core/HLE/__sceAudio.cpp`

A shallow embedding of the channel enqueue engine (`__AudioEnqueue`), the wake/drain
protocol (`__AudioWakeThreads`), the periodic mix tick (`__AudioUpdate`), the host pull
(`__AudioMix`) and the lifecycle entry point `__AudioInit`.

Conventions of the embedding:

* C arrays (`mixBufferQueue`, `mixBuffer`, the storage of a channel queue, the caller's
  output buffer) are functions `Nat → Int` from index to value; a pointer into an array is
  the index it points at.
* `int` variables are `Int`, `size_t` and `u32` values are `Nat`; the 32-bit wrap is explicit
  (`wrapS32`, `wrapU32`) where the code does arithmetic on sample data, volumes and wait
  counters. Ring cursors are converted between `int` and `size_t` with `Int.toNat` and the
  coercion `Nat → Int`; they stay far below `2^31` in every state considered.
* Guest memory is a function from guest byte address to byte; `GET_PTR(a)` is the address
  `a` itself (the 64-bit variant of the define, no masking).
* The kernel scheduler, the channel record and the channel queue are declared outside
  `__sceAudio.cpp`; they are modelled from the specification and marked so.
* The division by `chanQueueMinSizeFactor` in `__AudioEnqueue` is `Int.tdiv`. The source
  divides by zero when the factor is 0; the statements about calls that reach the division
  assume a factor other than 0.
-/

namespace PspAudio

/-! ## Machine arithmetic -/

/-- Two's-complement wrap of an integer to the range of `int` / `s32`. -/
def wrapS32 (x : Int) : Int := (x + 2147483648) % 4294967296 - 2147483648

/-- Wrap of a natural number to the range of `u32`. -/
def wrapU32 (x : Nat) : Nat := x % 4294967296

/-- The `s16` value of a 16-bit pattern (two's complement). -/
def toS16 (u : Nat) : Int :=
  if u % 65536 < 32768 then ((u % 65536 : Nat) : Int) else ((u % 65536 : Nat) : Int) - 65536

/-- Membership in the range of `s16`. -/
def isS16 (x : Int) : Prop := -32768 ≤ x ∧ x ≤ 32767

/-- Modelled from the spec: `clamp_s16` of `Globals.h` (not part of the sources at hand),
the spec's `clamp16`: saturation of an `int` to the signed 16-bit range. -/
def clamp_s16 (i : Int) : Int :=
  if i > 32767 then 32767 else if i < -32768 then -32768 else i

/-- The scalar branch of `adjustvolume`: `clamp_s16((sample * vol) >> 16)`. The product is
formed in `int` (hence `wrapS32`); `>> 16` on a signed `int` is the arithmetic shift, that
is floor division by `2^16`. -/
def adjustvolume (sample : Int) (vol : Int) : Int :=
  clamp_s16 (wrapS32 (sample * vol) / 65536)

/-- A counted loop: `for (i = 0; i < n; i++) s = body i s`. -/
def loop {σ : Type} (n : Nat) (body : Nat → σ → σ) (s : σ) : σ :=
  match n with
  | 0 => s
  | k + 1 => body k (loop k body s)

/-- The effect of `memcpy(dst + off, src, n * sizeof(s16))` on the array `dst`, the source
being given as the function from element index to value. -/
def memcpy (dst : Nat → Int) (off : Nat) (src : Nat → Int) (n : Nat) : Nat → Int :=
  fun i => if off ≤ i ∧ i < off + n then src (i - off) else dst i

/-! ## Guest memory -/

/-- Guest memory: the byte at each guest address (only the low 8 bits of a value count). -/
abbrev Memory := Nat → Nat

/-- The little-endian `s16` stored at guest address `addr` (`*(s16_le *)GET_PTR(addr)`). -/
def readS16 (mem : Memory) (addr : Nat) : Int :=
  toS16 (mem addr % 256 + 256 * (mem (addr + 1) % 256))

/-- The `s16` stored at guest address `addr` as read through a plain `s16 *`
(`*(s16 *)GET_PTR(addr)`), that is in the byte order of the host: the byte at `addr` is the
low byte on a little-endian build and the high byte on a big-endian build. -/
def readS16Host (littleEndian : Bool) (mem : Memory) (addr : Nat) : Int :=
  if littleEndian = true then readS16 mem addr
  else toS16 (256 * (mem addr % 256) + mem (addr + 1) % 256)

/-! ## Build constants declared outside `__sceAudio.cpp` -/

/-- Constants the code uses whose definitions live in headers that are not part of the
sources at hand; they are parameters of the embedding. -/
structure Consts where
  PSP_AUDIO_CHANNEL_SRC : Int
  PSP_AUDIO_CHANNEL_OUTPUT2 : Int
  SCE_ERROR_AUDIO_CHANNEL_BUSY : Nat
  SCE_KERNEL_ERROR_CAN_NOT_WAIT : Nat
  SCE_ERROR_AUDIO_CHANNEL_NOT_RESERVED : Nat
  WAITTYPE_AUDIOCHANNEL : Nat
  IS_LITTLE_ENDIAN : Bool

/-- The capacity of the global output ring buffer, `#define MIXBUFFER_QUEUE (512 * 16)`. -/
def MIXBUFFER_QUEUE : Int := 512 * 16

/-- The constant `hwSampleRate`. -/
def hwSampleRate : Int := 44100

/-! ## The sample ring buffer of a channel -/

/-- Modelled from the spec: the Sample Ring Buffer of §3 and §4.1 (the class behind
`AudioChannel::sampleQueue` is declared in a header that is not part of the sources at
hand). State `{storage[C], head, tail, count}` with the capacity `C` kept in the field `N`. -/
structure FixedSizeQueue where
  N : Nat
  storage : Nat → Int
  head : Nat
  tail : Nat
  count : Nat

/-- The result of a pointer-pair request: up to two contiguous spans of the storage. `buf1`
and `buf2` are indices into the storage; `buf2 = none` is the null pointer. -/
structure Spans where
  buf1 : Nat
  sz1 : Nat
  buf2 : Option Nat
  sz2 : Nat
deriving DecidableEq

namespace FixedSizeQueue

/-- Modelled from the spec: `size()`, the number of queued samples. -/
def size (q : FixedSizeQueue) : Nat := q.count

/-- Modelled from the spec: `clear()`, the queue emptied and its cursors reset. -/
def clear (q : FixedSizeQueue) : FixedSizeQueue :=
  { q with head := 0, tail := 0, count := 0 }

/-- Modelled from the spec: `push(sample)`, the single-element write of §4.1. -/
def push (q : FixedSizeQueue) (t : Int) : FixedSizeQueue :=
  { q with
    storage := Function.update q.storage q.tail t
    tail := if q.tail + 1 = q.N then 0 else q.tail + 1
    count := q.count + 1 }

/-- Modelled from the spec: `pushPointers(n, &buf1, &len1, &buf2, &len2)` of §4.1: write
destinations for exactly `n` elements, split at the wrap boundary; `count` grows by `n`
and `tail` wraps modulo the capacity. The split is the one `__AudioUpdate` performs inline
on the global buffer. -/
def pushPointers (q : FixedSizeQueue) (size : Nat) : FixedSizeQueue × Spans :=
  if q.tail + size < q.N then
    ({ q with tail := q.tail + size, count := q.count + size },
     { buf1 := q.tail, sz1 := size, buf2 := none, sz2 := 0 })
  else
    ({ q with tail := size - (q.N - q.tail), count := q.count + size },
     { buf1 := q.tail, sz1 := q.N - q.tail, buf2 := some 0, sz2 := size - (q.N - q.tail) })

/-- Modelled from the spec: `popPointers`, the read-side analog of `pushPointers`. The mix
tick pops *up to* `n` samples (§4.4, §8 property 7: the queue shrinks by `n` "or to zero if
shorter"), so a request beyond `count` is cut down to `count`. -/
def popPointers (q : FixedSizeQueue) (size : Nat) : FixedSizeQueue × Spans :=
  let size := if size > q.count then q.count else size
  if q.head + size < q.N then
    ({ q with head := q.head + size, count := q.count - size },
     { buf1 := q.head, sz1 := size, buf2 := none, sz2 := 0 })
  else
    ({ q with head := size - (q.N - q.head), count := q.count - size },
     { buf1 := q.head, sz1 := q.N - q.head, buf2 := some 0, sz2 := size - (q.N - q.head) })

/-- The queued samples, oldest first. -/
def toList (q : FixedSizeQueue) : List Int :=
  (List.range q.count).map (fun i => q.storage ((q.head + i) % q.N))

/-- The ring invariant of §3 on a channel queue: `0 ≤ count ≤ C`, `head, tail ∈ [0, C)` and
`tail` is `head + count` modulo the capacity; the capacity is a positive `int`. -/
def WF (q : FixedSizeQueue) : Prop :=
  0 < q.N ∧ q.N < 2147483648 ∧ q.head < q.N ∧ q.tail < q.N ∧ q.count ≤ q.N ∧
    q.tail = (q.head + q.count) % q.N

instance (q : FixedSizeQueue) : Decidable q.WF := by
  unfold WF
  infer_instance

/-- The typing of the storage as an array of `s16`. -/
def S16Storage (q : FixedSizeQueue) : Prop := ∀ i, isS16 (q.storage i)

end FixedSizeQueue

/-! ## Channels -/

/-- The sample format of a channel (§3: `format: {MONO, STEREO}`). -/
inductive AudioFormat where
  | PSP_AUDIO_FORMAT_STEREO
  | PSP_AUDIO_FORMAT_MONO
deriving DecidableEq

/-- An entry of `waitingThreads`: `{threadID, numSamples}`. -/
structure AudioChannelWaitInfo where
  threadID : Int
  numSamples : Int
deriving DecidableEq

/-- Modelled from the spec: the Audio Channel record of §3 (declared in `sceAudio.h`, which
is not part of the sources at hand). `leftVolume`/`rightVolume` are the values the code
reads into its `int` locals. -/
structure AudioChannel where
  reserved : Bool
  sampleAddress : Nat
  sampleCount : Nat
  leftVolume : Int
  rightVolume : Int
  format : AudioFormat
  waitingThreads : List AudioChannelWaitInfo
  sampleQueue : FixedSizeQueue

/-- Modelled from the spec: `AudioChannel::clear()`: "cleared (queue emptied, wait list
emptied)", back to the state at creation, `reserved = false`. -/
def AudioChannel.clear (ch : AudioChannel) : AudioChannel :=
  { ch with reserved := false, waitingThreads := [], sampleQueue := ch.sampleQueue.clear }

/-! ## The cooperative thread scheduler -/

/-- A thread parked by `__KernelWaitCurThread`. -/
structure ThreadWait where
  threadID : Int
  waitType : Nat
  waitID : Int
  waitValue : Nat
deriving DecidableEq

/-- Modelled from the spec: the cooperative thread scheduler of §6, as far as this module
observes it: whether dispatch is enabled, the running thread, the threads that are parked
(in the order they were parked), the log of resumptions and the number of reschedule
requests. -/
structure Kernel where
  dispatchEnabled : Bool
  curThread : Int
  waits : List ThreadWait
  resumed : List (Int × Nat)
  reschedules : Nat
deriving DecidableEq

/-- Modelled from the spec: `isDispatchEnabled() -> bool`. -/
def __KernelIsDispatchEnabled (k : Kernel) : Bool := k.dispatchEnabled

/-- Modelled from the spec: `currentThreadHandle() -> handle`. -/
def __KernelGetCurThread (k : Kernel) : Int := k.curThread

/-- Modelled from the spec: `parkCurrentThread(waitCategory, waitKey, resumeValuePayload,
hasTimeout=false, debugLabel)`: the running thread becomes parked on the given wait. -/
def __KernelWaitCurThread (k : Kernel) (type : Nat) (waitID : Int) (waitValue : Nat) : Kernel :=
  { k with waits := k.waits ++
      [{ threadID := k.curThread, waitType := type, waitID := waitID, waitValue := waitValue }] }

/-- Modelled from the spec: `getWaitId(thread, category) -> key-or-zero`. -/
def __KernelGetWaitID (k : Kernel) (threadID : Int) (type : Nat) : Int :=
  match k.waits.find? (fun w => decide (w.threadID = threadID)) with
  | some w => if w.waitType = type then w.waitID else 0
  | none => 0

/-- Modelled from the spec: `getWaitValue(thread) -> payload`. -/
def __KernelGetWaitValue (k : Kernel) (threadID : Int) : Nat :=
  match k.waits.find? (fun w => decide (w.threadID = threadID)) with
  | some w => w.waitValue
  | none => 0

/-- Modelled from the spec: `resumeThread(thread, returnValue)`: the thread leaves its wait
and the resumption is recorded. -/
def __KernelResumeThreadFromWait (k : Kernel) (threadID : Int) (retval : Nat) : Kernel :=
  { k with
    waits := k.waits.filter (fun w => !decide (w.threadID = threadID))
    resumed := k.resumed ++ [(threadID, retval)] }

/-- Modelled from the spec: `requestReschedule(reason)`. -/
def __KernelReSchedule (k : Kernel) : Kernel :=
  { k with reschedules := k.reschedules + 1 }

/-! ## Module state -/

/-- The globals of `__sceAudio.cpp` together with the channel array `chans`. -/
structure AudioState where
  mixFrequency : Int
  hwBlockSize : Int
  hostAttemptBlockSize : Int
  audioIntervalCycles : Int
  audioHostIntervalCycles : Int
  chanQueueMaxSizeFactor : Int
  chanQueueMinSizeFactor : Int
  mixBufferQueue : Nat → Int
  mixBufferHead : Int
  mixBufferTail : Int
  mixBufferCount : Int
  mixBuffer : Nat → Int
  chans : List AudioChannel

/-- The ring invariant of §3 read on the global output ring buffer, `C = MIXBUFFER_QUEUE`:
`0 ≤ count ≤ C`, `head, tail ∈ [0, C)`, `(tail - head) mod C = count`. -/
def RingInvariant (st : AudioState) : Prop :=
  0 ≤ st.mixBufferCount ∧ st.mixBufferCount ≤ MIXBUFFER_QUEUE ∧
  0 ≤ st.mixBufferHead ∧ st.mixBufferHead < MIXBUFFER_QUEUE ∧
  0 ≤ st.mixBufferTail ∧ st.mixBufferTail < MIXBUFFER_QUEUE ∧
  (st.mixBufferTail - st.mixBufferHead) % MIXBUFFER_QUEUE = st.mixBufferCount

instance (st : AudioState) : Decidable (RingInvariant st) := by
  unfold RingInvariant
  infer_instance

/-- The samples queued in the global output ring buffer, oldest first. -/
def mixBufferList (st : AudioState) : List Int :=
  (List.range st.mixBufferCount.toNat).map
    (fun i => st.mixBufferQueue ((st.mixBufferHead.toNat + i) % MIXBUFFER_QUEUE.toNat))

/-! ## `__AudioCPUMHzChange` and `__AudioInit` -/

/-- `__AudioCPUMHzChange`; `cyclesPerSecond` is the value of `usToCycles(1000000ULL)`. -/
def __AudioCPUMHzChange (cyclesPerSecond : Int) (st : AudioState) : AudioState :=
  { st with
    audioIntervalCycles := Int.tdiv (cyclesPerSecond * st.hwBlockSize) hwSampleRate
    audioHostIntervalCycles := Int.tdiv (cyclesPerSecond * st.hostAttemptBlockSize) hwSampleRate }

/-- The values of `enum latency`. -/
def LOW_LATENCY : Int := 0

/-- See `LOW_LATENCY`. -/
def MEDIUM_LATENCY : Int := 1

/-- See `LOW_LATENCY`. -/
def HIGH_LATENCY : Int := 2

/-- The `switch (g_Config.iAudioLatency)` of `__AudioInit`. -/
def selectLatency (iAudioLatency : Int) (st : AudioState) : AudioState :=
  if iAudioLatency = LOW_LATENCY then
    { st with chanQueueMaxSizeFactor := 1, chanQueueMinSizeFactor := 1,
              hwBlockSize := 16, hostAttemptBlockSize := 256 }
  else if iAudioLatency = MEDIUM_LATENCY then
    { st with chanQueueMaxSizeFactor := 2, chanQueueMinSizeFactor := 1,
              hwBlockSize := 64, hostAttemptBlockSize := 512 }
  else if iAudioLatency = HIGH_LATENCY then
    { st with chanQueueMaxSizeFactor := 4, chanQueueMinSizeFactor := 2,
              hwBlockSize := 64, hostAttemptBlockSize := 512 }
  else st

/-- `__AudioInit` on the module state (the registration and scheduling of the two periodic
events concern the event scheduler only and leave this state alone). -/
def __AudioInit (iAudioLatency : Int) (cyclesPerSecond : Int) (st : AudioState) : AudioState :=
  let st1 := selectLatency iAudioLatency { st with mixFrequency := 44100 }
  let st2 := __AudioCPUMHzChange cyclesPerSecond st1
  { st2 with
    chans := st2.chans.map AudioChannel.clear
    mixBuffer := fun _ => 0
    mixBufferHead := 0
    mixBufferTail := 0
    mixBufferCount := 0 }

/-! ## `__AudioEnqueue` -/

/-- The loop `for (u32 i = 0; i < sz; i += 2) { buf[i] = adjustvolume(sampleData[i], leftVol);
buf[i + 1] = adjustvolume(sampleData[i + 1], rightVol); }` of the general stereo path, on
the span starting at index `buf` of the storage. -/
def scaleSpan (leftVol rightVol : Int) (sampleData : Nat → Int) (buf sz : Nat)
    (storage : Nat → Int) : Nat → Int :=
  loop ((sz + 1) / 2)
    (fun k st =>
      Function.update (Function.update st (buf + 2 * k) (adjustvolume (sampleData (2 * k)) leftVol))
        (buf + 2 * k + 1) (adjustvolume (sampleData (2 * k + 1)) rightVol))
    storage

/-- The bulk-copy fast path of `__AudioEnqueue` (lines 253-264). -/
def enqueueFast (mem : Memory) (chan : AudioChannel) : AudioChannel :=
  let totalSamples := wrapU32 (chan.sampleCount * 2)
  let r := chan.sampleQueue.pushPointers totalSamples
  let q := r.1
  let sp := r.2
  let s1 := memcpy q.storage sp.buf1 (fun j => readS16 mem (chan.sampleAddress + 2 * j)) sp.sz1
  let s2 := match sp.buf2 with
    | some b2 => memcpy s1 b2 (fun j => readS16 mem (chan.sampleAddress + sp.sz1 * 2 + 2 * j)) sp.sz2
    | none => s1
  { chan with sampleQueue := { q with storage := s2 } }

/-- The general stereo path of `__AudioEnqueue` (lines 273-299), `leftVol`/`rightVol` being
the pre-shifted gains. -/
def enqueueStereo (mem : Memory) (leftVol rightVol : Int) (chan : AudioChannel) : AudioChannel :=
  let totalSamples := wrapU32 (chan.sampleCount * 2)
  let sampleData : Nat → Int := fun i => readS16 mem (chan.sampleAddress + 2 * i)
  let r := chan.sampleQueue.pushPointers totalSamples
  let q := r.1
  let sp := r.2
  let s1 := scaleSpan leftVol rightVol sampleData sp.buf1 sp.sz1 q.storage
  let s2 := match sp.buf2 with
    | some b2 => scaleSpan leftVol rightVol (fun i => sampleData (sp.sz1 + i)) b2 sp.sz2 s1
    | none => s1
  { chan with sampleQueue := { q with storage := s2 } }

/-- The mono path of `__AudioEnqueue` (lines 300-309): every sample is read at
`chan.sampleAddress + 2 * i` (formed in `u32`) through a plain `s16 *`, in the byte order of
the host, and pushed twice. -/
def enqueueMono (c : Consts) (mem : Memory) (leftVol rightVol : Int) (chan : AudioChannel) :
    AudioChannel :=
  loop chan.sampleCount
    (fun i ch =>
      let sample := readS16Host c.IS_LITTLE_ENDIAN mem (wrapU32 (ch.sampleAddress + 2 * i))
      let q1 := ch.sampleQueue.push (adjustvolume sample leftVol)
      { ch with sampleQueue := q1.push (adjustvolume sample rightVol) })
    chan

/-- The data path of `__AudioEnqueue` from line 248 on. -/
def enqueueSamples (c : Consts) (mem : Memory) (chan : AudioChannel) : AudioChannel :=
  let leftVol := chan.leftVolume
  let rightVol := chan.rightVolume
  if leftVol = 32768 ∧ rightVol = 32768 ∧ chan.format = AudioFormat.PSP_AUDIO_FORMAT_STEREO ∧
      c.IS_LITTLE_ENDIAN = true then
    enqueueFast mem chan
  else
    let leftVol := wrapS32 (leftVol * 2)
    let rightVol := wrapS32 (rightVol * 2)
    match chan.format with
    | AudioFormat.PSP_AUDIO_FORMAT_STEREO => enqueueStereo mem leftVol rightVol chan
    | AudioFormat.PSP_AUDIO_FORMAT_MONO => enqueueMono c mem leftVol rightVol chan

/-- The outcome of `__AudioEnqueue`: the channel and the scheduler after the call and the
returned `u32`. -/
structure EnqueueResult where
  chan : AudioChannel
  kernel : Kernel
  ret : Nat

/-- The part of `__AudioEnqueue` from line 245 on, reached with the return value `ret`
computed so far: `if (chan.sampleAddress == 0) return ret;`, then the data path. -/
def enqueueTail (c : Consts) (mem : Memory) (k : Kernel) (chan : AudioChannel) (ret : Nat) :
    EnqueueResult :=
  if chan.sampleAddress = 0 then
    { chan := chan, kernel := k, ret := ret }
  else
    { chan := enqueueSamples c mem chan, kernel := k, ret := ret }

/-- `__AudioEnqueue(chan, chanNum, blocking)`. `minFactor` is the global
`chanQueueMinSizeFactor`, `mem` the guest memory. The division of line 226 is reached by a
blocking call on a non-empty queue, before the dispatch test; `__AudioInit` sets the divisor
to 1, 1 or 2 under the three latency profiles. The source divides by zero when the divisor
is 0, which `Int.tdiv` does not show: the statements below that cover a blocking call on a
non-empty queue assume `minFactor ≠ 0`. -/
def __AudioEnqueue (c : Consts) (minFactor : Int) (mem : Memory) (k : Kernel)
    (chan : AudioChannel) (chanNum : Int) (blocking : Bool) : EnqueueResult :=
  let ret : Nat :=
    if chan.sampleAddress = 0 ∧
        (chanNum = c.PSP_AUDIO_CHANNEL_SRC ∨ chanNum = c.PSP_AUDIO_CHANNEL_OUTPUT2) then 0
    else chan.sampleCount
  if chan.sampleQueue.size > 0 then
    if blocking = true then
      let blockSamples : Int :=
        Int.tdiv (Int.tdiv (wrapS32 (chan.sampleQueue.size : Nat)) 2) minFactor
      if __KernelIsDispatchEnabled k = true then
        let waitInfo : AudioChannelWaitInfo :=
          { threadID := __KernelGetCurThread k, numSamples := blockSamples }
        enqueueTail c mem
          (__KernelWaitCurThread k c.WAITTYPE_AUDIOCHANNEL (chanNum + 1) ret)
          { chan with waitingThreads := chan.waitingThreads ++ [waitInfo] } ret
      else
        enqueueTail c mem k chan c.SCE_KERNEL_ERROR_CAN_NOT_WAIT
    else
      { chan := chan, kernel := k, ret := c.SCE_ERROR_AUDIO_CHANNEL_BUSY }
  else
    enqueueTail c mem k chan ret

/-! ## `__AudioWakeThreads` -/

/-- The loop of `__AudioWakeThreads` over the wait list, from the entry at hand on: the
entries that stay (with their counters decremented), the scheduler, and `wokeThreads`. An
erased entry is dropped and the walk goes on with its successor (`erase(begin() + w--)`). -/
def wakeLoop (c : Consts) (result : Int) (step : Int) :
    List AudioChannelWaitInfo → Kernel → Bool → List AudioChannelWaitInfo × Kernel × Bool
  | [], k, woke => ([], k, woke)
  | w :: ws, k, woke =>
    let numSamples := wrapS32 (w.numSamples - step)
    let waitID := __KernelGetWaitID k w.threadID c.WAITTYPE_AUDIOCHANNEL
    if numSamples ≤ 0 ∧ waitID ≠ 0 then
      let ret := if result = 0 then __KernelGetWaitValue k w.threadID
                 else c.SCE_ERROR_AUDIO_CHANNEL_NOT_RESERVED
      wakeLoop c result step ws (__KernelResumeThreadFromWait k w.threadID ret) true
    else if waitID = 0 then
      wakeLoop c result step ws k woke
    else
      let r := wakeLoop c result step ws k woke
      ({ w with numSamples := numSamples } :: r.1, r.2.1, r.2.2)

/-- `__AudioWakeThreads(chan, result, step)`. -/
def __AudioWakeThreads (c : Consts) (chan : AudioChannel) (result : Int) (step : Int)
    (k : Kernel) : AudioChannel × Kernel :=
  let r := wakeLoop c result step chan.waitingThreads k false
  ({ chan with waitingThreads := r.1 }, if r.2.2 = true then __KernelReSchedule r.2.1 else r.2.1)

/-- `__AudioWakeThreads(chan, result)`, the force-wake with `step = 0x7FFFFFFF`. -/
def __AudioWakeThreadsAll (c : Consts) (chan : AudioChannel) (result : Int) (k : Kernel) :
    AudioChannel × Kernel :=
  __AudioWakeThreads c chan result 2147483647 k

/-! ## `__AudioUpdate` -/

/-- The loop `for (size_t s = 0; s < sz; s++) mixBuffer[s + off] += buf[s];`, the sum
formed in `s32`. -/
def accumulate (buf : Nat → Int) (off sz : Nat) (mixBuffer : Nat → Int) : Nat → Int :=
  loop sz (fun s mb => Function.update mb (s + off) (wrapS32 (mb (s + off) + buf s))) mixBuffer

/-- The body of the channel loop of `__AudioUpdate` (lines 362-381) for one channel. -/
def mixChannel (c : Consts) (hwBlockSize : Int) (chan : AudioChannel) (mixBuffer : Nat → Int)
    (k : Kernel) : AudioChannel × (Nat → Int) × Kernel :=
  if chan.reserved = false then (chan, mixBuffer, k)
  else
    let r := __AudioWakeThreads c chan 0 hwBlockSize k
    let chan1 := r.1
    if chan1.sampleQueue.size = 0 then (chan1, mixBuffer, r.2)
    else
      let p := chan1.sampleQueue.popPointers (hwBlockSize * 2).toNat
      let sp := p.2
      let st := chan1.sampleQueue.storage
      let mb1 := accumulate (fun s => st (sp.buf1 + s)) 0 sp.sz1 mixBuffer
      let mb2 := match sp.buf2 with
        | some b2 => accumulate (fun s => st (b2 + s)) sp.sz1 sp.sz2 mb1
        | none => mb1
      ({ chan1 with sampleQueue := p.1 }, mb2, r.2)

/-- The channel loop of `__AudioUpdate` over `chans[0 .. PSP_AUDIO_CHANNEL_MAX]`. -/
def mixChannels (c : Consts) (hwBlockSize : Int) :
    List AudioChannel → (Nat → Int) → Kernel → List AudioChannel × (Nat → Int) × Kernel
  | [], mb, k => ([], mb, k)
  | ch :: rest, mb, k =>
    let r := mixChannel c hwBlockSize ch mb k
    let r2 := mixChannels c hwBlockSize rest r.2.1 r.2.2
    (r.1 :: r2.1, r2.2.1, r2.2.2)

/-- The block at the end of `__AudioUpdate` (lines 384-407): the clamped accumulator is
written to the global output ring buffer in up to two spans. -/
def pushMixBuffer (st : AudioState) : AudioState :=
  let size : Nat := (st.hwBlockSize * 2).toNat
  let dest1 : Nat := st.mixBufferTail.toNat
  let sz1 : Nat := (MIXBUFFER_QUEUE - st.mixBufferTail).toNat
  if st.mixBufferTail + (size : Int) < MIXBUFFER_QUEUE then
    let sz1 := size
    let tail1 := st.mixBufferTail + (size : Int)
    let tail2 := if tail1 = MIXBUFFER_QUEUE then 0 else tail1
    { st with
      mixBufferTail := tail2
      mixBufferCount := st.mixBufferCount + (size : Int)
      mixBufferQueue :=
        loop sz1 (fun s q => Function.update q (dest1 + s) (clamp_s16 (st.mixBuffer s)))
          st.mixBufferQueue }
  else
    let sz2 : Nat := size - sz1
    let q1 := loop sz2 (fun s q => Function.update q s (clamp_s16 (st.mixBuffer (s + sz1))))
      st.mixBufferQueue
    { st with
      mixBufferTail := (sz2 : Int)
      mixBufferCount := st.mixBufferCount + (size : Int)
      mixBufferQueue :=
        loop sz1 (fun s q => Function.update q (dest1 + s) (clamp_s16 (st.mixBuffer s))) q1 }

/-- `__AudioUpdate`: one tick of the mix engine. -/
def __AudioUpdate (c : Consts) (st : AudioState) (k : Kernel) : AudioState × Kernel :=
  let zeroed : Nat → Int :=
    memcpy st.mixBuffer 0 (fun _ => 0) (st.hwBlockSize * 2).toNat
  let r := mixChannels c st.hwBlockSize st.chans zeroed k
  (pushMixBuffer { st with chans := r.1, mixBuffer := r.2.1 }, r.2.2)

/-! ## `__AudioMix` -/

/-- The outcome of `__AudioMix`: the module state, the caller's buffer and the returned
number of frames. -/
structure MixResult where
  state : AudioState
  outstereo : Nat → Int
  ret : Int

set_option linter.unusedVariables false in
/-- `__AudioMix(outstereo, numFrames)`. -/
def __AudioMix (st : AudioState) (outstereo : Nat → Int) (numFrames : Int) : MixResult :=
  let src1 : Nat → Int := fun j => st.mixBufferQueue (st.mixBufferHead.toNat + j)
  let src2 : Nat → Int := fun j => st.mixBufferQueue j
  let size : Nat := st.mixBufferCount.toNat
  let sz1 : Nat := (MIXBUFFER_QUEUE - st.mixBufferHead).toNat
  if st.mixBufferHead.toNat + size < MIXBUFFER_QUEUE.toNat then
    let sz1 := size
    let sz2 := 0
    let head1 := st.mixBufferHead + (size : Int)
    let head2 := if head1 = MIXBUFFER_QUEUE then 0 else head1
    { state := { st with mixBufferHead := head2,
                         mixBufferCount := st.mixBufferCount - (size : Int) }
      outstereo := memcpy outstereo 0 src1 sz1
      ret := ((sz1 + sz2) / 2 : Nat) }
  else
    let head1 : Int := ((size - sz1 : Nat) : Int)
    let sz2 : Nat := head1.toNat
    let out1 := memcpy outstereo sz1 src2 sz2
    { state := { st with mixBufferHead := head1,
                         mixBufferCount := st.mixBufferCount - (size : Int) }
      outstereo := memcpy out1 0 src1 sz1
      ret := ((sz1 + sz2) / 2 : Nat) }

/-! ## The mixed block, as the specification states it -/

/-- The `s`-th sample a tick pops from a channel, 0 when the channel holds fewer than
`s + 1` samples. -/
def poppedSample (chan : AudioChannel) (s : Nat) : Int := chan.sampleQueue.toList.getD s 0

/-- The exact integer sum, over the channels with `reserved == true`, of the `s`-th sample
popped from each. -/
def mixSum (chans : List AudioChannel) (s : Nat) : Int :=
  ((chans.filter (fun ch => ch.reserved)).map (fun ch => poppedSample ch s)).sum

/-! ## The end-to-end scenario of §8, property 8 -/

/-- The reservation of a channel as the scenario needs it (the reservation call itself is
outside this module): reserved, stereo, both volumes `vol`, a request of 64 frames at
guest address `addr`. -/
def reserveStereo (ch : AudioChannel) (vol : Int) (addr : Nat) : AudioChannel :=
  { ch with reserved := true, format := AudioFormat.PSP_AUDIO_FORMAT_STEREO, leftVolume := vol,
            rightVolume := vol, sampleAddress := addr, sampleCount := 64 }

/-- The stages of the end-to-end scenario. -/
structure Scenario where
  init : AudioState
  enqueue : EnqueueResult
  tick : AudioState × Kernel
  mix : MixResult

/-- The end-to-end scenario: `__AudioInit` with the Medium profile on a module whose channel
array is `x :: rest`, channel 0 reserved (stereo, volumes `vol`), a non-blocking
`__AudioEnqueue` of 64 frames on it, one `__AudioUpdate` tick, then `__AudioMix(buf, 64)`. -/
def endToEnd (c : Consts) (cyclesPerSecond : Int) (st : AudioState) (x : AudioChannel)
    (rest : List AudioChannel) (k : Kernel) (mem : Memory) (vol : Int) (addr : Nat)
    (buf : Nat → Int) : Scenario :=
  let init := __AudioInit MEDIUM_LATENCY cyclesPerSecond { st with chans := x :: rest }
  let chan0 := reserveStereo (init.chans.headD x) vol addr
  let enqueue := __AudioEnqueue c init.chanQueueMinSizeFactor mem k chan0 0 false
  let tick := __AudioUpdate c { init with chans := enqueue.chan :: init.chans.tail } enqueue.kernel
  let mix := __AudioMix tick.1 buf 64
  { init := init, enqueue := enqueue, tick := tick, mix := mix }

/-! ## Sequences of ticks and pulls on the global output ring buffer -/

/-- The global output ring buffer seen as a ring buffer record. -/
def mixBufferView (st : AudioState) : FixedSizeQueue :=
  { N := MIXBUFFER_QUEUE.toNat, storage := st.mixBufferQueue, head := st.mixBufferHead.toNat,
    tail := st.mixBufferTail.toNat, count := st.mixBufferCount.toNat }

/-- The ring invariant in the form the cursors keep while the buffer is not overrun:
`0 ≤ count ≤ C`, `head, tail ∈ [0, C)` and `(tail - head) mod C = count mod C`. -/
def CursorInvariant (st : AudioState) : Prop :=
  0 ≤ st.mixBufferCount ∧ st.mixBufferCount ≤ MIXBUFFER_QUEUE ∧
  0 ≤ st.mixBufferHead ∧ st.mixBufferHead < MIXBUFFER_QUEUE ∧
  0 ≤ st.mixBufferTail ∧ st.mixBufferTail < MIXBUFFER_QUEUE ∧
  (st.mixBufferTail - st.mixBufferHead) % MIXBUFFER_QUEUE =
    st.mixBufferCount % MIXBUFFER_QUEUE

instance (st : AudioState) : Decidable (CursorInvariant st) := by
  unfold CursorInvariant
  infer_instance

/-- An operation of the two timelines on the global output ring buffer: one `__AudioUpdate`
tick, or one pull `__AudioMix(outstereo, numFrames)`. -/
inductive HostOp where
  | tick
  | mix (outstereo : Nat → Int) (numFrames : Int)

/-- A run of ticks and pulls: the module and the scheduler, the concatenation of the blocks
pushed so far and the concatenation of the data the pulls returned so far. -/
structure Run where
  state : AudioState
  kernel : Kernel
  pushed : List Int
  pulled : List Int

/-- The start of a run. -/
def Run.start (st : AudioState) (k : Kernel) : Run :=
  { state := st, kernel := k, pushed := [], pulled := [] }

/-- One operation of a run. A tick pushes the block of `2 * hwBlockSize` clamped accumulator
slots; a pull returns the first `2 * ret` samples of the caller's buffer, `ret` being the
number of frames `__AudioMix` reports. -/
def Run.step (c : Consts) (r : Run) : HostOp → Run
  | HostOp.tick =>
    let u := __AudioUpdate c r.state r.kernel
    { state := u.1, kernel := u.2,
      pushed := r.pushed ++
        (List.range (r.state.hwBlockSize * 2).toNat).map (fun s => clamp_s16 (u.1.mixBuffer s)),
      pulled := r.pulled }
  | HostOp.mix outstereo numFrames =>
    let m := __AudioMix r.state outstereo numFrames
    { state := m.state, kernel := r.kernel, pushed := r.pushed,
      pulled := r.pulled ++ (List.range (2 * m.ret).toNat).map m.outstereo }

/-- A sequence of operations. -/
def Run.steps (c : Consts) (r : Run) (ops : List HostOp) : Run :=
  ops.foldl (Run.step c) r

/-- Whether `mixBufferCount` stays within `MIXBUFFER_QUEUE` before, during and after a
sequence of operations. -/
def Run.withinCapacity (c : Consts) (r : Run) : List HostOp → Bool
  | [] => decide (r.state.mixBufferCount ≤ MIXBUFFER_QUEUE)
  | op :: ops =>
    decide (r.state.mixBufferCount ≤ MIXBUFFER_QUEUE) && Run.withinCapacity c (Run.step c r op) ops

/-- The invariant of a run: the cursors satisfy the ring invariant, the fill count is a
whole number of frames, and what was pushed is what was pulled followed by what is still
queued. -/
def Run.Invariant (r : Run) : Prop :=
  CursorInvariant r.state ∧ r.state.mixBufferCount % 2 = 0 ∧
    r.pushed = r.pulled ++ mixBufferList r.state

/-! ## Save states -/

/-- The names of the section and marker records of a save state. -/
inductive Label where
  | sceAudio
  | FixedSizeQueueLR
deriving DecidableEq

/-- A record of a save-state stream: a primitive, a fixed-size array, a marker, or the
header of a named, versioned section. -/
inductive Item where
  | word (v : Int)
  | array (vs : List Int)
  | marker (name : Label)
  | header (title : Label) (ver : Int)
deriving DecidableEq

/-- The direction of a `PointerWrap`. -/
inductive Mode where
  | MODE_READ
  | MODE_WRITE
deriving DecidableEq

/-- Modelled from the spec: the state-persistence cursor of §6 (`PointerWrap`, declared in
`Common/ChunkFile.h`, which is not part of the sources at hand): "sequential typed
read/write of primitives and fixed-size arrays, with a named, versioned section marker".
In write mode `stream` holds the records written so far, in read mode the records still to
be read; `error` is raised by a read that does not find the record it expects. -/
structure PointerWrap where
  mode : Mode
  stream : List Item
  error : Bool
deriving DecidableEq

namespace PointerWrap

/-- Modelled from the spec: `p.Do(x)` on a primitive: written in write mode; in read mode
`x` becomes the recorded value, and stays what it is when the next record is no primitive. -/
def Do (p : PointerWrap) (x : Int) : PointerWrap × Int :=
  match p.mode with
  | Mode.MODE_WRITE => ({ p with stream := p.stream ++ [Item.word x] }, x)
  | Mode.MODE_READ =>
    match p.stream with
    | Item.word v :: rest => ({ p with stream := rest }, v)
    | _ => ({ p with error := true }, x)

/-- Modelled from the spec: `p.DoArray<s16>(x, count)` on a fixed-size array. -/
def DoArray (p : PointerWrap) (x : Nat → Int) (count : Nat) : PointerWrap × (Nat → Int) :=
  match p.mode with
  | Mode.MODE_WRITE => ({ p with stream := p.stream ++ [Item.array ((List.range count).map x)] }, x)
  | Mode.MODE_READ =>
    match p.stream with
    | Item.array vs :: rest =>
      if vs.length = count then
        ({ p with stream := rest }, fun i => if i < count then vs.getD i 0 else x i)
      else ({ p with error := true }, x)
    | _ => ({ p with error := true }, x)

/-- Modelled from the spec: `p.DoMarker(name)`. -/
def DoMarker (p : PointerWrap) (name : Label) : PointerWrap :=
  match p.mode with
  | Mode.MODE_WRITE => { p with stream := p.stream ++ [Item.marker name] }
  | Mode.MODE_READ =>
    match p.stream with
    | Item.marker n :: rest => if n = name then { p with stream := rest } else { p with error := true }
    | _ => { p with error := true }

/-- Modelled from the spec: `p.Section(title, ver)`, the named, versioned section marker;
the second component tells whether the section may be processed (on reading: the header is
there, carries the title and a version from 1 to `ver`). -/
def Section (p : PointerWrap) (title : Label) (ver : Int) : PointerWrap × Bool :=
  match p.mode with
  | Mode.MODE_WRITE => ({ p with stream := p.stream ++ [Item.header title ver] }, true)
  | Mode.MODE_READ =>
    match p.stream with
    | Item.header t v :: rest =>
      if t = title ∧ 1 ≤ v ∧ v ≤ ver then ({ p with stream := rest }, true)
      else ({ p with error := true }, false)
    | _ => ({ p with error := true }, false)

end PointerWrap

/-- The two event handles `eventAudioUpdate` and `eventHostAudioUpdate`. -/
structure EventIds where
  eventAudioUpdate : Int
  eventHostAudioUpdate : Int
deriving DecidableEq

/-- The function `queue_DoState`. -/
def queue_DoState (p : PointerWrap) (st : AudioState) : PointerWrap × AudioState :=
  let size := p.Do MIXBUFFER_QUEUE
  if size.2 ≠ MIXBUFFER_QUEUE then (size.1, st)
  else
    let q := size.1.DoArray st.mixBufferQueue MIXBUFFER_QUEUE.toNat
    let h := q.1.Do st.mixBufferHead
    let t := h.1.Do st.mixBufferTail
    let n := t.1.Do st.mixBufferCount
    (n.1.DoMarker Label.FixedSizeQueueLR,
     { st with mixBufferQueue := q.2, mixBufferHead := h.2, mixBufferTail := t.2,
               mixBufferCount := n.2 })

/-- The loop `for (int i = 0; i < chanCount; ++i) chans[i].DoState(p);`. The save and load
of one channel, `AudioChannel::DoState`, is defined outside `__sceAudio.cpp` and is a
parameter. -/
def chansDoState (chanDoState : PointerWrap → AudioChannel → PointerWrap × AudioChannel) :
    PointerWrap → List AudioChannel → PointerWrap × List AudioChannel
  | p, [] => (p, [])
  | p, ch :: rest =>
    let r := chanDoState p ch
    let r2 := chansDoState chanDoState r.1 rest
    (r2.1, r.2 :: r2.2)

/-- The outcome of `__AudioDoState`. -/
structure DoStateResult where
  p : PointerWrap
  events : EventIds
  state : AudioState

/-- `__AudioDoState(p)`. `cyclesPerSecond` is the value of `usToCycles(1000000ULL)` that the
closing `__AudioCPUMHzChange` uses; the two `RestoreRegisterEvent` calls concern the event
scheduler only. -/
def __AudioDoState (chanDoState : PointerWrap → AudioChannel → PointerWrap × AudioChannel)
    (cyclesPerSecond : Int) (p : PointerWrap) (ev : EventIds) (st : AudioState) :
    DoStateResult :=
  let s := p.Section Label.sceAudio 1
  if s.2 = false then { p := s.1, events := ev, state := st }
  else
    let e1 := s.1.Do ev.eventAudioUpdate
    let e2 := e1.1.Do ev.eventHostAudioUpdate
    let f := e2.1.Do st.mixFrequency
    let q := queue_DoState f.1 { st with mixFrequency := f.2 }
    let chanCount := q.1.Do (st.chans.length : Int)
    let ev2 : EventIds := { eventAudioUpdate := e1.2, eventHostAudioUpdate := e2.2 }
    if chanCount.2 ≠ (st.chans.length : Int) then
      { p := chanCount.1, events := ev2, state := q.2 }
    else
      let cs := chansDoState chanDoState chanCount.1 q.2.chans
      { p := cs.1, events := ev2,
        state := __AudioCPUMHzChange cyclesPerSecond { q.2 with chans := cs.2 } }

/-- Modelled from the spec: `AudioChannel::DoState` (defined outside `__sceAudio.cpp`): a
channel "persists across save-state round trips including queue contents and pending
waits". The attributes of §3 are saved and loaded in turn: the flags and the request, the
wait list (its length, the thread handles, the counters), the queue (contents and
cursors). -/
def AudioChannel.DoState (p : PointerWrap) (ch : AudioChannel) : PointerWrap × AudioChannel :=
  let r := p.Do (if ch.reserved = true then 1 else 0)
  let a := r.1.Do (ch.sampleAddress : Int)
  let n := a.1.Do (ch.sampleCount : Int)
  let l := n.1.Do ch.leftVolume
  let v := l.1.Do ch.rightVolume
  let f := v.1.Do (if ch.format = AudioFormat.PSP_AUDIO_FORMAT_STEREO then 0 else 16)
  let wn := f.1.Do (ch.waitingThreads.length : Int)
  let wt := wn.1.DoArray (fun i => (ch.waitingThreads.map (fun w => w.threadID)).getD i 0)
    wn.2.toNat
  let ws := wt.1.DoArray (fun i => (ch.waitingThreads.map (fun w => w.numSamples)).getD i 0)
    wn.2.toNat
  let qs := ws.1.DoArray ch.sampleQueue.storage ch.sampleQueue.N
  let qh := qs.1.Do (ch.sampleQueue.head : Int)
  let qt := qh.1.Do (ch.sampleQueue.tail : Int)
  let qc := qt.1.Do (ch.sampleQueue.count : Int)
  (qc.1,
   { reserved := decide (r.2 ≠ 0), sampleAddress := a.2.toNat, sampleCount := n.2.toNat,
     leftVolume := l.2, rightVolume := v.2,
     format := if f.2 = 0 then AudioFormat.PSP_AUDIO_FORMAT_STEREO
               else AudioFormat.PSP_AUDIO_FORMAT_MONO,
     waitingThreads := (List.range wn.2.toNat).map
       (fun i => { threadID := wt.2 i, numSamples := ws.2 i }),
     sampleQueue := { N := ch.sampleQueue.N, storage := qs.2, head := qh.2.toNat,
                      tail := qt.2.toNat, count := qc.2.toNat } })

/-- The module state after a save of `st` followed, on a module in the state `st2`, by a
load of the stream the save produced. -/
def saveThenLoad (chanDoState : PointerWrap → AudioChannel → PointerWrap × AudioChannel)
    (cpsSave cpsLoad : Int) (ev : EventIds) (st : AudioState) (ev2 : EventIds)
    (st2 : AudioState) : AudioState :=
  let saved := __AudioDoState chanDoState cpsSave
    { mode := Mode.MODE_WRITE, stream := [], error := false } ev st
  (__AudioDoState chanDoState cpsLoad
    { mode := Mode.MODE_READ, stream := saved.p.stream, error := false } ev2 st2).state

/-! ## Repeated drains and the force-wake, as the specification states them -/

/-- The channel and the scheduler after `n` calls `__AudioWakeThreads(chan, 0, step)` in a
row. -/
def drainCalls (c : Consts) (step : Int) : Nat → AudioChannel × Kernel → AudioChannel × Kernel
  | 0, s => s
  | n + 1, s => __AudioWakeThreads c (drainCalls c step n s).1 0 step (drainCalls c step n s).2

/-- The distinct elements of a list, in the order of their first occurrence. -/
def firstOccurrences : List Int → List Int
  | [] => []
  | t :: ts => t :: (firstOccurrences ts).filter (fun u => decide (u ≠ t))

/-- The resumptions a force-wake owes: every thread that has an entry in the wait list and
is parked on an audio-channel wait, once, in the order of the entries, with its stashed
wait value when `result == 0` and with `SCE_ERROR_AUDIO_CHANNEL_NOT_RESERVED` otherwise. -/
def forceWoken (c : Consts) (chan : AudioChannel) (result : Int) (k : Kernel) :
    List (Int × Nat) :=
  ((firstOccurrences (chan.waitingThreads.map (fun e => e.threadID))).filter
      (fun t => decide (__KernelGetWaitID k t c.WAITTYPE_AUDIOCHANNEL ≠ 0))).map
    (fun t => (t, if result = 0 then __KernelGetWaitValue k t
                  else c.SCE_ERROR_AUDIO_CHANNEL_NOT_RESERVED))

/-! ## The channel states the module reaches -/

/-- The parity invariant of a channel queue that holds whole stereo frames: the length is
even and, on an even capacity, so are both cursors. -/
def FixedSizeQueue.WholeFrames (q : FixedSizeQueue) : Prop :=
  q.count % 2 = 0 ∧ (q.N % 2 = 0 → q.head % 2 = 0 ∧ q.tail % 2 = 0)

/-- What happens to one channel between two enqueues. `configure` stands for the callers
outside this file, which set the request fields and the reservation before they call
`__AudioEnqueue`; `enqueue` is `__AudioEnqueue`; `tick` is the share of one channel in
`__AudioUpdate`; `wake` is `__AudioWakeThreads`; `clear` is the reset of `__AudioInit` and
`__AudioShutdown`. Every step comes with the scheduler (and, for a tick, the accumulator)
it runs on; the steps range over every scheduler, guest memory and divisor, so the states
reached by them include every state the running module reaches. -/
inductive ChanOp where
  | configure (reserved : Bool) (sampleAddress sampleCount : Nat)
      (leftVolume rightVolume : Int) (format : AudioFormat)
  | enqueue (c : Consts) (minFactor : Int) (mem : Memory) (k : Kernel) (chanNum : Int)
      (blocking : Bool)
  | tick (c : Consts) (hwBlockSize : Int) (mixBuffer : Nat → Int) (k : Kernel)
  | wake (c : Consts) (result step : Int) (k : Kernel)
  | clear

/-- The channel after one step. -/
def ChanOp.apply : ChanOp → AudioChannel → AudioChannel
  | .configure reserved sampleAddress sampleCount leftVolume rightVolume format, chan =>
    { chan with reserved := reserved, sampleAddress := sampleAddress,
                sampleCount := sampleCount, leftVolume := leftVolume,
                rightVolume := rightVolume, format := format }
  | .enqueue c minFactor mem k chanNum blocking, chan =>
    (__AudioEnqueue c minFactor mem k chan chanNum blocking).chan
  | .tick c hwBlockSize mixBuffer k, chan => (mixChannel c hwBlockSize chan mixBuffer k).1
  | .wake c result step k, chan => (__AudioWakeThreads c chan result step k).1
  | .clear, chan => chan.clear

/-- The channel a sequence of steps reaches from the cleared channel `__AudioInit` leaves. -/
def AudioChannel.after (chan : AudioChannel) (ops : List ChanOp) : AudioChannel :=
  ops.foldl (fun ch op => op.apply ch) chan.clear

/-! ## Concrete inputs

Small concrete constants, channels and states on which the definitions above are evaluated. -/

/-- Values for the header constants. -/
def exConsts : Consts :=
  { PSP_AUDIO_CHANNEL_SRC := 8
    PSP_AUDIO_CHANNEL_OUTPUT2 := 8
    SCE_ERROR_AUDIO_CHANNEL_BUSY := 0x80260009
    SCE_KERNEL_ERROR_CAN_NOT_WAIT := 0x800201a7
    SCE_ERROR_AUDIO_CHANNEL_NOT_RESERVED := 0x80260008
    WAITTYPE_AUDIOCHANNEL := 10
    IS_LITTLE_ENDIAN := true }

/-- The same constants on a big-endian build. -/
def exConstsBE : Consts := { exConsts with IS_LITTLE_ENDIAN := false }

/-- A scheduler with thread 42 running and nobody parked. -/
def exKernel (dispatchEnabled : Bool) : Kernel :=
  { dispatchEnabled := dispatchEnabled, curThread := 42, waits := [], resumed := [],
    reschedules := 0 }

/-- Guest memory in which every `s16` at an even address is 1000 (`0x03E8`). -/
def exMem : Memory := fun a => if a % 2 = 0 then 0xE8 else 0x03

/-- A channel queue of capacity 512 holding `n` zero samples. -/
def exQueue (n : Nat) : FixedSizeQueue :=
  { N := 512, storage := fun _ => 0, head := 0, tail := n, count := n }

/-- A reserved channel with `queued` samples pending and a request of `sampleCount` frames
at guest address `sampleAddress`, both gains `vol`. -/
def exChan (format : AudioFormat) (vol : Int) (queued sampleAddress sampleCount : Nat) :
    AudioChannel :=
  { reserved := true, sampleAddress := sampleAddress, sampleCount := sampleCount,
    leftVolume := vol, rightVolume := vol, format := format, waitingThreads := [],
    sampleQueue := exQueue queued }

/-- A channel queue of capacity 512 holding `n` samples of value `v`. -/
def exTone (v : Int) (n : Nat) : FixedSizeQueue :=
  { N := 512, storage := fun _ => v, head := 0, tail := n, count := n }

/-- A module state before `__AudioInit`: nine channels in an arbitrary condition, the
global ring buffer filled with the value 7. -/
def exBoot : AudioState :=
  { mixFrequency := 48000, hwBlockSize := 64, hostAttemptBlockSize := 512,
    audioIntervalCycles := 0, audioHostIntervalCycles := 0,
    chanQueueMaxSizeFactor := 0, chanQueueMinSizeFactor := 0,
    mixBufferQueue := fun _ => 7, mixBufferHead := 3, mixBufferTail := 5, mixBufferCount := 2,
    mixBuffer := fun _ => 9,
    chans := List.replicate 9 (exChan AudioFormat.PSP_AUDIO_FORMAT_MONO 0 2 0 0) }

/-- The module after `__AudioInit` with the Medium profile at 222 MHz. -/
def exInit : AudioState := __AudioInit MEDIUM_LATENCY 222000000 exBoot

/-- The module after `__AudioInit` and two `__AudioUpdate` ticks. -/
def exTwoTicks : AudioState :=
  (__AudioUpdate exConsts (__AudioUpdate exConsts exInit (exKernel true)).1 (exKernel true)).1

/-- A module in which two reserved channels hold 128 queued samples each, of value 1000
and of value 32000, and a third channel is not reserved. -/
def exTwoChannels : AudioState :=
  { exInit with
    chans :=
      [{ (exChan AudioFormat.PSP_AUDIO_FORMAT_STEREO 32768 0 0 0) with sampleQueue := exTone 1000 128 },
       { (exChan AudioFormat.PSP_AUDIO_FORMAT_STEREO 32768 0 0 0) with sampleQueue := exTone 32000 128 },
       { (exChan AudioFormat.PSP_AUDIO_FORMAT_STEREO 32768 0 0 0) with
           reserved := false, sampleQueue := exTone 5 128 }] }

/-- A scheduler in which thread 42 is parked on an audio-channel wait with the given key and
the stashed value 77. -/
def exParked (waitID : Int) : Kernel :=
  { dispatchEnabled := true, curThread := 7,
    waits := [{ threadID := 42, waitType := 10, waitID := waitID, waitValue := 77 }],
    resumed := [], reschedules := 0 }

/-- A reserved channel whose wait list holds one entry of thread 42 with the given
counter. -/
def exWaiting (numSamples : Int) : AudioChannel :=
  { (exChan AudioFormat.PSP_AUDIO_FORMAT_STEREO 32768 4 0 0) with
    waitingThreads := [{ threadID := 42, numSamples := numSamples }] }

/-- Guest memory in which every `s16` at an even address is 32767 (`0x7FFF`). -/
def exLoud : Memory := fun a => if a % 2 = 0 then 0xFF else 0x7F

/-- Guest memory holding a ramp: the `s16` at the even address `a` is
`256 * ((a / 2) % 64)`, so sample `i` of a buffer at `0x08800000` is `256 * i` for
`i < 64`. -/
def exRamp : Memory := fun a => if a % 2 = 0 then 0 else (a / 2) % 64

/-- An empty channel queue of capacity 8 with both cursors at `cursor`. -/
def exSplitQueue (cursor : Nat) : FixedSizeQueue :=
  { N := 8, storage := fun _ => 0, head := cursor, tail := cursor, count := 0 }

/-- A reserved stereo channel on `exSplitQueue cursor` with a request of four frames at
guest address `0x08800000`. -/
def exSplitChan (leftVol rightVol : Int) (cursor : Nat) : AudioChannel :=
  { reserved := true, sampleAddress := 0x08800000, sampleCount := 4,
    leftVolume := leftVol, rightVolume := rightVol,
    format := AudioFormat.PSP_AUDIO_FORMAT_STEREO, waitingThreads := [],
    sampleQueue := exSplitQueue cursor }

/-- A reserved channel whose wait list holds two entries of thread 42, with the counters 10
and 100. -/
def exWaitingTwice : AudioChannel :=
  { (exChan AudioFormat.PSP_AUDIO_FORMAT_STEREO 32768 4 0 0) with
    waitingThreads :=
      [{ threadID := 42, numSamples := 10 }, { threadID := 42, numSamples := 100 }] }

/-- A stereo channel of capacity 8 after an enqueue of two frames, a mix tick that pops
them, and a new request of four frames with the given volumes: the queue is empty with both
cursors at 4, so the write of the request is split into two spans of four samples. -/
def exReached (leftVol rightVol : Int) : AudioChannel :=
  (exSplitChan leftVol rightVol 0).after
    [ChanOp.configure true 0x08800000 2 leftVol rightVol AudioFormat.PSP_AUDIO_FORMAT_STEREO,
     ChanOp.enqueue exConsts 1 exRamp (exKernel true) 0 false,
     ChanOp.tick exConsts 2 (fun _ => 0) (exKernel true),
     ChanOp.configure true 0x08800000 4 leftVol rightVol AudioFormat.PSP_AUDIO_FORMAT_STEREO]

/-! ## Arithmetic and loop lemmas -/

/-- One more iteration of a counted loop. -/
theorem loop_succ {σ : Type} (n : Nat) (body : Nat → σ → σ) (s : σ) :
    loop (n + 1) body s = body n (loop n body s) := rfl

/-- A loop of zero iterations. -/
theorem loop_zero {σ : Type} (body : Nat → σ → σ) (s : σ) : loop 0 body s = s := rfl

/-- The wrap is the identity on the range of `int`. -/
theorem wrapS32_of_range (x : Int) (h1 : -2147483648 ≤ x) (h2 : x < 2147483648) :
    wrapS32 x = x := by
  unfold wrapS32; omega

/-- The wrap is the identity on the range of `u32`. -/
theorem wrapU32_of_lt (x : Nat) (h : x < 4294967296) : wrapU32 x = x := by
  unfold wrapU32; omega

/-- A clamped value is an `s16`. -/
theorem clamp_s16_isS16 (i : Int) : isS16 (clamp_s16 i) := by
  unfold clamp_s16 isS16; split_ifs <;> omega

/-- Clamping leaves an `s16` alone. -/
theorem clamp_s16_of_isS16 (i : Int) (h : isS16 i) : clamp_s16 i = i := by
  unfold clamp_s16; unfold isS16 at h; split_ifs <;> omega

/-- A decoded 16-bit pattern is an `s16`. -/
theorem toS16_isS16 (u : Nat) : isS16 (toS16 u) := by
  unfold toS16 isS16; split_ifs <;> omega

/-- A sample read from guest memory is an `s16`. -/
theorem readS16_isS16 (mem : Memory) (a : Nat) : isS16 (readS16 mem a) := toS16_isS16 _

/-- A scaled sample is an `s16`. -/
theorem adjustvolume_isS16 (s v : Int) : isS16 (adjustvolume s v) := clamp_s16_isS16 _

/-- The product of an `s16` and a gain in `[0, 2^16]` fits in `int`. -/
theorem mul_vol_range (s v : Int) (hs : isS16 s) (h0 : 0 ≤ v) (h1 : v ≤ 65536) :
    -2147483648 ≤ s * v ∧ s * v < 2147483648 := by
  obtain ⟨a, b⟩ := hs
  constructor <;> nlinarith

/-- Scaling an `s16` by `2^16` returns it. -/
theorem adjustvolume_unity (s : Int) (hs : isS16 s) : adjustvolume s 65536 = s := by
  unfold adjustvolume
  have h := mul_vol_range s 65536 hs (by norm_num) (by norm_num)
  rw [wrapS32_of_range _ h.1 h.2, Int.mul_ediv_cancel _ (by norm_num)]
  exact clamp_s16_of_isS16 s hs

/-- An index below twice the capacity wraps at most once. -/
theorem mod_cases (x N : Nat) (h : x < 2 * N) :
    (x < N ∧ x % N = x) ∨ (N ≤ x ∧ x % N = x - N) := by
  by_cases hx : x < N
  · exact Or.inl ⟨hx, Nat.mod_eq_of_lt hx⟩
  · right
    refine ⟨by omega, ?_⟩
    rw [Nat.mod_eq_sub_mod (by omega)]
    exact Nat.mod_eq_of_lt (by omega)

/-- Pointwise reading of a copy. -/
theorem memcpy_apply (dst : Nat → Int) (off : Nat) (src : Nat → Int) (n i : Nat) :
    memcpy dst off src n i = if off ≤ i ∧ i < off + n then src (i - off) else dst i := rfl

/-- Pointwise reading of the accumulation loop. -/
theorem accumulate_apply (buf : Nat → Int) (off sz : Nat) (mb : Nat → Int) (x : Nat) :
    accumulate buf off sz mb x =
      if off ≤ x ∧ x < off + sz then wrapS32 (mb x + buf (x - off)) else mb x := by
  unfold accumulate
  induction sz with
  | zero =>
    have h1 : ¬ (off ≤ x ∧ x < off + 0) := by omega
    rw [if_neg h1]; rfl
  | succ n ih =>
    rw [loop_succ]
    by_cases hx : x = n + off
    · subst hx
      simp only [Function.update_same]
      rw [ih]
      clear ih
      have h1 : ¬ (off ≤ n + off ∧ n + off < off + n) := by omega
      have h2 : off ≤ n + off ∧ n + off < off + (n + 1) := by omega
      rw [if_neg h1, if_pos h2]
      simp
    · rw [Function.update_noteq hx, ih]
      clear ih
      by_cases h3 : off ≤ x ∧ x < off + n
      · rw [if_pos h3, if_pos (by omega)]
      · rw [if_neg h3, if_neg (by omega)]

/-! ## Lemmas on the channel ring buffer -/

/-- The abstraction of a queue has `count` elements. -/
theorem toList_length (q : FixedSizeQueue) : q.toList.length = q.count := by
  simp [FixedSizeQueue.toList]

/-- Reading the abstraction of a queue by position. -/
theorem toList_getD (q : FixedSizeQueue) (s : Nat) :
    q.toList.getD s 0 = if s < q.count then q.storage ((q.head + s) % q.N) else 0 := by
  unfold FixedSizeQueue.toList
  by_cases h : s < q.count
  · rw [if_pos h, List.getD_eq_getElem?_getD, List.getElem?_map,
      List.getElem?_range h]
    rfl
  · rw [if_neg h, List.getD_eq_getElem?_getD, List.getElem?_eq_none (by simpa using h)]
    rfl

/-- A write of `n` samples behind the tail that leaves the queued samples alone appends
the written data to the abstraction. -/
theorem toList_append_of_write (q q2 : FixedSizeQueue) (n : Nat) (data : Nat → Int)
    (hwf : q.WF) (hN : q2.N = q.N) (hh : q2.head = q.head) (hc : q2.count = q.count + n)
    (hnew : ∀ j, j < n → q2.storage ((q.tail + j) % q.N) = data j)
    (hold : ∀ i, i < q.count →
      q2.storage ((q.head + i) % q.N) = q.storage ((q.head + i) % q.N)) :
    q2.toList = q.toList ++ (List.range n).map data := by
  obtain ⟨_, _, _, _, _, ht⟩ := hwf
  unfold FixedSizeQueue.toList
  rw [hc, hN, hh, List.range_add, List.map_append, List.map_map]
  congr 1
  · apply List.map_congr_left
    intro i hi
    exact hold i (List.mem_range.mp hi)
  · apply List.map_congr_left
    intro j hj
    have hj2 := hnew j (List.mem_range.mp hj)
    simp only [Function.comp]
    rw [← hj2, ht, Nat.mod_add_mod, Nat.add_assoc]

/-- A single push keeps the ring invariant and appends the sample. -/
theorem push_spec (q : FixedSizeQueue) (t : Int) (hwf : q.WF) (hroom : q.count < q.N) :
    (q.push t).WF ∧ (q.push t).toList = q.toList ++ [t] ∧ (q.push t).N = q.N ∧
      (q.push t).count = q.count + 1 := by
  have hwf2 := hwf
  obtain ⟨h0, hb, hh, ht, hc, hm⟩ := hwf
  have hcase := mod_cases (q.head + q.count) q.N (by omega)
  refine ⟨?_, ?_, rfl, rfl⟩
  · refine ⟨h0, hb, hh, ?_, ?_, ?_⟩
    · show (if q.tail + 1 = q.N then 0 else q.tail + 1) < q.N
      split_ifs <;> omega
    · show q.count + 1 ≤ q.N
      omega
    · show (if q.tail + 1 = q.N then 0 else q.tail + 1) = (q.head + (q.count + 1)) % q.N
      have hcase2 := mod_cases (q.head + (q.count + 1)) q.N (by omega)
      split_ifs <;> omega
  · have := toList_append_of_write q (q.push t) 1 (fun _ => t) hwf2 rfl rfl rfl ?_ ?_
    · simpa using this
    · intro j hj
      have : j = 0 := by omega
      subst this
      show Function.update q.storage q.tail t ((q.tail + 0) % q.N) = t
      rw [Nat.add_zero, Nat.mod_eq_of_lt ht, Function.update_same]
    · intro i hi
      show Function.update q.storage q.tail t ((q.head + i) % q.N) = _
      have hcase2 := mod_cases (q.head + i) q.N (by omega)
      rw [Function.update_noteq]
      omega

/-- Popping from a queue with the ring invariant drops samples from the front of the
abstraction, as many as requested or all of them, and keeps the invariant. -/
theorem popPointers_spec (q : FixedSizeQueue) (n : Nat) (hwf : q.WF) :
    (q.popPointers n).1.toList = q.toList.drop n ∧ (q.popPointers n).1.WF ∧
      (q.popPointers n).1.count = q.count - n ∧ (q.popPointers n).1.N = q.N ∧
      (q.popPointers n).1.storage = q.storage := by
  obtain ⟨h0, hb, hh, ht, hc, hm⟩ := hwf
  obtain ⟨m, hm1, hm2⟩ : ∃ m, m = (if n > q.count then q.count else n) ∧ m ≤ q.count := by
    refine ⟨_, rfl, ?_⟩
    split_ifs <;> omega
  have hdrop : q.toList.drop n = q.toList.drop m := by
    rw [hm1]
    split_ifs with h
    · rw [List.drop_of_length_le (by rw [toList_length]; omega),
        List.drop_of_length_le (by rw [toList_length])]
    · rfl
  have hcnt : q.count - n = q.count - m := by
    rw [hm1]; split_ifs <;> omega
  rw [hdrop, hcnt]
  have hcase := mod_cases (q.head + q.count) q.N (by omega)
  have key : ∀ h2 : Nat, (h2 = q.head + m ∨ h2 + q.N = q.head + m) → h2 < q.N →
      (List.range (q.count - m)).map (fun i => q.storage ((h2 + i) % q.N)) =
        q.toList.drop m := by
    intro h2 hh2 hlt
    unfold FixedSizeQueue.toList
    rw [← List.map_drop]
    have hr : List.drop m (List.range q.count) = (List.range (q.count - m)).map (m + ·) := by
      apply List.ext_getElem
      · simp
      · intro i h1 h3
        simp
    rw [hr, List.map_map]
    apply List.map_congr_left
    intro i hi
    simp only [Function.comp]
    congr 1
    rcases hh2 with h | h
    · rw [h, Nat.add_assoc]
    · rw [show q.head + (m + i) = h2 + i + q.N by omega, Nat.add_mod_right]
  unfold FixedSizeQueue.popPointers
  simp only [← hm1]
  by_cases hbr : q.head + m < q.N
  · rw [if_pos hbr]
    refine ⟨key (q.head + m) (Or.inl rfl) hbr, ⟨h0, hb, hbr, ht, ?_, ?_⟩, rfl, rfl, rfl⟩
    · show q.count - m ≤ q.N
      omega
    · show q.tail = (q.head + m + (q.count - m)) % q.N
      rw [show q.head + m + (q.count - m) = q.head + q.count by omega]
      exact hm
  · rw [if_neg hbr]
    have hlt : m - (q.N - q.head) < q.N := by omega
    refine ⟨key (m - (q.N - q.head)) (Or.inr (by omega)) hlt, ⟨h0, hb, hlt, ht, ?_, ?_⟩, rfl, rfl, rfl⟩
    · show q.count - m ≤ q.N
      omega
    · show q.tail = (m - (q.N - q.head) + (q.count - m)) % q.N
      have hcase3 := mod_cases (m - (q.N - q.head) + (q.count - m)) q.N (by omega)
      omega

/-! ## Lemmas on the data path of `__AudioEnqueue` -/

/-- The samples the mono path appends for the first `n` input samples: every input sample
twice, scaled by the left and by the right gain. -/
theorem mono_loop_spec (rd : Nat → Int) (lv rv : Int) (chan : AudioChannel) (n : Nat)
    (hwf : chan.sampleQueue.WF) (hroom : chan.sampleQueue.count + 2 * n ≤ chan.sampleQueue.N) :
    let r := loop n
      (fun i ch =>
        let sample := rd (wrapU32 (ch.sampleAddress + 2 * i))
        let q1 := ch.sampleQueue.push (adjustvolume sample lv)
        { ch with sampleQueue := q1.push (adjustvolume sample rv) })
      chan
    r.sampleQueue.WF ∧
    r.sampleQueue.toList = chan.sampleQueue.toList ++ (List.range (2 * n)).map (fun j =>
      adjustvolume (rd (wrapU32 (chan.sampleAddress + 2 * (j / 2))))
        (if j % 2 = 0 then lv else rv)) ∧
    r.sampleQueue.count = chan.sampleQueue.count + 2 * n ∧
    r.sampleQueue.N = chan.sampleQueue.N ∧
    r.sampleAddress = chan.sampleAddress ∧ r.sampleCount = chan.sampleCount ∧
    r.waitingThreads = chan.waitingThreads ∧ r.reserved = chan.reserved ∧
    r.format = chan.format ∧ r.leftVolume = chan.leftVolume ∧
    r.rightVolume = chan.rightVolume := by
  induction n with
  | zero => simpa [loop] using hwf
  | succ n ih =>
    have ih2 := ih (by omega)
    clear ih
    simp only [loop_succ]
    simp only at ih2
    generalize loop n _ chan = r at ih2 ⊢
    obtain ⟨h1, h2, h3, h4, h5, h6, h7, h8, h9, h10, h11⟩ := ih2
    have p1 := push_spec r.sampleQueue
      (adjustvolume (rd (wrapU32 (r.sampleAddress + 2 * n))) lv) h1 (by omega)
    obtain ⟨p1a, p1b, p1c, p1d⟩ := p1
    have p2 := push_spec _ (adjustvolume (rd (wrapU32 (r.sampleAddress + 2 * n))) rv)
      p1a (by omega)
    obtain ⟨p2a, p2b, p2c, p2d⟩ := p2
    refine ⟨p2a, ?_, ?_, ?_, h5, h6, h7, h8, h9, h10, h11⟩
    · show ((r.sampleQueue.push _).push _).toList = _
      rw [p2b, p1b, h2, h5, show 2 * (n + 1) = 2 * n + 1 + 1 by ring, List.range_succ,
        List.range_succ]
      have e1 : 2 * n / 2 = n := by omega
      have e2 : (2 * n + 1) / 2 = n := by omega
      have e3 : 2 * n % 2 = 0 := by omega
      have e4 : ¬ ((2 * n + 1) % 2 = 0) := by omega
      simp [e1, e2, e3, e4]
    · show ((r.sampleQueue.push _).push _).count = _
      rw [p2d, p1d, h3]; ring
    · show ((r.sampleQueue.push _).push _).N = _
      rw [p2c, p1c, h4]

/-- The queue `pushPointers` leaves behind: only `tail` and `count` move. -/
theorem pushPointers_fst (q : FixedSizeQueue) (n : Nat) :
    (q.pushPointers n).1.count = q.count + n ∧ (q.pushPointers n).1.N = q.N ∧
      (q.pushPointers n).1.head = q.head ∧ (q.pushPointers n).1.storage = q.storage := by
  unfold FixedSizeQueue.pushPointers
  split_ifs <;> exact ⟨rfl, rfl, rfl, rfl⟩

/-- The storage after the bulk copy, case of a single span. -/
theorem enqueueFast_storage_one (mem : Memory) (chan : AudioChannel)
    (h : chan.sampleQueue.tail + wrapU32 (chan.sampleCount * 2) < chan.sampleQueue.N) :
    (enqueueFast mem chan).sampleQueue.storage =
      memcpy chan.sampleQueue.storage chan.sampleQueue.tail
        (fun j => readS16 mem (chan.sampleAddress + 2 * j)) (wrapU32 (chan.sampleCount * 2)) := by
  simp only [enqueueFast, FixedSizeQueue.pushPointers, if_pos h]

/-- The storage after the bulk copy, case of two spans. -/
theorem enqueueFast_storage_two (mem : Memory) (chan : AudioChannel)
    (h : ¬ chan.sampleQueue.tail + wrapU32 (chan.sampleCount * 2) < chan.sampleQueue.N) :
    (enqueueFast mem chan).sampleQueue.storage =
      memcpy
        (memcpy chan.sampleQueue.storage chan.sampleQueue.tail
          (fun j => readS16 mem (chan.sampleAddress + 2 * j))
          (chan.sampleQueue.N - chan.sampleQueue.tail))
        0
        (fun j => readS16 mem
          (chan.sampleAddress + (chan.sampleQueue.N - chan.sampleQueue.tail) * 2 + 2 * j))
        (wrapU32 (chan.sampleCount * 2) - (chan.sampleQueue.N - chan.sampleQueue.tail)) := by
  simp only [enqueueFast, FixedSizeQueue.pushPointers, if_neg h]

/-- The bulk copy does not touch the other fields of the channel. -/
theorem enqueueFast_fields (mem : Memory) (chan : AudioChannel) :
    (enqueueFast mem chan).waitingThreads = chan.waitingThreads ∧
    (enqueueFast mem chan).reserved = chan.reserved ∧
    (enqueueFast mem chan).sampleQueue.N = chan.sampleQueue.N ∧
    (enqueueFast mem chan).sampleQueue.head = chan.sampleQueue.head ∧
    (enqueueFast mem chan).sampleQueue.count =
      chan.sampleQueue.count + wrapU32 (chan.sampleCount * 2) :=
  have h := pushPointers_fst chan.sampleQueue (wrapU32 (chan.sampleCount * 2))
  ⟨rfl, rfl, h.2.1, h.2.2.1, h.1⟩

/-- The fast path appends the guest samples unchanged. -/
theorem enqueueFast_spec (mem : Memory) (chan : AudioChannel) (hwf : chan.sampleQueue.WF)
    (hroom : chan.sampleQueue.count + 2 * chan.sampleCount ≤ chan.sampleQueue.N) :
    (enqueueFast mem chan).sampleQueue.toList = chan.sampleQueue.toList ++
      (List.range (2 * chan.sampleCount)).map
        (fun j => readS16 mem (chan.sampleAddress + 2 * j)) ∧
    (enqueueFast mem chan).sampleQueue.count = chan.sampleQueue.count + 2 * chan.sampleCount := by
  have hwf2 := hwf
  obtain ⟨h0, hb, hh, ht, hc, hm⟩ := hwf
  have hw : wrapU32 (chan.sampleCount * 2) = 2 * chan.sampleCount := by
    rw [wrapU32_of_lt _ (by omega)]; ring
  have hcase := mod_cases (chan.sampleQueue.head + chan.sampleQueue.count) chan.sampleQueue.N
    (by omega)
  have hf := enqueueFast_fields mem chan
  rw [hw] at hf
  refine ⟨?_, hf.2.2.2.2⟩
  apply toList_append_of_write chan.sampleQueue _ _ _ hwf2 hf.2.2.1 hf.2.2.2.1 hf.2.2.2.2
  · intro j hj
    have hcj := mod_cases (chan.sampleQueue.tail + j) chan.sampleQueue.N (by omega)
    by_cases hbr : chan.sampleQueue.tail + wrapU32 (chan.sampleCount * 2) < chan.sampleQueue.N
    · rw [enqueueFast_storage_one mem chan hbr, memcpy_apply]
      rw [hw] at hbr ⊢
      rw [if_pos (by omega)]
      congr 2
      omega
    · rw [enqueueFast_storage_two mem chan hbr]
      simp only [memcpy_apply]
      rw [hw] at hbr ⊢
      rcases hcj with ⟨hlt, he⟩ | ⟨hge, he⟩
      · rw [he, if_neg (by omega), if_pos (by omega)]
        congr 2
        omega
      · rw [he, if_pos (by omega)]
        congr 1
        omega
  · intro i hi
    have hci := mod_cases (chan.sampleQueue.head + i) chan.sampleQueue.N (by omega)
    by_cases hbr : chan.sampleQueue.tail + wrapU32 (chan.sampleCount * 2) < chan.sampleQueue.N
    · rw [enqueueFast_storage_one mem chan hbr, memcpy_apply]
      rw [hw] at hbr ⊢
      rw [if_neg (by omega)]
    · rw [enqueueFast_storage_two mem chan hbr]
      simp only [memcpy_apply]
      rw [hw] at hbr ⊢
      rw [if_neg (by omega), if_neg (by omega)]

/-- The general stereo path grows the queue by `2 * sampleCount` samples. -/
theorem enqueueStereo_count (mem : Memory) (lv rv : Int) (chan : AudioChannel)
    (hwf : chan.sampleQueue.WF)
    (hroom : chan.sampleQueue.count + 2 * chan.sampleCount ≤ chan.sampleQueue.N) :
    (enqueueStereo mem lv rv chan).sampleQueue.count =
      chan.sampleQueue.count + 2 * chan.sampleCount := by
  obtain ⟨h0, hb, hh, ht, hc, hm⟩ := hwf
  have hw : wrapU32 (chan.sampleCount * 2) = 2 * chan.sampleCount := by
    rw [wrapU32_of_lt _ (by omega)]; ring
  have h := (pushPointers_fst chan.sampleQueue (wrapU32 (chan.sampleCount * 2))).1
  have e : (enqueueStereo mem lv rv chan).sampleQueue.count =
      (chan.sampleQueue.pushPointers (wrapU32 (chan.sampleCount * 2))).1.count := rfl
  rw [e, h, hw]

/-- Every branch of the data path grows the queue by `2 * sampleCount` samples. -/
theorem enqueueSamples_count (c : Consts) (mem : Memory) (chan : AudioChannel)
    (hwf : chan.sampleQueue.WF)
    (hroom : chan.sampleQueue.count + 2 * chan.sampleCount ≤ chan.sampleQueue.N) :
    (enqueueSamples c mem chan).sampleQueue.count =
      chan.sampleQueue.count + 2 * chan.sampleCount := by
  unfold enqueueSamples
  simp only
  split_ifs with h
  · exact (enqueueFast_spec mem chan hwf hroom).2
  · cases hf : chan.format with
    | PSP_AUDIO_FORMAT_STEREO => exact enqueueStereo_count mem _ _ chan hwf hroom
    | PSP_AUDIO_FORMAT_MONO =>
      exact (mono_loop_spec (readS16Host c.IS_LITTLE_ENDIAN mem) _ _ chan chan.sampleCount hwf
        hroom).2.2.1

/-- The mono loop works on the queue alone: the other fields of the channel stay. -/
theorem mono_loop_eq (rd : Nat → Int) (lv rv : Int) (chan : AudioChannel) (n : Nat) :
    loop n
      (fun i ch =>
        let sample := rd (wrapU32 (ch.sampleAddress + 2 * i))
        let q1 := ch.sampleQueue.push (adjustvolume sample lv)
        { ch with sampleQueue := q1.push (adjustvolume sample rv) })
      chan =
      { chan with sampleQueue := (loop n
          (fun i q => FixedSizeQueue.push
            (FixedSizeQueue.push q
              (adjustvolume (rd (wrapU32 (chan.sampleAddress + 2 * i))) lv))
            (adjustvolume (rd (wrapU32 (chan.sampleAddress + 2 * i))) rv))
          chan.sampleQueue) } := by
  induction n with
  | zero => rfl
  | succ n ih => rw [loop_succ, ih, loop_succ]

/-- The mono path works on the queue alone. -/
theorem enqueueMono_eq (c : Consts) (mem : Memory) (lv rv : Int) (chan : AudioChannel) :
    enqueueMono c mem lv rv chan =
      { chan with sampleQueue := (loop chan.sampleCount
          (fun i q => FixedSizeQueue.push
            (FixedSizeQueue.push q
              (adjustvolume (readS16Host c.IS_LITTLE_ENDIAN mem (wrapU32 (chan.sampleAddress + 2 * i))) lv))
            (adjustvolume (readS16Host c.IS_LITTLE_ENDIAN mem (wrapU32 (chan.sampleAddress + 2 * i))) rv))
          chan.sampleQueue) } :=
  mono_loop_eq (readS16Host c.IS_LITTLE_ENDIAN mem) lv rv chan chan.sampleCount

/-- The data path reads the wait list of the channel nowhere and leaves it alone. -/
theorem enqueueSamples_waits (c : Consts) (mem : Memory) (chan : AudioChannel)
    (w : List AudioChannelWaitInfo) :
    (enqueueSamples c mem chan).waitingThreads = chan.waitingThreads ∧
    (enqueueSamples c mem { chan with waitingThreads := w }).sampleQueue =
      (enqueueSamples c mem chan).sampleQueue := by
  unfold enqueueSamples
  simp only
  split_ifs with h
  · exact ⟨rfl, rfl⟩
  · cases hf : chan.format with
    | PSP_AUDIO_FORMAT_STEREO => exact ⟨rfl, rfl⟩
    | PSP_AUDIO_FORMAT_MONO =>
      simp only [enqueueMono_eq]
      exact ⟨trivial, trivial⟩

/-- The truncating divisions that compute `blockSamples` are floor divisions on a queue
length and a positive factor. -/
theorem blockSamples_eq (L : Nat) (m : Int) (hL : L < 2147483648) (hm : 0 < m) :
    Int.tdiv (Int.tdiv (wrapS32 (L : Nat)) 2) m = ((L / 2 : Nat) : Int) / m := by
  rw [wrapS32_of_range _ (by omega) (by omega),
    Int.tdiv_eq_ediv (a := (L : Int)) (by omega) (by omega),
    Int.tdiv_eq_ediv (by omega) (by omega)]
  rfl

/-! ## The enqueue contract -/

/-- C2. A non-blocking `__AudioEnqueue` on a channel whose sample queue is non-empty returns
`SCE_ERROR_AUDIO_CHANNEL_BUSY` and changes nothing: the channel (its queue, its contents,
its wait list) and the scheduler (no thread parked) are the ones before the call, whatever
the sample address, sample count, format and volumes. -/
theorem audioEnqueue_busy_rejection (c : Consts) (minFactor : Int) (mem : Memory) (k : Kernel)
    (chan : AudioChannel) (chanNum : Int) (hq : 0 < chan.sampleQueue.size) :
    (__AudioEnqueue c minFactor mem k chan chanNum false).ret = c.SCE_ERROR_AUDIO_CHANNEL_BUSY ∧
    (__AudioEnqueue c minFactor mem k chan chanNum false).chan = chan ∧
    (__AudioEnqueue c minFactor mem k chan chanNum false).kernel = k := by
  unfold __AudioEnqueue
  simp [hq]

/-- Witness of C2: a stereo channel with two samples pending. -/
theorem audioEnqueue_busy_rejection_witness :
    0 < (exChan .PSP_AUDIO_FORMAT_STEREO 32768 2 0x08800000 4).sampleQueue.size ∧
    (__AudioEnqueue exConsts 1 exMem (exKernel true)
      (exChan .PSP_AUDIO_FORMAT_STEREO 32768 2 0x08800000 4) 0 false).ret = 0x80260009 :=
  ⟨by decide,
   (audioEnqueue_busy_rejection exConsts 1 exMem (exKernel true)
      (exChan .PSP_AUDIO_FORMAT_STEREO 32768 2 0x08800000 4) 0 (by decide)).1⟩

/-- C3. The blocking contract. On a channel whose queue holds `L > 0` samples (a ring buffer
in a valid state with room for the `2 * sampleCount` new samples), with a non-zero sample
address, a blocking `__AudioEnqueue` under enabled dispatch appends exactly the entry
`{current thread, L / 2 / chanQueueMinSizeFactor}` at the end of `waitingThreads`, parks the
current thread once on `WAITTYPE_AUDIOCHANNEL` with key `chanNum + 1` and payload
`sampleCount` (and does nothing else to the scheduler), makes the queue length
`L + 2 * sampleCount` and returns `sampleCount`. The format is MONO or STEREO by its type;
`chanQueueMinSizeFactor` is positive, as `__AudioInit` sets it. -/
theorem audioEnqueue_blocking_contract (c : Consts) (minFactor : Int) (mem : Memory)
    (k : Kernel) (chan : AudioChannel) (chanNum : Int)
    (hwf : chan.sampleQueue.WF) (hq : 0 < chan.sampleQueue.size)
    (haddr : chan.sampleAddress ≠ 0) (hdisp : __KernelIsDispatchEnabled k = true)
    (hroom : chan.sampleQueue.size + 2 * chan.sampleCount ≤ chan.sampleQueue.N)
    (hmin : 0 < minFactor) :
    (__AudioEnqueue c minFactor mem k chan chanNum true).chan.waitingThreads =
      chan.waitingThreads ++
        [{ threadID := __KernelGetCurThread k,
           numSamples := ((chan.sampleQueue.size / 2 : Nat) : Int) / minFactor }] ∧
    (__AudioEnqueue c minFactor mem k chan chanNum true).kernel =
      { k with waits := k.waits ++
          [{ threadID := __KernelGetCurThread k, waitType := c.WAITTYPE_AUDIOCHANNEL,
             waitID := chanNum + 1, waitValue := chan.sampleCount }] } ∧
    (__AudioEnqueue c minFactor mem k chan chanNum true).chan.sampleQueue.size =
      chan.sampleQueue.size + 2 * chan.sampleCount ∧
    (__AudioEnqueue c minFactor mem k chan chanNum true).ret = chan.sampleCount := by
  have hL : chan.sampleQueue.size < 2147483648 := by
    obtain ⟨_, hb, _, _, hc, _⟩ := hwf
    unfold FixedSizeQueue.size
    omega
  have hbs := blockSamples_eq chan.sampleQueue.size minFactor hL hmin
  unfold __AudioEnqueue
  simp only [hq, hdisp, haddr, if_true, false_and, if_false, enqueueTail, hbs]
  refine ⟨?_, rfl, ?_, trivial⟩
  · rw [(enqueueSamples_waits c mem _ []).1]
  · exact enqueueSamples_count c mem _ hwf hroom

/-- Witness of C3: a stereo channel with two samples pending, four frames requested. -/
theorem audioEnqueue_blocking_contract_witness :
    (__AudioEnqueue exConsts 1 exMem (exKernel true)
      (exChan .PSP_AUDIO_FORMAT_STEREO 32768 2 0x08800000 4) 0 true).chan.sampleQueue.size =
      2 + 2 * 4 ∧
    (__AudioEnqueue exConsts 1 exMem (exKernel true)
      (exChan .PSP_AUDIO_FORMAT_STEREO 32768 2 0x08800000 4) 0 true).ret = 4 :=
  have h := audioEnqueue_blocking_contract exConsts 1 exMem (exKernel true)
    (exChan .PSP_AUDIO_FORMAT_STEREO 32768 2 0x08800000 4) 0
    ⟨by decide, by decide, by decide, by decide, by decide, by decide⟩
    (by decide) (by decide) (by decide) (by decide) (by decide)
  ⟨h.2.2.1, h.2.2.2⟩

/-- C4. On a channel with a non-empty queue, a blocking `__AudioEnqueue` under disabled
dispatch (with `chanQueueMinSizeFactor`, the divisor of line 226, not zero) returns
`SCE_KERNEL_ERROR_CAN_NOT_WAIT`, adds no entry to `waitingThreads` and leaves the scheduler
alone (no thread parked); with a non-zero sample address the channel after the call is the
one the data path produces, its queue is the queue the same call leaves behind when
dispatch is enabled, and (ring buffer valid, room for the samples) it holds
`2 * sampleCount` samples more. -/
theorem audioEnqueue_cannot_wait (c : Consts) (minFactor : Int) (mem : Memory) (k : Kernel)
    (chan : AudioChannel) (chanNum : Int)
    (hq : 0 < chan.sampleQueue.size) (hdisp : __KernelIsDispatchEnabled k = false) :
    minFactor ≠ 0 →
    (__AudioEnqueue c minFactor mem k chan chanNum true).ret =
      c.SCE_KERNEL_ERROR_CAN_NOT_WAIT ∧
    (__AudioEnqueue c minFactor mem k chan chanNum true).chan.waitingThreads =
      chan.waitingThreads ∧
    (__AudioEnqueue c minFactor mem k chan chanNum true).kernel = k ∧
    (chan.sampleAddress ≠ 0 →
      (__AudioEnqueue c minFactor mem k chan chanNum true).chan = enqueueSamples c mem chan ∧
      (∀ k2 : Kernel, __KernelIsDispatchEnabled k2 = true →
        (__AudioEnqueue c minFactor mem k2 chan chanNum true).chan.sampleQueue =
          (__AudioEnqueue c minFactor mem k chan chanNum true).chan.sampleQueue) ∧
      (chan.sampleQueue.WF →
        chan.sampleQueue.size + 2 * chan.sampleCount ≤ chan.sampleQueue.N →
        (__AudioEnqueue c minFactor mem k chan chanNum true).chan.sampleQueue.size =
          chan.sampleQueue.size + 2 * chan.sampleCount)) := by
  intro _
  have e : __AudioEnqueue c minFactor mem k chan chanNum true =
      enqueueTail c mem k chan c.SCE_KERNEL_ERROR_CAN_NOT_WAIT := by
    unfold __AudioEnqueue
    simp [hq, hdisp]
  rw [e]
  unfold enqueueTail
  by_cases haddr : chan.sampleAddress = 0
  · simp [haddr]
  · simp only [haddr, if_false]
    refine ⟨trivial, (enqueueSamples_waits c mem chan []).1, trivial, fun _ => ⟨trivial, ?_, ?_⟩⟩
    · intro k2 hk2
      unfold __AudioEnqueue
      simp only [hq, hk2, haddr, if_true, false_and, if_false, enqueueTail]
      exact (enqueueSamples_waits c mem chan _).2
    · intro hwf hroom
      exact enqueueSamples_count c mem chan hwf hroom

/-- Witness of C4: a stereo channel with two samples pending, dispatch disabled. -/
theorem audioEnqueue_cannot_wait_witness :
    (__AudioEnqueue exConsts 1 exMem (exKernel false)
      (exChan .PSP_AUDIO_FORMAT_STEREO 32768 2 0x08800000 4) 0 true).ret = 0x800201a7 ∧
    (__AudioEnqueue exConsts 1 exMem (exKernel false)
      (exChan .PSP_AUDIO_FORMAT_STEREO 32768 2 0x08800000 4) 0 true).kernel = exKernel false :=
  have h := audioEnqueue_cannot_wait exConsts 1 exMem (exKernel false)
    (exChan .PSP_AUDIO_FORMAT_STEREO 32768 2 0x08800000 4) 0 (by decide) (by decide)
    (by decide)
  ⟨h.1, h.2.2.1⟩

/-- C5. With `sampleAddress == 0` and an empty sample queue, `__AudioEnqueue` returns
`sampleCount`, except on the channels `PSP_AUDIO_CHANNEL_SRC` and
`PSP_AUDIO_CHANNEL_OUTPUT2`, where it returns 0; and with `sampleAddress == 0` the sample
queue is left as it is, whatever it holds and whether the call blocks or not, the divisor
`chanQueueMinSizeFactor` being not zero where the call reaches the division of line 226
(a blocking call on a non-empty queue). -/
theorem audioEnqueue_silence (c : Consts) (minFactor : Int) (mem : Memory) (k : Kernel)
    (chan : AudioChannel) (chanNum : Int) (blocking : Bool) (haddr : chan.sampleAddress = 0) :
    (chan.sampleQueue.size = 0 →
      (__AudioEnqueue c minFactor mem k chan chanNum blocking).ret =
        if chanNum = c.PSP_AUDIO_CHANNEL_SRC ∨ chanNum = c.PSP_AUDIO_CHANNEL_OUTPUT2 then 0
        else chan.sampleCount) ∧
    (chan.sampleQueue.size = 0 ∨ blocking = false ∨ minFactor ≠ 0 →
      (__AudioEnqueue c minFactor mem k chan chanNum blocking).chan.sampleQueue =
        chan.sampleQueue) := by
  unfold __AudioEnqueue
  constructor
  · intro hq
    simp [hq, haddr, enqueueTail]
  · intro _
    simp only [haddr, enqueueTail, if_true]
    split_ifs <;> rfl

/-- Witness of C5: a silent request of four frames on channel 0 and on channel 8, and a
silent blocking request on a queue that holds two samples. -/
theorem audioEnqueue_silence_witness :
    (__AudioEnqueue exConsts 1 exMem (exKernel true)
      (exChan .PSP_AUDIO_FORMAT_STEREO 32768 0 0 4) 0 false).ret = 4 ∧
    (__AudioEnqueue exConsts 1 exMem (exKernel true)
      (exChan .PSP_AUDIO_FORMAT_STEREO 32768 0 0 4) 8 false).ret = 0 ∧
    (__AudioEnqueue exConsts 1 exMem (exKernel true)
      (exChan .PSP_AUDIO_FORMAT_STEREO 32768 2 0 4) 0 true).chan.sampleQueue =
      (exChan .PSP_AUDIO_FORMAT_STEREO 32768 2 0 4).sampleQueue :=
  ⟨(audioEnqueue_silence exConsts 1 exMem (exKernel true)
      (exChan .PSP_AUDIO_FORMAT_STEREO 32768 0 0 4) 0 false rfl).1 rfl,
   (audioEnqueue_silence exConsts 1 exMem (exKernel true)
      (exChan .PSP_AUDIO_FORMAT_STEREO 32768 0 0 4) 8 false rfl).1 rfl,
   (audioEnqueue_silence exConsts 1 exMem (exKernel true)
      (exChan .PSP_AUDIO_FORMAT_STEREO 32768 2 0 4) 0 true rfl).2
      (Or.inr (Or.inr (by decide)))⟩

/-! ## The volume-adjust primitive -/

/-- C6. For every sample in `[-32768, 32767]` and every gain in `[0, 65536]` the product
`sample * vol` fits in `int`, so the scalar `adjustvolume` (32-bit arithmetic) is
`clamp16` of the floor of `sample * vol / 2^16` over the integers; and
`adjustvolume(sample, 1 << 16)` is `sample`. -/
theorem adjustvolume_correct (sample vol : Int) (hs : -32768 ≤ sample ∧ sample ≤ 32767)
    (hv : 0 ≤ vol ∧ vol ≤ 65536) :
    wrapS32 (sample * vol) = sample * vol ∧
    adjustvolume sample vol = clamp_s16 (Int.fdiv (sample * vol) 65536) ∧
    adjustvolume sample 65536 = sample := by
  have h := mul_vol_range sample vol hs hv.1 hv.2
  have hw := wrapS32_of_range _ h.1 h.2
  refine ⟨hw, ?_, adjustvolume_unity sample hs⟩
  unfold adjustvolume
  rw [hw, Int.fdiv_eq_ediv _ (by norm_num)]

/-- Witness of C6: the most negative sample at the largest gain. -/
theorem adjustvolume_correct_witness :
    adjustvolume (-32768) 65536 = clamp_s16 (Int.fdiv (-32768 * 65536) 65536) ∧
    adjustvolume (-32768) 65536 = -32768 :=
  have h := adjustvolume_correct (-32768) 65536 ⟨by decide, by decide⟩ ⟨by decide, by decide⟩
  ⟨h.2.1, h.2.2⟩

/-! ## The data paths of the enqueue engine -/

/-- C7, counterexample. A stereo channel with an empty queue, a non-zero sample address and
both volumes `2^16`: the guest samples are 1000, the queued samples are 2000 (the code takes
the general path, which doubles the gain before scaling), so `out[i] == in[i]` fails. -/
theorem audioEnqueue_volume_65536_doubles :
    (exChan .PSP_AUDIO_FORMAT_STEREO 65536 0 0x08800000 4).format = .PSP_AUDIO_FORMAT_STEREO ∧
    (exChan .PSP_AUDIO_FORMAT_STEREO 65536 0 0x08800000 4).sampleAddress ≠ 0 ∧
    (exChan .PSP_AUDIO_FORMAT_STEREO 65536 0 0x08800000 4).sampleQueue.size = 0 ∧
    (exChan .PSP_AUDIO_FORMAT_STEREO 65536 0 0x08800000 4).leftVolume = 2 ^ 16 ∧
    (exChan .PSP_AUDIO_FORMAT_STEREO 65536 0 0x08800000 4).rightVolume = 2 ^ 16 ∧
    (List.range (2 * 4)).map (fun i => readS16 exMem (0x08800000 + 2 * i)) =
      [1000, 1000, 1000, 1000, 1000, 1000, 1000, 1000] ∧
    (__AudioEnqueue exConsts 1 exMem (exKernel true)
      (exChan .PSP_AUDIO_FORMAT_STEREO 65536 0 0x08800000 4) 0 false).chan.sampleQueue.toList =
      [2000, 2000, 2000, 2000, 2000, 2000, 2000, 2000] := by
  decide

/-- C7, amended. For a stereo channel with a non-zero sample address, an empty queue (a
valid ring buffer with room for the request) and `leftVolume == rightVolume == 2^15`, the
value the code tests for, on a little-endian build: `__AudioEnqueue` takes the bulk copy,
the queue then holds exactly the `2 * sampleCount` guest samples, unchanged and in order,
and the call returns `sampleCount`. -/
theorem audioEnqueue_fast_path (c : Consts) (minFactor : Int) (mem : Memory) (k : Kernel)
    (chan : AudioChannel) (chanNum : Int) (blocking : Bool)
    (hfmt : chan.format = .PSP_AUDIO_FORMAT_STEREO) (haddr : chan.sampleAddress ≠ 0)
    (hwf : chan.sampleQueue.WF) (hempty : chan.sampleQueue.size = 0)
    (hroom : 2 * chan.sampleCount ≤ chan.sampleQueue.N)
    (hl : chan.leftVolume = 2 ^ 15) (hr : chan.rightVolume = 2 ^ 15)
    (hle : c.IS_LITTLE_ENDIAN = true) :
    (__AudioEnqueue c minFactor mem k chan chanNum blocking).chan = enqueueFast mem chan ∧
    (__AudioEnqueue c minFactor mem k chan chanNum blocking).chan.sampleQueue.toList =
      (List.range (2 * chan.sampleCount)).map
        (fun i => readS16 mem (chan.sampleAddress + 2 * i)) ∧
    (__AudioEnqueue c minFactor mem k chan chanNum blocking).ret = chan.sampleCount := by
  have hcount : chan.sampleQueue.count = 0 := hempty
  have e : __AudioEnqueue c minFactor mem k chan chanNum blocking =
      { chan := enqueueFast mem chan, kernel := k, ret := chan.sampleCount } := by
    unfold __AudioEnqueue enqueueTail enqueueSamples
    norm_num at hl hr
    simp [hempty, haddr, hl, hr, hfmt, hle]
  rw [e]
  refine ⟨rfl, ?_, rfl⟩
  have h := (enqueueFast_spec mem chan hwf (by omega)).1
  have hnil : chan.sampleQueue.toList = [] := by
    unfold FixedSizeQueue.toList
    rw [hcount]
    rfl
  rw [hnil, List.nil_append] at h
  exact h

/-- Witness of C7 (amended): four stereo frames of value 1000 at unity gain `2^15`. -/
theorem audioEnqueue_fast_path_witness :
    (__AudioEnqueue exConsts 1 exMem (exKernel true)
      (exChan .PSP_AUDIO_FORMAT_STEREO 32768 0 0x08800000 4) 0 false).chan.sampleQueue.toList =
      (List.range (2 * 4)).map (fun i => readS16 exMem (0x08800000 + 2 * i)) ∧
    (__AudioEnqueue exConsts 1 exMem (exKernel true)
      (exChan .PSP_AUDIO_FORMAT_STEREO 32768 0 0x08800000 4) 0 false).ret = 4 :=
  (audioEnqueue_fast_path exConsts 1 exMem (exKernel true)
    (exChan .PSP_AUDIO_FORMAT_STEREO 32768 0 0x08800000 4) 0 false rfl (by decide)
    ⟨by decide, by decide, by decide, by decide, by decide, by decide⟩
    rfl (by decide) (by decide) (by decide) rfl).2

/-- C8, counterexample. Two mono channels with a non-zero sample address, equal volumes
and room in the queue. First, with two samples still pending, the non-blocking call is
rejected as busy and appends nothing: the queue keeps its two samples. Second, on a
big-endian build the mono path reads the guest sample through a plain `s16 *`, in host
byte order: the guest sample 1000 (bytes `E8 03`) is read as `0xE803 = -6141`, and the
queue receives `-6141` twice where `adjustvolume(in[0], gain)` is 1000. -/
theorem audioEnqueue_mono_fails_busy_or_big_endian :
    ((exChan .PSP_AUDIO_FORMAT_MONO 32768 2 0x08800000 4).format = .PSP_AUDIO_FORMAT_MONO ∧
     (exChan .PSP_AUDIO_FORMAT_MONO 32768 2 0x08800000 4).sampleAddress ≠ 0 ∧
     (exChan .PSP_AUDIO_FORMAT_MONO 32768 2 0x08800000 4).leftVolume =
       (exChan .PSP_AUDIO_FORMAT_MONO 32768 2 0x08800000 4).rightVolume ∧
     (exChan .PSP_AUDIO_FORMAT_MONO 32768 2 0x08800000 4).sampleQueue.size + 2 * 4 ≤
       (exChan .PSP_AUDIO_FORMAT_MONO 32768 2 0x08800000 4).sampleQueue.N ∧
     (exChan .PSP_AUDIO_FORMAT_MONO 32768 2 0x08800000 4).sampleQueue.toList = [0, 0] ∧
     (__AudioEnqueue exConsts 1 exMem (exKernel true)
       (exChan .PSP_AUDIO_FORMAT_MONO 32768 2 0x08800000 4) 0 false).chan.sampleQueue.toList =
       [0, 0] ∧
     (__AudioEnqueue exConsts 1 exMem (exKernel true)
       (exChan .PSP_AUDIO_FORMAT_MONO 32768 2 0x08800000 4) 0 false).ret = 0x80260009) ∧
    (exConstsBE.IS_LITTLE_ENDIAN = false ∧
     (exChan .PSP_AUDIO_FORMAT_MONO 32768 0 0x08800000 1).sampleQueue.size = 0 ∧
     readS16 exMem 0x08800000 = 1000 ∧
     adjustvolume (readS16 exMem 0x08800000) (wrapS32 (32768 * 2)) = 1000 ∧
     (__AudioEnqueue exConstsBE 1 exMem (exKernel true)
       (exChan .PSP_AUDIO_FORMAT_MONO 32768 0 0x08800000 1) 0 false).chan.sampleQueue.toList =
       [-6141, -6141]) := by
  decide

/-- C8, amended. On a little-endian build, for a mono channel with a non-zero sample
address, `sampleCount = N`, equal volumes and room in the queue (a valid ring buffer), on a
call that is not rejected as busy (the queue is empty, or the call is blocking and
`chanQueueMinSizeFactor` is not zero): `__AudioEnqueue` appends exactly `2N` samples in
input order, `out[2i] == out[2i+1] == adjustvolume(in[i], gain)` for every `i < N`, where
`in[i]` is the guest `s16` at `sampleAddress + 2 * i` and `gain` is the channel volume
doubled in `int`. -/
theorem audioEnqueue_mono_expansion (c : Consts) (minFactor : Int) (mem : Memory) (k : Kernel)
    (chan : AudioChannel) (chanNum : Int) (blocking : Bool)
    (hle : c.IS_LITTLE_ENDIAN = true)
    (hfmt : chan.format = .PSP_AUDIO_FORMAT_MONO) (haddr : chan.sampleAddress ≠ 0)
    (hwf : chan.sampleQueue.WF)
    (hroom : chan.sampleQueue.size + 2 * chan.sampleCount ≤ chan.sampleQueue.N)
    (hvol : chan.leftVolume = chan.rightVolume)
    (hgate : chan.sampleQueue.size = 0 ∨ (blocking = true ∧ minFactor ≠ 0)) :
    ∃ out : List Int,
      (__AudioEnqueue c minFactor mem k chan chanNum blocking).chan.sampleQueue.toList =
        chan.sampleQueue.toList ++ out ∧
      out.length = 2 * chan.sampleCount ∧
      ∀ i, i < chan.sampleCount →
        out[2 * i]? = some (adjustvolume (readS16 mem (wrapU32 (chan.sampleAddress + 2 * i)))
          (wrapS32 (chan.leftVolume * 2))) ∧
        out[2 * i + 1]? = some (adjustvolume (readS16 mem (wrapU32 (chan.sampleAddress + 2 * i)))
          (wrapS32 (chan.leftVolume * 2))) := by
  refine ⟨(List.range (2 * chan.sampleCount)).map (fun j =>
      adjustvolume (readS16 mem (wrapU32 (chan.sampleAddress + 2 * (j / 2))))
        (wrapS32 (chan.leftVolume * 2))), ?_, by simp, ?_⟩
  · have hq : (__AudioEnqueue c minFactor mem k chan chanNum blocking).chan.sampleQueue =
        (enqueueSamples c mem chan).sampleQueue := by
      unfold __AudioEnqueue enqueueTail
      by_cases hs : chan.sampleQueue.size > 0
      · have hb : blocking = true := by
          rcases hgate with h | h
          · omega
          · exact h.1
        by_cases hd : __KernelIsDispatchEnabled k = true
        · simp only [hs, hb, hd, haddr, if_true, if_false]
          exact (enqueueSamples_waits c mem chan _).2
        · simp [hs, hb, hd, haddr]
      · simp [hs, haddr]
    rw [hq]
    have hs : enqueueSamples c mem chan =
        enqueueMono c mem (wrapS32 (chan.leftVolume * 2)) (wrapS32 (chan.rightVolume * 2))
          chan := by
      unfold enqueueSamples
      simp [hfmt]
    have hrd : readS16Host c.IS_LITTLE_ENDIAN mem = readS16 mem := by
      funext a
      unfold readS16Host
      rw [if_pos hle]
    rw [hs]
    have h := (mono_loop_spec (readS16Host c.IS_LITTLE_ENDIAN mem)
      (wrapS32 (chan.leftVolume * 2)) (wrapS32 (chan.rightVolume * 2)) chan chan.sampleCount
      hwf hroom).2.1
    unfold enqueueMono
    rw [h, ← hvol, hrd]
    simp
  · intro i hi
    have e1 : 2 * i / 2 = i := by omega
    have e2 : (2 * i + 1) / 2 = i := by omega
    constructor
    · rw [List.getElem?_map, List.getElem?_range (by omega)]
      simp [e1]
    · rw [List.getElem?_map, List.getElem?_range (by omega)]
      simp [e2]

/-- Witness of C8 (amended): four mono samples of value 1000 on an empty queue. -/
theorem audioEnqueue_mono_expansion_witness :
    ∃ out : List Int,
      (__AudioEnqueue exConsts 1 exMem (exKernel true)
        (exChan .PSP_AUDIO_FORMAT_MONO 32768 0 0x08800000 4) 0 false).chan.sampleQueue.toList =
        (exChan .PSP_AUDIO_FORMAT_MONO 32768 0 0x08800000 4).sampleQueue.toList ++ out ∧
      out.length = 2 * 4 :=
  have h := audioEnqueue_mono_expansion exConsts 1 exMem (exKernel true)
    (exChan .PSP_AUDIO_FORMAT_MONO 32768 0 0x08800000 4) 0 false rfl rfl (by decide)
    ⟨by decide, by decide, by decide, by decide, by decide, by decide⟩
    (by decide) rfl (Or.inl rfl)
  h.elim (fun out ho => ⟨out, ho.1, ho.2.1⟩)

/-! ## The host pull -/

/-- The value of `MIXBUFFER_QUEUE`. -/
theorem MIXBUFFER_QUEUE_eq : MIXBUFFER_QUEUE = 8192 := by decide

/-- What `__AudioMix` does on a global ring buffer whose cursors are in range: it copies
every queued sample, oldest first, to the front of the caller's buffer, empties the ring
buffer and returns half the number of samples copied. -/
theorem audioMix_spec (st : AudioState) (outstereo : Nat → Int) (numFrames : Int)
    (hh : 0 ≤ st.mixBufferHead ∧ st.mixBufferHead < MIXBUFFER_QUEUE)
    (hc : 0 ≤ st.mixBufferCount ∧ st.mixBufferCount ≤ MIXBUFFER_QUEUE) :
    (__AudioMix st outstereo numFrames).ret = st.mixBufferCount / 2 ∧
    (__AudioMix st outstereo numFrames).state.mixBufferCount = 0 ∧
    (__AudioMix st outstereo numFrames).state.mixBufferHead =
      (st.mixBufferHead + st.mixBufferCount) % MIXBUFFER_QUEUE ∧
    (∀ i, (__AudioMix st outstereo numFrames).outstereo i =
      if i < st.mixBufferCount.toNat then
        st.mixBufferQueue ((st.mixBufferHead.toNat + i) % MIXBUFFER_QUEUE.toNat)
      else outstereo i) := by
  rw [MIXBUFFER_QUEUE_eq] at hh hc ⊢
  obtain ⟨hh1, hh2⟩ := hh
  obtain ⟨hc1, hc2⟩ := hc
  have e8 : (8192 : Int).toNat = 8192 := rfl
  unfold __AudioMix
  simp only [MIXBUFFER_QUEUE_eq, e8]
  by_cases hbr : st.mixBufferHead.toNat + st.mixBufferCount.toNat < 8192
  · simp only [if_pos hbr]
    refine ⟨?_, ?_, ?_, ?_⟩
    · show ((st.mixBufferCount.toNat + 0) / 2 : Nat) = st.mixBufferCount / 2
      omega
    · show st.mixBufferCount - (st.mixBufferCount.toNat : Int) = 0
      omega
    · show (if st.mixBufferHead + (st.mixBufferCount.toNat : Int) = 8192 then 0
        else st.mixBufferHead + (st.mixBufferCount.toNat : Int)) = _
      split_ifs <;> omega
    · intro i
      show memcpy _ _ _ _ i = _
      rw [memcpy_apply]
      by_cases hi : i < st.mixBufferCount.toNat
      · rw [if_pos (by omega), if_pos hi]
        congr 1
        omega
      · rw [if_neg (by omega), if_neg hi]
  · simp only [if_neg hbr]
    refine ⟨?_, ?_, ?_, ?_⟩
    · show (((8192 - st.mixBufferHead).toNat +
          ((st.mixBufferCount.toNat - (8192 - st.mixBufferHead).toNat : Nat) : Int).toNat) / 2 :
            Nat) = st.mixBufferCount / 2
      omega
    · show st.mixBufferCount - (st.mixBufferCount.toNat : Int) = 0
      omega
    · show ((st.mixBufferCount.toNat - (8192 - st.mixBufferHead).toNat : Nat) : Int) = _
      omega
    · intro i
      show memcpy (memcpy _ _ _ _) _ _ _ i = _
      simp only [memcpy_apply]
      by_cases hi : i < st.mixBufferCount.toNat
      · rw [if_pos hi]
        by_cases h1 : i < (8192 - st.mixBufferHead).toNat
        · rw [if_pos (by omega)]
          congr 1
          omega
        · rw [if_neg (by omega), if_pos (by omega)]
          congr 1
          omega
      · rw [if_neg hi, if_neg (by omega), if_neg (by omega)]

/-! ## The mix tick -/

/-- Pointwise reading of a loop that stores `f s` at index `base + s`. -/
theorem storeLoop_apply (n base : Nat) (f : Nat → Int) (q0 : Nat → Int) (x : Nat) :
    loop n (fun s q => Function.update q (base + s) (f s)) q0 x =
      if base ≤ x ∧ x < base + n then f (x - base) else q0 x := by
  induction n with
  | zero =>
    have h1 : ¬ (base ≤ x ∧ x < base + 0) := by omega
    rw [if_neg h1]; rfl
  | succ n ih =>
    rw [loop_succ]
    by_cases hx : x = base + n
    · subst hx
      rw [Function.update_same, if_pos (by omega)]
      congr 1
      omega
    · rw [Function.update_noteq hx, ih]
      clear ih
      by_cases h3 : base ≤ x ∧ x < base + n
      · rw [if_pos h3, if_pos (by omega)]
      · rw [if_neg h3, if_neg (by omega)]

/-- Pointwise reading of a loop that stores `f s` at index `s`. -/
theorem storeLoop_zero_apply (n : Nat) (f : Nat → Int) (q0 : Nat → Int) (x : Nat) :
    loop n (fun s q => Function.update q s (f s)) q0 x = if x < n then f x else q0 x := by
  induction n with
  | zero => rfl
  | succ n ih =>
    rw [loop_succ]
    by_cases hx : x = n
    · subst hx
      rw [Function.update_same, if_pos (by omega)]
    · rw [Function.update_noteq hx, ih]
      clear ih
      by_cases h3 : x < n
      · rw [if_pos h3, if_pos (by omega)]
      · rw [if_neg h3, if_neg (by omega)]

/-- The two spans `popPointers` hands out. -/
theorem popPointers_snd (q : FixedSizeQueue) (n m : Nat)
    (hm : m = if n > q.count then q.count else n) :
    (q.popPointers n).2 =
      if q.head + m < q.N then { buf1 := q.head, sz1 := m, buf2 := none, sz2 := 0 }
      else { buf1 := q.head, sz1 := q.N - q.head, buf2 := some 0, sz2 := m - (q.N - q.head) } := by
  unfold FixedSizeQueue.popPointers
  simp only [← hm]
  split_ifs <;> rfl

/-- The accumulator after the channel loop body for one channel: a reserved channel adds
its queued samples, in queue order, to the first slots; nothing else changes. -/
theorem mixChannel_mixBuffer (c : Consts) (hw : Int) (chan : AudioChannel) (mb : Nat → Int)
    (k : Kernel) (hwf : chan.reserved = true → chan.sampleQueue.WF) (s : Nat) :
    (mixChannel c hw chan mb k).2.1 s =
      if chan.reserved = true ∧ s < (hw * 2).toNat ∧ s < chan.sampleQueue.count then
        wrapS32 (mb s + chan.sampleQueue.storage ((chan.sampleQueue.head + s) % chan.sampleQueue.N))
      else mb s := by
  unfold mixChannel
  by_cases hr : chan.reserved = false
  · rw [if_pos hr, if_neg (by simp [hr])]
  · have hr2 : chan.reserved = true := by simpa using hr
    obtain ⟨h0, hb, hh, ht, hc, hm⟩ := hwf hr2
    rw [if_neg hr]
    have hq : (__AudioWakeThreads c chan 0 hw k).1.sampleQueue = chan.sampleQueue := rfl
    simp only [hq]
    by_cases hsz : chan.sampleQueue.size = 0
    · have h0c : chan.sampleQueue.count = 0 := hsz
      rw [if_pos hsz, if_neg (by omega)]
    · rw [if_neg hsz]
      obtain ⟨m, hm1⟩ : ∃ m, m = (if (hw * 2).toNat > chan.sampleQueue.count then
          chan.sampleQueue.count else (hw * 2).toNat) := ⟨_, rfl⟩
      have hm2 : m ≤ chan.sampleQueue.count ∧ m ≤ (hw * 2).toNat ∧
          (m = chan.sampleQueue.count ∨ m = (hw * 2).toNat) := by
        rw [hm1]; split_ifs <;> omega
      have hcs := mod_cases (chan.sampleQueue.head + s) chan.sampleQueue.N
      have hcond : (chan.reserved = true ∧ s < (hw * 2).toNat ∧ s < chan.sampleQueue.count) ↔
          s < m := by
        constructor
        · intro h; omega
        · intro h; exact ⟨hr2, by omega, by omega⟩
      rw [if_congr hcond rfl rfl]
      clear hcond
      rw [popPointers_snd chan.sampleQueue _ m hm1]
      clear hm1
      have e1 : s < chan.sampleQueue.N - chan.sampleQueue.head →
          (chan.sampleQueue.head + s) % chan.sampleQueue.N = chan.sampleQueue.head + (s - 0) := by
        intro h
        rcases hcs (by omega) with ⟨_, e⟩ | ⟨_, e⟩ <;> omega
      have e2 : chan.sampleQueue.N - chan.sampleQueue.head ≤ s → s < chan.sampleQueue.N →
          (chan.sampleQueue.head + s) % chan.sampleQueue.N =
            0 + (s - (chan.sampleQueue.N - chan.sampleQueue.head)) := by
        intro h h2
        rcases hcs (by omega) with ⟨_, e⟩ | ⟨_, e⟩ <;> omega
      clear hcs hm
      by_cases hbr : chan.sampleQueue.head + m < chan.sampleQueue.N
      · rw [if_pos hbr]
        simp only [accumulate_apply]
        split_ifs <;>
          first
            | rfl
            | (exfalso; omega)
            | rw [e1 (by omega)]
      · rw [if_neg hbr]
        simp only [accumulate_apply]
        split_ifs <;>
          first
            | rfl
            | (exfalso; omega)
            | rw [e1 (by omega)]
            | rw [e2 (by omega) (by omega)]

/-- The channel after the channel loop body: an unreserved channel is untouched; a reserved
channel keeps everything but its wait list and loses samples from the front of its queue,
`2 * hwBlockSize` of them or all. -/
theorem mixChannel_chan (c : Consts) (hw : Int) (chan : AudioChannel) (mb : Nat → Int)
    (k : Kernel) :
    (chan.reserved = false → (mixChannel c hw chan mb k).1 = chan) ∧
    (chan.reserved = true → chan.sampleQueue.WF →
      (mixChannel c hw chan mb k).1.sampleQueue.toList =
        chan.sampleQueue.toList.drop (hw * 2).toNat ∧
      (mixChannel c hw chan mb k).1.sampleQueue.count =
        chan.sampleQueue.count - (hw * 2).toNat ∧
      (mixChannel c hw chan mb k).1.sampleQueue.WF ∧
      (mixChannel c hw chan mb k).1.reserved = true) := by
  unfold mixChannel
  constructor
  · intro hr
    rw [if_pos hr]
  · intro hr hwf
    rw [if_neg (by simp [hr])]
    have hq : (__AudioWakeThreads c chan 0 hw k).1.sampleQueue = chan.sampleQueue := rfl
    have hres : (__AudioWakeThreads c chan 0 hw k).1.reserved = chan.reserved := rfl
    simp only [hq]
    by_cases hsz : chan.sampleQueue.size = 0
    · have h0c : chan.sampleQueue.count = 0 := hsz
      rw [if_pos hsz]
      refine ⟨?_, ?_, hwf, by rw [← hr]; exact hres⟩
      · show chan.sampleQueue.toList = _
        rw [List.drop_of_length_le (by rw [toList_length]; omega)]
        unfold FixedSizeQueue.toList
        rw [h0c]; rfl
      · show chan.sampleQueue.count = _
        omega
    · rw [if_neg hsz]
      have hp := popPointers_spec chan.sampleQueue (hw * 2).toNat hwf
      exact ⟨hp.1, hp.2.2.1, hp.2.1, by rw [← hr]; exact hres⟩

/-- The accumulator after the channel loop: when no sum can leave the range of `s32`, every
slot below `2 * hwBlockSize` holds its start value plus the exact sum of the samples popped
from the reserved channels, and the other slots keep their value. -/
theorem mixChannels_mixBuffer (c : Consts) (hw : Int) (chans : List AudioChannel) :
    ∀ (mb : Nat → Int) (k : Kernel) (m : Nat),
      (∀ ch, ch ∈ chans → ch.reserved = true → ch.sampleQueue.WF ∧ ch.sampleQueue.S16Storage) →
      (∀ s, s < (hw * 2).toNat → -32768 * (m : Int) ≤ mb s ∧ mb s ≤ 32768 * (m : Int)) →
      m + chans.length ≤ 65535 →
      ∀ s, (mixChannels c hw chans mb k).2.1 s =
        if s < (hw * 2).toNat then mb s + mixSum chans s else mb s := by
  induction chans with
  | nil =>
    intro mb k m _ _ _ s
    simp [mixChannels, mixSum]
  | cons ch rest ih =>
    intro mb k m hwf hb hlen s
    have hlen2 : m + 1 + rest.length ≤ 65535 := by
      simp only [List.length_cons] at hlen; omega
    have hstep : ∀ t, (mixChannel c hw ch mb k).2.1 t =
        if ch.reserved = true ∧ t < (hw * 2).toNat ∧ t < ch.sampleQueue.count then
          mb t + ch.sampleQueue.storage ((ch.sampleQueue.head + t) % ch.sampleQueue.N)
        else mb t := by
      intro t
      rw [mixChannel_mixBuffer c hw ch mb k
        (fun h => (hwf ch (List.mem_cons_self _ _) h).1) t]
      split_ifs with hcond
      · have hs16 := (hwf ch (List.mem_cons_self _ _) hcond.1).2
          ((ch.sampleQueue.head + t) % ch.sampleQueue.N)
        unfold isS16 at hs16
        have := hb t hcond.2.1
        exact wrapS32_of_range _ (by omega) (by omega)
      · rfl
    have hb2 : ∀ t, t < (hw * 2).toNat →
        -32768 * ((m + 1 : Nat) : Int) ≤ (mixChannel c hw ch mb k).2.1 t ∧
        (mixChannel c hw ch mb k).2.1 t ≤ 32768 * ((m + 1 : Nat) : Int) := by
      intro t ht
      rw [hstep t]
      have := hb t ht
      split_ifs with hcond
      · have hs16 := (hwf ch (List.mem_cons_self _ _) hcond.1).2
          ((ch.sampleQueue.head + t) % ch.sampleQueue.N)
        unfold isS16 at hs16
        push_cast
        omega
      · push_cast
        omega
    have hrec := ih (mixChannel c hw ch mb k).2.1 (mixChannel c hw ch mb k).2.2 (m + 1)
      (fun x hx => hwf x (List.mem_cons_of_mem _ hx)) hb2 hlen2 s
    show (mixChannels c hw rest (mixChannel c hw ch mb k).2.1 (mixChannel c hw ch mb k).2.2).2.1 s
      = _
    rw [hrec, hstep s]
    have hsum : mixSum (ch :: rest) s =
        (if ch.reserved = true then poppedSample ch s else 0) + mixSum rest s := by
      unfold mixSum
      by_cases hr : ch.reserved = true
      · simp [List.filter_cons, hr]
      · simp [List.filter_cons, hr]
    rw [hsum]
    unfold poppedSample
    rw [toList_getD]
    by_cases hs : s < (hw * 2).toNat
    · by_cases hr : ch.reserved = true
      · by_cases hc : s < ch.sampleQueue.count
        · simp only [hr, hs, hc, and_self, if_true]
          ring
        · simp only [hr, hs, hc, and_false, if_true, if_false]
          ring
      · simp [hr, hs]
    · simp only [hs, false_and, and_false, if_false]

/-- The channels after the channel loop: as many as before, each the result of the loop body
on the channel at the same index. -/
theorem mixChannels_chans (c : Consts) (hw : Int) (chans : List AudioChannel) :
    ∀ (mb : Nat → Int) (k : Kernel),
      (mixChannels c hw chans mb k).1.length = chans.length ∧
      ∀ (i : Nat) (ch : AudioChannel), chans[i]? = some ch →
        ∃ mb2 k2, ((mixChannels c hw chans mb k).1)[i]? = some (mixChannel c hw ch mb2 k2).1 := by
  induction chans with
  | nil =>
    intro mb k
    exact ⟨rfl, fun i ch h => by simp at h⟩
  | cons x rest ih =>
    intro mb k
    have hrec := ih (mixChannel c hw x mb k).2.1 (mixChannel c hw x mb k).2.2
    have e : (mixChannels c hw (x :: rest) mb k).1 =
        (mixChannel c hw x mb k).1 ::
          (mixChannels c hw rest (mixChannel c hw x mb k).2.1 (mixChannel c hw x mb k).2.2).1 :=
      rfl
    rw [e]
    refine ⟨by simp [hrec.1], ?_⟩
    intro i ch hi
    cases i with
    | zero =>
      simp only [List.getElem?_cons_zero, Option.some.injEq] at hi
      subst hi
      exact ⟨mb, k, by simp⟩
    | succ j =>
      simp only [List.getElem?_cons_succ] at hi ⊢
      exact hrec.2 j ch hi

/-- The block at the end of the tick: with the tail in range and a block that fits the
capacity, slot `s` of the clamped accumulator lands at index `(tail + s) mod C`, every other
index keeps its value, `count` grows by the block size and the tail advances modulo `C`. -/
theorem pushMixBuffer_spec (st : AudioState) (hhw : 0 < st.hwBlockSize)
    (hfit : st.hwBlockSize * 2 ≤ MIXBUFFER_QUEUE)
    (htail : 0 ≤ st.mixBufferTail ∧ st.mixBufferTail < MIXBUFFER_QUEUE) :
    (∀ s, s < (st.hwBlockSize * 2).toNat →
      (pushMixBuffer st).mixBufferQueue ((st.mixBufferTail.toNat + s) % MIXBUFFER_QUEUE.toNat) =
        clamp_s16 (st.mixBuffer s)) ∧
    (∀ x, (∀ s, s < (st.hwBlockSize * 2).toNat →
        x ≠ (st.mixBufferTail.toNat + s) % MIXBUFFER_QUEUE.toNat) →
      (pushMixBuffer st).mixBufferQueue x = st.mixBufferQueue x) ∧
    (pushMixBuffer st).mixBufferCount = st.mixBufferCount + st.hwBlockSize * 2 ∧
    (pushMixBuffer st).mixBufferTail =
      (st.mixBufferTail + st.hwBlockSize * 2) % MIXBUFFER_QUEUE ∧
    (pushMixBuffer st).mixBufferHead = st.mixBufferHead ∧
    (pushMixBuffer st).chans = st.chans ∧
    (pushMixBuffer st).hwBlockSize = st.hwBlockSize := by
  rw [MIXBUFFER_QUEUE_eq] at hfit htail ⊢
  obtain ⟨ht1, ht2⟩ := htail
  have e8 : (8192 : Int).toNat = 8192 := rfl
  rw [e8]
  unfold pushMixBuffer
  simp only [MIXBUFFER_QUEUE_eq]
  by_cases hbr : st.mixBufferTail + ((st.hwBlockSize * 2).toNat : Int) < 8192
  · simp only [if_pos hbr]
    refine ⟨?_, ?_, ?_, ?_, trivial, trivial, trivial⟩
    · intro s hs
      rw [storeLoop_apply, if_pos (by omega)]
      congr 2
      omega
    · intro x hx
      rw [storeLoop_apply, if_neg]
      intro hcon
      exact hx (x - st.mixBufferTail.toNat) (by omega) (by omega)
    · show st.mixBufferCount + ((st.hwBlockSize * 2).toNat : Int) = _
      omega
    · show (if st.mixBufferTail + ((st.hwBlockSize * 2).toNat : Int) = 8192 then 0
        else st.mixBufferTail + ((st.hwBlockSize * 2).toNat : Int)) = _
      split_ifs <;> omega
  · simp only [if_neg hbr]
    refine ⟨?_, ?_, ?_, ?_, trivial, trivial, trivial⟩
    · intro s hs
      rw [storeLoop_apply, storeLoop_zero_apply]
      by_cases h1 : s < (8192 - st.mixBufferTail).toNat
      · rw [if_pos (by omega)]
        congr 2
        omega
      · rw [if_neg (by omega), if_pos (by omega)]
        congr 2
        omega
    · intro x hx
      rw [storeLoop_apply, storeLoop_zero_apply, if_neg, if_neg]
      · intro hcon
        exact hx (x + (8192 - st.mixBufferTail).toNat) (by omega) (by omega)
      · intro hcon
        exact hx (x - st.mixBufferTail.toNat) (by omega) (by omega)
    · show st.mixBufferCount + ((st.hwBlockSize * 2).toNat : Int) = _
      omega
    · show (((st.hwBlockSize * 2).toNat - (8192 - st.mixBufferTail).toNat : Nat) : Int) = _
      omega

/-- One tick of the mix engine, with the tail of the global ring buffer in range, a block
that fits its capacity, valid queues of `s16` samples on the reserved channels and few
enough channels for the `s32` accumulator. -/
theorem audioUpdate_spec (c : Consts) (st : AudioState) (k : Kernel)
    (hhw : 0 < st.hwBlockSize) (hfit : st.hwBlockSize * 2 ≤ MIXBUFFER_QUEUE)
    (htail : 0 ≤ st.mixBufferTail ∧ st.mixBufferTail < MIXBUFFER_QUEUE)
    (hq : ∀ ch, ch ∈ st.chans → ch.reserved = true →
      ch.sampleQueue.WF ∧ ch.sampleQueue.S16Storage)
    (hn : st.chans.length ≤ 65535) :
    (∀ s, s < (st.hwBlockSize * 2).toNat →
      (__AudioUpdate c st k).1.mixBufferQueue
          ((st.mixBufferTail.toNat + s) % MIXBUFFER_QUEUE.toNat) =
        clamp_s16 (mixSum st.chans s)) ∧
    (∀ x, (∀ s, s < (st.hwBlockSize * 2).toNat →
        x ≠ (st.mixBufferTail.toNat + s) % MIXBUFFER_QUEUE.toNat) →
      (__AudioUpdate c st k).1.mixBufferQueue x = st.mixBufferQueue x) ∧
    (__AudioUpdate c st k).1.mixBufferCount = st.mixBufferCount + st.hwBlockSize * 2 ∧
    (__AudioUpdate c st k).1.mixBufferTail =
      (st.mixBufferTail + st.hwBlockSize * 2) % MIXBUFFER_QUEUE ∧
    (__AudioUpdate c st k).1.mixBufferHead = st.mixBufferHead ∧
    (__AudioUpdate c st k).1.hwBlockSize = st.hwBlockSize ∧
    (__AudioUpdate c st k).1.chans.length = st.chans.length ∧
    ∀ (i : Nat) (ch : AudioChannel), st.chans[i]? = some ch →
      ∃ ch2, ((__AudioUpdate c st k).1.chans)[i]? = some ch2 ∧
        (ch.reserved = true →
          ch2.sampleQueue.toList = ch.sampleQueue.toList.drop (st.hwBlockSize * 2).toNat ∧
          ch2.sampleQueue.size =
            ch.sampleQueue.size - min ch.sampleQueue.size (st.hwBlockSize * 2).toNat) ∧
        (ch.reserved = false → ch2 = ch) := by
  obtain ⟨zeroed, hz⟩ : ∃ z, z = memcpy st.mixBuffer 0 (fun _ => 0) (st.hwBlockSize * 2).toNat :=
    ⟨_, rfl⟩
  have hz0 : ∀ s, s < (st.hwBlockSize * 2).toNat → zeroed s = 0 := by
    intro s hs
    rw [hz, memcpy_apply, if_pos (by omega)]
  have e : __AudioUpdate c st k =
      (pushMixBuffer { st with chans := (mixChannels c st.hwBlockSize st.chans zeroed k).1,
                               mixBuffer := (mixChannels c st.hwBlockSize st.chans zeroed k).2.1 },
       (mixChannels c st.hwBlockSize st.chans zeroed k).2.2) := by
    rw [hz]; rfl
  rw [e]
  have hp := pushMixBuffer_spec
    { st with chans := (mixChannels c st.hwBlockSize st.chans zeroed k).1,
              mixBuffer := (mixChannels c st.hwBlockSize st.chans zeroed k).2.1 } hhw hfit htail
  obtain ⟨hp1, hp2, hp3, hp4, hp5, hp6, hp7⟩ := hp
  have hch := mixChannels_chans c st.hwBlockSize st.chans zeroed k
  refine ⟨?_, hp2, hp3, hp4, hp5, hp7, ?_, ?_⟩
  · intro s hs
    have h1 := hp1 s hs
    simp only at h1 ⊢
    rw [h1]
    congr 1
    have hm := mixChannels_mixBuffer c st.hwBlockSize st.chans zeroed k 0 hq
      (fun t ht => by rw [hz0 t ht]; simp) (by omega) s
    rw [hm, if_pos hs, hz0 s hs, zero_add]
  · rw [hp6]; exact hch.1
  · intro i ch hi
    obtain ⟨mb2, k2, h2⟩ := hch.2 i ch hi
    refine ⟨_, by rw [hp6]; exact h2, ?_, ?_⟩
    · intro hr
      have h3 := (mixChannel_chan c st.hwBlockSize ch mb2 k2).2 hr
        (hq ch (List.mem_iff_getElem?.mpr ⟨i, hi⟩) hr).1
      refine ⟨h3.1, ?_⟩
      show (mixChannel c st.hwBlockSize ch mb2 k2).1.sampleQueue.count = _
      rw [h3.2.1]
      unfold FixedSizeQueue.size
      omega
    · intro hr
      exact (mixChannel_chan c st.hwBlockSize ch mb2 k2).1 hr

/-- The bulk copy keeps the ring invariant and the typing of the storage. -/
theorem enqueueFast_wf (mem : Memory) (chan : AudioChannel) (hwf : chan.sampleQueue.WF)
    (hroom : chan.sampleQueue.count + 2 * chan.sampleCount ≤ chan.sampleQueue.N) :
    (enqueueFast mem chan).sampleQueue.WF ∧
    (chan.sampleQueue.S16Storage → (enqueueFast mem chan).sampleQueue.S16Storage) := by
  obtain ⟨h0, hb, hh, ht, hc, hm⟩ := hwf
  have hw : wrapU32 (chan.sampleCount * 2) = 2 * chan.sampleCount := by
    rw [wrapU32_of_lt _ (by omega)]; ring
  have hf := enqueueFast_fields mem chan
  rw [hw] at hf
  obtain ⟨_, _, hN, hhead, hcount⟩ := hf
  have hcase := mod_cases (chan.sampleQueue.head + chan.sampleQueue.count) chan.sampleQueue.N
    (by omega)
  have hcase2 := mod_cases
    (chan.sampleQueue.head + (chan.sampleQueue.count + 2 * chan.sampleCount)) chan.sampleQueue.N
    (by omega)
  have htail : (enqueueFast mem chan).sampleQueue.tail =
      if chan.sampleQueue.tail + 2 * chan.sampleCount < chan.sampleQueue.N then
        chan.sampleQueue.tail + 2 * chan.sampleCount
      else 2 * chan.sampleCount - (chan.sampleQueue.N - chan.sampleQueue.tail) := by
    have e : (enqueueFast mem chan).sampleQueue.tail =
        (chan.sampleQueue.pushPointers (wrapU32 (chan.sampleCount * 2))).1.tail := rfl
    rw [e, hw]
    unfold FixedSizeQueue.pushPointers
    split_ifs <;> rfl
  constructor
  · refine ⟨by rw [hN]; exact h0, by rw [hN]; exact hb, by rw [hN, hhead]; exact hh, ?_, ?_, ?_⟩
    · rw [htail, hN]
      split_ifs <;> omega
    · rw [hcount, hN]
      exact hroom
    · rw [htail, hN, hhead, hcount]
      split_ifs <;> omega
  · intro hs i
    by_cases hbr : chan.sampleQueue.tail + wrapU32 (chan.sampleCount * 2) < chan.sampleQueue.N
    · rw [enqueueFast_storage_one mem chan hbr, memcpy_apply]
      split_ifs
      · exact readS16_isS16 _ _
      · exact hs i
    · rw [enqueueFast_storage_two mem chan hbr]
      simp only [memcpy_apply]
      split_ifs
      · exact readS16_isS16 _ _
      · exact readS16_isS16 _ _
      · exact hs i

/-- What `__AudioInit` leaves behind with the Medium profile. -/
theorem audioInit_medium (cyclesPerSecond : Int) (st : AudioState) :
    (__AudioInit MEDIUM_LATENCY cyclesPerSecond st).hwBlockSize = 64 ∧
    (__AudioInit MEDIUM_LATENCY cyclesPerSecond st).chanQueueMinSizeFactor = 1 ∧
    (__AudioInit MEDIUM_LATENCY cyclesPerSecond st).mixBufferHead = 0 ∧
    (__AudioInit MEDIUM_LATENCY cyclesPerSecond st).mixBufferTail = 0 ∧
    (__AudioInit MEDIUM_LATENCY cyclesPerSecond st).mixBufferCount = 0 ∧
    (__AudioInit MEDIUM_LATENCY cyclesPerSecond st).chans = st.chans.map AudioChannel.clear := by
  refine ⟨rfl, rfl, rfl, rfl, rfl, rfl⟩

/-- Channels that are not reserved contribute nothing to the mixed block. -/
theorem mixSum_cleared (chans : List AudioChannel) (s : Nat) :
    mixSum (chans.map AudioChannel.clear) s = 0 := by
  unfold mixSum
  have : (chans.map AudioChannel.clear).filter (fun ch => ch.reserved) = [] := by
    rw [List.filter_eq_nil_iff]
    intro a ha
    obtain ⟨b, _, hb⟩ := List.mem_map.mp ha
    rw [← hb]
    simp [AudioChannel.clear]
  rw [this]
  rfl

/-! ## The claims on the host pull, the mix tick and the end-to-end scenario -/

/-- C1, evaluated at a failing input. After `__AudioInit` (Medium profile) and two ticks the
global ring buffer satisfies the ring invariant and holds 256 samples. `__AudioMix(out, 64)`
then returns 128, more than `numFrames = 64`; it writes `out[255]`, an index beyond
`2 * numFrames = 128` (the buffer held 5 there, it now holds the mixed silence 0); and it
removes all 256 samples, not `min(256, 128)`. -/
theorem audioMix_exceeds_numFrames :
    RingInvariant exTwoTicks ∧ exTwoTicks.mixBufferCount = 256 ∧
    (__AudioMix exTwoTicks (fun _ => 5) 64).ret = 128 ∧
    (__AudioMix exTwoTicks (fun _ => 5) 64).outstereo 255 = 0 ∧
    (__AudioMix exTwoTicks (fun _ => 5) 64).state.mixBufferCount = 0 := by
  decide

/-- C9. Mix accumulation. One `__AudioUpdate` writes into the global output ring buffer,
from the tail on and modulo its capacity, a block of `2 * hwBlockSize` samples whose slot `s`
is `clamp16` of the exact integer sum over the reserved channels of the `s`-th sample popped
from the channel (0 when it holds fewer than `s + 1` samples); the fill count grows by the
block size; every reserved channel loses `min(length, 2 * hwBlockSize)` samples from the
front of its queue; and a channel that is not reserved is left exactly as it was (queue
and wait list included). The queues of the reserved channels are valid ring buffers of
`s16` samples, the block fits the global buffer, whose tail is in range, and the channel
array is short enough for the `s32` accumulator (it has `PSP_AUDIO_CHANNEL_MAX + 1`
entries). -/
theorem audioUpdate_mix_accumulation (c : Consts) (st : AudioState) (k : Kernel)
    (hhw : 0 < st.hwBlockSize) (hfit : st.hwBlockSize * 2 ≤ MIXBUFFER_QUEUE)
    (htail : 0 ≤ st.mixBufferTail ∧ st.mixBufferTail < MIXBUFFER_QUEUE)
    (hq : ∀ ch, ch ∈ st.chans → ch.reserved = true →
      ch.sampleQueue.WF ∧ ch.sampleQueue.S16Storage)
    (hn : st.chans.length ≤ 65535) :
    (∀ s, s < (st.hwBlockSize * 2).toNat →
      (__AudioUpdate c st k).1.mixBufferQueue
          ((st.mixBufferTail.toNat + s) % MIXBUFFER_QUEUE.toNat) =
        clamp_s16 (mixSum st.chans s)) ∧
    (__AudioUpdate c st k).1.mixBufferCount = st.mixBufferCount + st.hwBlockSize * 2 ∧
    (__AudioUpdate c st k).1.chans.length = st.chans.length ∧
    ∀ (i : Nat) (ch : AudioChannel), st.chans[i]? = some ch →
      ∃ ch2, ((__AudioUpdate c st k).1.chans)[i]? = some ch2 ∧
        (ch.reserved = true →
          ch2.sampleQueue.toList = ch.sampleQueue.toList.drop (st.hwBlockSize * 2).toNat ∧
          ch2.sampleQueue.size =
            ch.sampleQueue.size - min ch.sampleQueue.size (st.hwBlockSize * 2).toNat) ∧
        (ch.reserved = false → ch2 = ch) :=
  have h := audioUpdate_spec c st k hhw hfit htail hq hn
  ⟨h.1, h.2.2.1, h.2.2.2.2.2.2.1, h.2.2.2.2.2.2.2⟩

/-- Witness of C9: two reserved channels holding blocks of 1000 and of 32000, one channel
not reserved: slot 0 of the pushed block is `clamp16 (1000 + 32000)`. -/
theorem audioUpdate_mix_accumulation_witness :
    (__AudioUpdate exConsts exTwoChannels (exKernel true)).1.mixBufferQueue
        ((exTwoChannels.mixBufferTail.toNat + 0) % MIXBUFFER_QUEUE.toNat) =
      clamp_s16 (mixSum exTwoChannels.chans 0) ∧
    clamp_s16 (mixSum exTwoChannels.chans 0) = 32767 :=
  ⟨(audioUpdate_mix_accumulation exConsts exTwoChannels (exKernel true) (by decide) (by decide)
      ⟨by decide, by decide⟩
      (by
        intro ch hch hr
        have hwf : ch.sampleQueue.WF := by
          revert ch
          decide
        refine ⟨hwf, ?_⟩
        simp only [exTwoChannels, List.mem_cons, List.mem_singleton, List.not_mem_nil,
          or_false] at hch
        rcases hch with h | h | h <;> subst h <;> intro i <;>
          simp [exTone, isS16])
      (by decide)).1 0 (by decide),
   by decide⟩

set_option maxRecDepth 100000 in
/-- C10, counterexample. The scenario at both volumes `2^16`, on a module with nine
channels and guest samples that are all 1000: the enqueue returns 64 and the pull returns
64, but the block the tick pushes and the data the pull delivers are 2000, not 1000. -/
theorem endToEnd_volume_65536_doubles :
    (∀ i, i < 128 → readS16 exMem (0x08800000 + 2 * i) = 1000) ∧
    (endToEnd exConsts 222000000 exBoot (exChan .PSP_AUDIO_FORMAT_MONO 0 2 0 0)
      (List.replicate 8 (exChan .PSP_AUDIO_FORMAT_MONO 0 2 0 0)) (exKernel true) exMem
      (2 ^ 16) 0x08800000 (fun _ => 0)).init.hwBlockSize = 64 ∧
    (endToEnd exConsts 222000000 exBoot (exChan .PSP_AUDIO_FORMAT_MONO 0 2 0 0)
      (List.replicate 8 (exChan .PSP_AUDIO_FORMAT_MONO 0 2 0 0)) (exKernel true) exMem
      (2 ^ 16) 0x08800000 (fun _ => 0)).enqueue.ret = 64 ∧
    (endToEnd exConsts 222000000 exBoot (exChan .PSP_AUDIO_FORMAT_MONO 0 2 0 0)
      (List.replicate 8 (exChan .PSP_AUDIO_FORMAT_MONO 0 2 0 0)) (exKernel true) exMem
      (2 ^ 16) 0x08800000 (fun _ => 0)).tick.1.mixBufferQueue 0 = 2000 ∧
    (endToEnd exConsts 222000000 exBoot (exChan .PSP_AUDIO_FORMAT_MONO 0 2 0 0)
      (List.replicate 8 (exChan .PSP_AUDIO_FORMAT_MONO 0 2 0 0)) (exKernel true) exMem
      (2 ^ 16) 0x08800000 (fun _ => 0)).mix.ret = 64 ∧
    (endToEnd exConsts 222000000 exBoot (exChan .PSP_AUDIO_FORMAT_MONO 0 2 0 0)
      (List.replicate 8 (exChan .PSP_AUDIO_FORMAT_MONO 0 2 0 0)) (exKernel true) exMem
      (2 ^ 16) 0x08800000 (fun _ => 0)).mix.outstereo 0 = 2000 := by
  decide

/-- C10, amended. The end-to-end scenario with both volumes at `2^15`, the value the code
treats as unity, on a little-endian build: after `__AudioInit` with the Medium profile
(`hwBlockSize == 64`), with channel 0 reserved, stereo, its queue empty (of capacity at
least 128, an array of `s16`), a non-blocking `__AudioEnqueue` of 64 frames whose 128
samples all equal 1000 returns 64; one `__AudioUpdate` tick then appends to the global
output ring buffer a block of 128 slots all equal to 1000; and `__AudioMix(buf, 64)` then
returns 64 and leaves `buf[0..127]` all equal to 1000. -/
theorem endToEnd_unity (c : Consts) (cyclesPerSecond : Int) (st : AudioState)
    (x : AudioChannel) (rest : List AudioChannel) (k : Kernel) (mem : Memory) (addr : Nat)
    (buf : Nat → Int)
    (hcap : 128 ≤ x.sampleQueue.N ∧ x.sampleQueue.N < 2147483648)
    (hs16 : x.sampleQueue.S16Storage) (hlen : rest.length + 1 ≤ 65535)
    (haddr : addr ≠ 0) (hmem : ∀ i, i < 128 → readS16 mem (addr + 2 * i) = 1000)
    (hle : c.IS_LITTLE_ENDIAN = true) :
    (endToEnd c cyclesPerSecond st x rest k mem (2 ^ 15) addr buf).init.hwBlockSize = 64 ∧
    (endToEnd c cyclesPerSecond st x rest k mem (2 ^ 15) addr buf).enqueue.ret = 64 ∧
    (endToEnd c cyclesPerSecond st x rest k mem (2 ^ 15) addr buf).tick.1.mixBufferCount = 128 ∧
    (∀ s, s < 128 →
      (endToEnd c cyclesPerSecond st x rest k mem (2 ^ 15) addr buf).tick.1.mixBufferQueue s =
        1000) ∧
    (endToEnd c cyclesPerSecond st x rest k mem (2 ^ 15) addr buf).mix.ret = 64 ∧
    (∀ i, i < 128 →
      (endToEnd c cyclesPerSecond st x rest k mem (2 ^ 15) addr buf).mix.outstereo i = 1000) := by
  -- the channel the enqueue works on
  obtain ⟨chan0, hchan0⟩ : ∃ ch, ch = reserveStereo x.clear (2 ^ 15) addr := ⟨_, rfl⟩
  have hwf0 : chan0.sampleQueue.WF := by
    rw [hchan0]
    exact ⟨by show 0 < x.sampleQueue.N; omega, hcap.2, by show 0 < x.sampleQueue.N; omega,
      by show 0 < x.sampleQueue.N; omega, Nat.zero_le _, by show 0 = (0 + 0) % _; simp⟩
  have hroom0 : chan0.sampleQueue.count + 2 * chan0.sampleCount ≤ chan0.sampleQueue.N := by
    rw [hchan0]
    show 0 + 2 * 64 ≤ x.sampleQueue.N
    omega
  have hs0 : chan0.sampleQueue.S16Storage := by
    rw [hchan0]; exact hs16
  -- the enqueue takes the bulk copy
  have henq : __AudioEnqueue c 1 mem k chan0 0 false =
      { chan := enqueueFast mem chan0, kernel := k, ret := 64 } := by
    have h1 : chan0.sampleQueue.size = 0 := by rw [hchan0]; rfl
    have h2 : chan0.sampleAddress = addr := by rw [hchan0]; rfl
    have h3 : chan0.leftVolume = 32768 := by rw [hchan0]; rfl
    have h4 : chan0.rightVolume = 32768 := by rw [hchan0]; rfl
    have h5 : chan0.format = AudioFormat.PSP_AUDIO_FORMAT_STEREO := by rw [hchan0]; rfl
    have h6 : chan0.sampleCount = 64 := by rw [hchan0]; rfl
    unfold __AudioEnqueue enqueueTail enqueueSamples
    simp [h1, h2, h3, h4, h5, h6, haddr, hle]
  have hfast := enqueueFast_spec mem chan0 hwf0 hroom0
  have hfwf := enqueueFast_wf mem chan0 hwf0 hroom0
  have hpop : ∀ s, s < 128 → poppedSample (enqueueFast mem chan0) s = 1000 := by
    intro s hs
    have hnil : chan0.sampleQueue.toList = [] := by rw [hchan0]; rfl
    have h2 : chan0.sampleAddress = addr := by rw [hchan0]; rfl
    have h6 : chan0.sampleCount = 64 := by rw [hchan0]; rfl
    unfold poppedSample
    rw [hfast.1, hnil, h2, h6, List.nil_append, List.getD_eq_getElem?_getD, List.getElem?_map,
      List.getElem?_range (by omega)]
    simp [hmem s hs]
  have hres : (enqueueFast mem chan0).reserved = true := by
    rw [(enqueueFast_fields mem chan0).2.1, hchan0]; rfl
  -- the state the tick runs on
  obtain ⟨st1, hst1⟩ : ∃ s : AudioState, s =
      { __AudioInit MEDIUM_LATENCY cyclesPerSecond { st with chans := x :: rest } with
        chans := enqueueFast mem chan0 :: rest.map AudioChannel.clear } := ⟨_, rfl⟩
  have hsc : endToEnd c cyclesPerSecond st x rest k mem (2 ^ 15) addr buf =
      { init := __AudioInit MEDIUM_LATENCY cyclesPerSecond { st with chans := x :: rest }
        enqueue := { chan := enqueueFast mem chan0, kernel := k, ret := 64 }
        tick := __AudioUpdate c st1 k
        mix := __AudioMix (__AudioUpdate c st1 k).1 buf 64 } := by
    have e1 : endToEnd c cyclesPerSecond st x rest k mem (2 ^ 15) addr buf =
      { init := __AudioInit MEDIUM_LATENCY cyclesPerSecond { st with chans := x :: rest }
        enqueue := __AudioEnqueue c 1 mem k chan0 0 false
        tick := __AudioUpdate c
          { __AudioInit MEDIUM_LATENCY cyclesPerSecond { st with chans := x :: rest } with
            chans := (__AudioEnqueue c 1 mem k chan0 0 false).chan ::
              rest.map AudioChannel.clear }
          (__AudioEnqueue c 1 mem k chan0 0 false).kernel
        mix := __AudioMix (__AudioUpdate c
          { __AudioInit MEDIUM_LATENCY cyclesPerSecond { st with chans := x :: rest } with
            chans := (__AudioEnqueue c 1 mem k chan0 0 false).chan ::
              rest.map AudioChannel.clear }
          (__AudioEnqueue c 1 mem k chan0 0 false).kernel).1 buf 64 } := by
      rw [hchan0]; rfl
    rw [e1, henq, hst1]
  rw [hsc]
  have hhw1 : st1.hwBlockSize = 64 := by rw [hst1]; rfl
  have htl1 : st1.mixBufferTail = 0 := by rw [hst1]; rfl
  have hupd := audioUpdate_spec c st1 k (by rw [hhw1]; decide) (by rw [hhw1]; decide)
    (by rw [htl1]; exact ⟨by decide, by decide⟩)
    (by
      rw [hst1]
      intro ch hch hr
      simp only [List.mem_cons] at hch
      rcases hch with h | h
      · rw [h]; exact ⟨hfwf.1, hfwf.2 hs0⟩
      · exfalso
        obtain ⟨b, _, hb⟩ := List.mem_map.mp h
        rw [← hb] at hr
        simp [AudioChannel.clear] at hr)
    (by rw [hst1]; simp; omega)
  obtain ⟨hu1, _, hu3, _, hu5, _, _, _⟩ := hupd
  have hblock : ∀ s, s < 128 → (__AudioUpdate c st1 k).1.mixBufferQueue s = 1000 := by
    intro s hs
    have h := hu1 s (by rw [hhw1]; exact hs)
    have hidx : (st1.mixBufferTail.toNat + s) % MIXBUFFER_QUEUE.toNat = s := by
      rw [htl1]
      show (0 + s) % 8192 = s
      omega
    rw [hidx] at h
    rw [h, hst1]
    have hsum : mixSum (enqueueFast mem chan0 :: rest.map AudioChannel.clear) s = 1000 := by
      have hc := mixSum_cleared rest s
      unfold mixSum at hc ⊢
      rw [List.filter_cons, if_pos hres, List.map_cons, List.sum_cons, hc]
      rw [hpop s hs]
      rfl
    show clamp_s16 (mixSum (enqueueFast mem chan0 :: rest.map AudioChannel.clear) s) = 1000
    rw [hsum]
    decide
  have hcount : (__AudioUpdate c st1 k).1.mixBufferCount = 128 := by
    rw [hu3, hhw1, hst1]; rfl
  have hhead : (__AudioUpdate c st1 k).1.mixBufferHead = 0 := by
    rw [hu5, hst1]; rfl
  have hmix := audioMix_spec (__AudioUpdate c st1 k).1 buf 64
    (by rw [hhead]; decide) (by rw [hcount]; decide)
  obtain ⟨hm1, _, _, hm4⟩ := hmix
  refine ⟨rfl, rfl, hcount, hblock, ?_, ?_⟩
  · show (__AudioMix (__AudioUpdate c st1 k).1 buf 64).ret = 64
    rw [hm1, hcount]; rfl
  · intro i hi
    show (__AudioMix (__AudioUpdate c st1 k).1 buf 64).outstereo i = 1000
    rw [hm4 i, hcount, hhead, if_pos (by show i < 128; exact hi)]
    have hidx : ((0 : Int).toNat + i) % MIXBUFFER_QUEUE.toNat = i := by
      show (0 + i) % 8192 = i
      omega
    rw [hidx]
    exact hblock i hi

/-- Witness of C10 (amended): the scenario on the nine-channel module with guest samples
that are all 1000. -/
theorem endToEnd_unity_witness :
    (endToEnd exConsts 222000000 exBoot (exChan .PSP_AUDIO_FORMAT_MONO 0 2 0 0)
      (List.replicate 8 (exChan .PSP_AUDIO_FORMAT_MONO 0 2 0 0)) (exKernel true) exMem
      (2 ^ 15) 0x08800000 (fun _ => 0)).mix.ret = 64 ∧
    (∀ i, i < 128 →
      (endToEnd exConsts 222000000 exBoot (exChan .PSP_AUDIO_FORMAT_MONO 0 2 0 0)
        (List.replicate 8 (exChan .PSP_AUDIO_FORMAT_MONO 0 2 0 0)) (exKernel true) exMem
        (2 ^ 15) 0x08800000 (fun _ => 0)).mix.outstereo i = 1000) :=
  have h := endToEnd_unity exConsts 222000000 exBoot (exChan .PSP_AUDIO_FORMAT_MONO 0 2 0 0)
    (List.replicate 8 (exChan .PSP_AUDIO_FORMAT_MONO 0 2 0 0)) (exKernel true) exMem
    0x08800000 (fun _ => 0) ⟨by decide, by decide⟩ (fun i => by simp [exChan, exQueue, isS16])
    (by decide) (by decide) (by decide) rfl
  ⟨h.2.2.2.2.1, h.2.2.2.2.2⟩

/-! ## Runs of ticks and pulls -/

/-- The queued samples of the global buffer are the abstraction of its view. -/
theorem mixBufferList_eq_view (st : AudioState) :
    mixBufferList st = (mixBufferView st).toList := rfl

/-- The block push leaves the accumulator alone. -/
theorem pushMixBuffer_mixBuffer (st : AudioState) :
    (pushMixBuffer st).mixBuffer = st.mixBuffer := by
  unfold pushMixBuffer
  simp only
  split_ifs <;> rfl

/-- The ring side of one tick, with no assumption on the channels: the clamped accumulator
of the tick lands behind the tail, everything else in the buffer stays. -/
theorem audioUpdate_ring (c : Consts) (st : AudioState) (k : Kernel)
    (hhw : 0 < st.hwBlockSize) (hfit : st.hwBlockSize * 2 ≤ MIXBUFFER_QUEUE)
    (htail : 0 ≤ st.mixBufferTail ∧ st.mixBufferTail < MIXBUFFER_QUEUE) :
    (∀ s, s < (st.hwBlockSize * 2).toNat →
      (__AudioUpdate c st k).1.mixBufferQueue
          ((st.mixBufferTail.toNat + s) % MIXBUFFER_QUEUE.toNat) =
        clamp_s16 ((__AudioUpdate c st k).1.mixBuffer s)) ∧
    (∀ x, (∀ s, s < (st.hwBlockSize * 2).toNat →
        x ≠ (st.mixBufferTail.toNat + s) % MIXBUFFER_QUEUE.toNat) →
      (__AudioUpdate c st k).1.mixBufferQueue x = st.mixBufferQueue x) ∧
    (__AudioUpdate c st k).1.mixBufferCount = st.mixBufferCount + st.hwBlockSize * 2 ∧
    (__AudioUpdate c st k).1.mixBufferTail =
      (st.mixBufferTail + st.hwBlockSize * 2) % MIXBUFFER_QUEUE ∧
    (__AudioUpdate c st k).1.mixBufferHead = st.mixBufferHead ∧
    (__AudioUpdate c st k).1.hwBlockSize = st.hwBlockSize := by
  obtain ⟨st1, hst1⟩ : ∃ s : AudioState, s =
      { st with
        chans := (mixChannels c st.hwBlockSize st.chans
          (memcpy st.mixBuffer 0 (fun _ => 0) (st.hwBlockSize * 2).toNat) k).1,
        mixBuffer := (mixChannels c st.hwBlockSize st.chans
          (memcpy st.mixBuffer 0 (fun _ => 0) (st.hwBlockSize * 2).toNat) k).2.1 } := ⟨_, rfl⟩
  have e : (__AudioUpdate c st k).1 = pushMixBuffer st1 := by rw [hst1]; rfl
  have h1 : st1.hwBlockSize = st.hwBlockSize := by rw [hst1]
  have h2 : st1.mixBufferTail = st.mixBufferTail := by rw [hst1]
  have h3 : st1.mixBufferCount = st.mixBufferCount := by rw [hst1]
  have h4 : st1.mixBufferHead = st.mixBufferHead := by rw [hst1]
  have h5 : st1.mixBufferQueue = st.mixBufferQueue := by rw [hst1]
  have hp := pushMixBuffer_spec st1 (by rw [h1]; exact hhw) (by rw [h1]; exact hfit)
    (by rw [h2]; exact htail)
  rw [h1, h2, h3, h4, h5] at hp
  obtain ⟨hp1, hp2, hp3, hp4, hp5, _, hp7⟩ := hp
  rw [e]
  refine ⟨?_, hp2, hp3, hp4, hp5, hp7⟩
  intro s hs
  rw [hp1 s hs, pushMixBuffer_mixBuffer]

/-- The cursor invariant makes the view of the global buffer a valid ring buffer. -/
theorem mixBufferView_wf (st : AudioState) (h : CursorInvariant st) : (mixBufferView st).WF := by
  unfold CursorInvariant at h
  rw [MIXBUFFER_QUEUE_eq] at h
  obtain ⟨h1, h2, h3, h4, h5, h6, h7⟩ := h
  have e8 : MIXBUFFER_QUEUE.toNat = 8192 := rfl
  refine ⟨?_, ?_, ?_, ?_, ?_, ?_⟩
  · show 0 < MIXBUFFER_QUEUE.toNat
    rw [e8]; decide
  · show MIXBUFFER_QUEUE.toNat < 2147483648
    rw [e8]; decide
  · show st.mixBufferHead.toNat < MIXBUFFER_QUEUE.toNat
    rw [e8]; omega
  · show st.mixBufferTail.toNat < MIXBUFFER_QUEUE.toNat
    rw [e8]; omega
  · show st.mixBufferCount.toNat ≤ MIXBUFFER_QUEUE.toNat
    rw [e8]; omega
  · show st.mixBufferTail.toNat =
      (st.mixBufferHead.toNat + st.mixBufferCount.toNat) % MIXBUFFER_QUEUE.toNat
    rw [e8]; omega

/-- A tick that does not overrun the global buffer keeps the invariant of the run. -/
theorem run_step_tick (c : Consts) (r : Run) (hinv : r.Invariant)
    (hhw : 0 < r.state.hwBlockSize) (hfit : r.state.hwBlockSize * 2 ≤ MIXBUFFER_QUEUE)
    (hcap : (Run.step c r HostOp.tick).state.mixBufferCount ≤ MIXBUFFER_QUEUE) :
    (Run.step c r HostOp.tick).Invariant ∧
    (Run.step c r HostOp.tick).state.hwBlockSize = r.state.hwBlockSize := by
  obtain ⟨hcur, heven, hlist⟩ := hinv
  have hwf := mixBufferView_wf r.state hcur
  have hcur2 := hcur
  unfold CursorInvariant at hcur2
  rw [MIXBUFFER_QUEUE_eq] at hcur2 hfit hcap
  obtain ⟨h1, h2, h3, h4, h5, h6, h7⟩ := hcur2
  have hr := audioUpdate_ring c r.state r.kernel hhw (by rw [MIXBUFFER_QUEUE_eq]; exact hfit)
    (by rw [MIXBUFFER_QUEUE_eq]; exact ⟨h5, h6⟩)
  obtain ⟨hq1, hq2, hq3, hq4, hq5, hq6⟩ := hr
  have e8 : MIXBUFFER_QUEUE.toNat = 8192 := rfl
  rw [MIXBUFFER_QUEUE_eq] at hq4
  rw [e8] at hq1 hq2
  have hstate : (Run.step c r HostOp.tick).state = (__AudioUpdate c r.state r.kernel).1 := rfl
  rw [hstate] at hcap
  rw [hq3] at hcap
  refine ⟨⟨?_, ?_, ?_⟩, hq6⟩
  · show CursorInvariant (__AudioUpdate c r.state r.kernel).1
    unfold CursorInvariant
    rw [MIXBUFFER_QUEUE_eq, hq3, hq4, hq5]
    omega
  · show (__AudioUpdate c r.state r.kernel).1.mixBufferCount % 2 = 0
    rw [hq3]; omega
  · show r.pushed ++ _ = r.pulled ++ _
    rw [hlist, List.append_assoc]
    congr 1
    rw [mixBufferList_eq_view, mixBufferList_eq_view]
    symm
    apply toList_append_of_write (mixBufferView r.state)
      (mixBufferView (__AudioUpdate c r.state r.kernel).1) _ _ hwf rfl
    · show (__AudioUpdate c r.state r.kernel).1.mixBufferHead.toNat = r.state.mixBufferHead.toNat
      rw [hq5]
    · show (__AudioUpdate c r.state r.kernel).1.mixBufferCount.toNat =
        r.state.mixBufferCount.toNat + (r.state.hwBlockSize * 2).toNat
      rw [hq3]; omega
    · intro j hj
      show (__AudioUpdate c r.state r.kernel).1.mixBufferQueue
        ((r.state.mixBufferTail.toNat + j) % MIXBUFFER_QUEUE.toNat) = _
      rw [e8]
      exact hq1 j hj
    · intro i hi
      show (__AudioUpdate c r.state r.kernel).1.mixBufferQueue
        ((r.state.mixBufferHead.toNat + i) % MIXBUFFER_QUEUE.toNat) =
        r.state.mixBufferQueue ((r.state.mixBufferHead.toNat + i) % MIXBUFFER_QUEUE.toNat)
      rw [e8]
      have hi2 : i < r.state.mixBufferCount.toNat := hi
      apply hq2
      intro s hs
      omega

/-- A pull keeps the invariant of the run. -/
theorem run_step_mix (c : Consts) (r : Run) (outstereo : Nat → Int) (numFrames : Int)
    (hinv : r.Invariant) :
    (Run.step c r (HostOp.mix outstereo numFrames)).Invariant ∧
    (Run.step c r (HostOp.mix outstereo numFrames)).state.hwBlockSize =
      r.state.hwBlockSize := by
  obtain ⟨hcur, heven, hlist⟩ := hinv
  have hcur2 := hcur
  unfold CursorInvariant at hcur2
  obtain ⟨h1, h2, h3, h4, h5, h6, h7⟩ := hcur2
  have hm := audioMix_spec r.state outstereo numFrames ⟨h3, h4⟩ ⟨h1, h2⟩
  obtain ⟨hm1, hm2, hm3, hm4⟩ := hm
  have htail : (__AudioMix r.state outstereo numFrames).state.mixBufferTail =
      r.state.mixBufferTail := by
    unfold __AudioMix
    simp only
    split_ifs <;> rfl
  have hhw : (__AudioMix r.state outstereo numFrames).state.hwBlockSize =
      r.state.hwBlockSize := by
    unfold __AudioMix
    simp only
    split_ifs <;> rfl
  have hstate : (Run.step c r (HostOp.mix outstereo numFrames)).state =
      (__AudioMix r.state outstereo numFrames).state := rfl
  rw [MIXBUFFER_QUEUE_eq] at h2 h4 h6 h7 hm3
  refine ⟨⟨?_, ?_, ?_⟩, by rw [hstate, hhw]⟩
  · show CursorInvariant (__AudioMix r.state outstereo numFrames).state
    unfold CursorInvariant
    rw [MIXBUFFER_QUEUE_eq, hm2, hm3, htail]
    omega
  · show (__AudioMix r.state outstereo numFrames).state.mixBufferCount % 2 = 0
    rw [hm2]; rfl
  · show r.pushed = (r.pulled ++ _) ++ mixBufferList (__AudioMix r.state outstereo numFrames).state
    have hnil : mixBufferList (__AudioMix r.state outstereo numFrames).state = [] := by
      unfold mixBufferList
      rw [hm2]; rfl
    rw [hnil, List.append_nil, hlist]
    congr 1
    unfold mixBufferList
    rw [hm1, show (2 * (r.state.mixBufferCount / 2)).toNat = r.state.mixBufferCount.toNat by omega]
    apply List.map_congr_left
    intro i hi
    rw [hm4 i, if_pos (List.mem_range.mp hi)]

/-- A run that stays within the capacity starts within the capacity. -/
theorem withinCapacity_head (c : Consts) (r : Run) (ops : List HostOp)
    (h : r.withinCapacity c ops = true) : r.state.mixBufferCount ≤ MIXBUFFER_QUEUE := by
  cases ops with
  | nil => simpa [Run.withinCapacity] using h
  | cons op rest =>
    simp only [Run.withinCapacity, Bool.and_eq_true, decide_eq_true_eq] at h
    exact h.1

/-- The invariant of a run holds after every sequence of ticks and pulls that stays within
the capacity of the global buffer. -/
theorem run_steps_invariant (c : Consts) (hw : Int) (hhw : 0 < hw)
    (hfit : hw * 2 ≤ MIXBUFFER_QUEUE) (ops : List HostOp) :
    ∀ r : Run, r.Invariant → r.state.hwBlockSize = hw → r.withinCapacity c ops = true →
      (r.steps c ops).Invariant := by
  induction ops with
  | nil => intro r hinv _ _; exact hinv
  | cons op rest ih =>
    intro r hinv hr hcap
    simp only [Run.withinCapacity, Bool.and_eq_true, decide_eq_true_eq] at hcap
    have hnext := withinCapacity_head c _ rest hcap.2
    show ((Run.step c r op).steps c rest).Invariant
    cases op with
    | tick =>
      have h := run_step_tick c r hinv (by rw [hr]; exact hhw) (by rw [hr]; exact hfit) hnext
      exact ih _ h.1 (by rw [h.2, hr]) hcap.2
    | mix outstereo numFrames =>
      have h := run_step_mix c r outstereo numFrames hinv
      exact ih _ h.1 (by rw [h.2, hr]) hcap.2

/-- A run that starts on an empty global buffer with its cursors at 0 starts with the
invariant. -/
theorem run_start_invariant (st : AudioState) (k : Kernel)
    (h0 : st.mixBufferHead = 0 ∧ st.mixBufferTail = 0 ∧ st.mixBufferCount = 0) :
    (Run.start st k).Invariant := by
  obtain ⟨h1, h2, h3⟩ := h0
  refine ⟨?_, ?_, ?_⟩
  · show CursorInvariant st
    unfold CursorInvariant
    rw [h1, h2, h3]
    decide
  · show st.mixBufferCount % 2 = 0
    rw [h3]; rfl
  · show ([] : List Int) = [] ++ mixBufferList st
    unfold mixBufferList
    rw [h3]; rfl

/-! ## Conservation and the ring invariant on the global output ring buffer -/

/-- C11. Ring buffer conservation. From the state `__AudioInit` sets (head, tail and count
0; a positive block size that fits the buffer), after every interleaved sequence of
`__AudioUpdate` ticks and `__AudioMix` pulls during which `mixBufferCount` never exceeds
`MIXBUFFER_QUEUE`, `mixBufferCount` is the number of samples pushed minus the number of
samples pulled, and the concatenation of the data the pulls returned is, sample for sample
and in order, the prefix of that length of the concatenation of the pushed blocks. -/
theorem ring_conservation (c : Consts) (st : AudioState) (k : Kernel) (ops : List HostOp)
    (h0 : st.mixBufferHead = 0 ∧ st.mixBufferTail = 0 ∧ st.mixBufferCount = 0)
    (hhw : 0 < st.hwBlockSize) (hfit : st.hwBlockSize * 2 ≤ MIXBUFFER_QUEUE)
    (hcap : (Run.start st k).withinCapacity c ops = true) :
    ((Run.start st k).steps c ops).state.mixBufferCount =
      (((Run.start st k).steps c ops).pushed.length : Int) -
        (((Run.start st k).steps c ops).pulled.length : Int) ∧
    ((Run.start st k).steps c ops).pulled =
      ((Run.start st k).steps c ops).pushed.take ((Run.start st k).steps c ops).pulled.length := by
  have hinv := run_steps_invariant c st.hwBlockSize hhw hfit ops (Run.start st k)
    (run_start_invariant st k h0) rfl hcap
  obtain ⟨hcur, _, hlist⟩ := hinv
  unfold CursorInvariant at hcur
  constructor
  · rw [hlist, List.length_append]
    unfold mixBufferList
    rw [List.length_map, List.length_range]
    push_cast
    omega
  · rw [hlist, List.take_left']
    rfl

set_option maxRecDepth 100000 in
/-- Witness of C11: after `__AudioInit` (Medium), two ticks, a pull and a third tick. -/
theorem ring_conservation_witness :
    ((Run.start exInit (exKernel true)).steps exConsts
      [HostOp.tick, HostOp.tick, HostOp.mix (fun _ => 0) 64, HostOp.tick]).state.mixBufferCount =
      (((Run.start exInit (exKernel true)).steps exConsts
        [HostOp.tick, HostOp.tick, HostOp.mix (fun _ => 0) 64, HostOp.tick]).pushed.length : Int) -
      (((Run.start exInit (exKernel true)).steps exConsts
        [HostOp.tick, HostOp.tick, HostOp.mix (fun _ => 0) 64, HostOp.tick]).pulled.length : Int) :=
  (ring_conservation exConsts exInit (exKernel true)
    [HostOp.tick, HostOp.tick, HostOp.mix (fun _ => 0) 64, HostOp.tick]
    (by decide) (by decide) (by decide) (by decide)).1

set_option maxRecDepth 1000000 in
/-- C14, counterexample. From `__AudioInit` (Medium profile, blocks of 128 samples): after 64
ticks without a pull the buffer is exactly full, `mixBufferCount = 8192 = C` with
`head = tail = 0`, so `(tail - head) mod C = 0` is not `mixBufferCount`; after 65 ticks
`mixBufferCount = 8320` exceeds `C`. The ring invariant fails in both states. -/
theorem ring_invariant_fails_without_pulls :
    ((Run.start exInit (exKernel true)).steps exConsts
      (List.replicate 64 HostOp.tick)).state.mixBufferCount = 8192 ∧
    ((Run.start exInit (exKernel true)).steps exConsts
      (List.replicate 64 HostOp.tick)).state.mixBufferHead = 0 ∧
    ((Run.start exInit (exKernel true)).steps exConsts
      (List.replicate 64 HostOp.tick)).state.mixBufferTail = 0 ∧
    ¬ RingInvariant ((Run.start exInit (exKernel true)).steps exConsts
      (List.replicate 64 HostOp.tick)).state ∧
    ((Run.start exInit (exKernel true)).steps exConsts
      (List.replicate 65 HostOp.tick)).state.mixBufferCount = 8320 ∧
    ¬ RingInvariant ((Run.start exInit (exKernel true)).steps exConsts
      (List.replicate 65 HostOp.tick)).state := by
  decide

/-- C14, amended. Every state reached from the state `__AudioInit` sets (head, tail and
count 0; a positive block size that fits the buffer) by a finite sequence of
`__AudioUpdate` ticks and `__AudioMix` pulls, in any order and with any `numFrames`, during
which `mixBufferCount` never exceeds `C = MIXBUFFER_QUEUE`, satisfies `0 ≤ mixBufferCount ≤ C`,
`mixBufferHead, mixBufferTail ∈ [0, C)` and
`(mixBufferTail - mixBufferHead) mod C = mixBufferCount mod C`. -/
theorem ring_invariant_within_capacity (c : Consts) (st : AudioState) (k : Kernel)
    (ops : List HostOp)
    (h0 : st.mixBufferHead = 0 ∧ st.mixBufferTail = 0 ∧ st.mixBufferCount = 0)
    (hhw : 0 < st.hwBlockSize) (hfit : st.hwBlockSize * 2 ≤ MIXBUFFER_QUEUE)
    (hcap : (Run.start st k).withinCapacity c ops = true) :
    CursorInvariant ((Run.start st k).steps c ops).state :=
  (run_steps_invariant c st.hwBlockSize hhw hfit ops (Run.start st k)
    (run_start_invariant st k h0) rfl hcap).1

set_option maxRecDepth 1000000 in
/-- Witness of C14 (amended): 64 ticks fill the buffer exactly and keep the invariant. -/
theorem ring_invariant_within_capacity_witness :
    CursorInvariant ((Run.start exInit (exKernel true)).steps exConsts
      (List.replicate 64 HostOp.tick)).state :=
  ring_invariant_within_capacity exConsts exInit (exKernel true) (List.replicate 64 HostOp.tick)
    (by decide) (by decide) (by decide) (by decide)

/-! ## Save and restore -/

/-- The channel loop of a save only appends to the stream when the save of one channel
does. -/
theorem chansDoState_write
    (chanDoState : PointerWrap → AudioChannel → PointerWrap × AudioChannel)
    (happ : ∀ (p : PointerWrap) (ch : AudioChannel), p.mode = Mode.MODE_WRITE →
      ∃ items, (chanDoState p ch).1 = { p with stream := p.stream ++ items })
    (chans : List AudioChannel) :
    ∀ p : PointerWrap, p.mode = Mode.MODE_WRITE →
      ∃ items, (chansDoState chanDoState p chans).1 = { p with stream := p.stream ++ items } := by
  induction chans with
  | nil =>
    intro p _
    exact ⟨[], by simp [chansDoState]⟩
  | cons ch rest ih =>
    intro p hp
    obtain ⟨i1, h1⟩ := happ p ch hp
    have hm : (chanDoState p ch).1.mode = Mode.MODE_WRITE := by rw [h1]; exact hp
    obtain ⟨i2, h2⟩ := ih (chanDoState p ch).1 hm
    refine ⟨i1 ++ i2, ?_⟩
    show (chansDoState chanDoState (chanDoState p ch).1 rest).1 = _
    rw [h2, h1]
    simp

/-- The stream a save produces: the section header, the two event handles, the mix
frequency, the ring buffer (capacity, contents, cursors, marker), the channel count, then
what the channels append. -/
theorem audioDoState_write_stream
    (chanDoState : PointerWrap → AudioChannel → PointerWrap × AudioChannel)
    (happ : ∀ (p : PointerWrap) (ch : AudioChannel), p.mode = Mode.MODE_WRITE →
      ∃ items, (chanDoState p ch).1 = { p with stream := p.stream ++ items })
    (cyclesPerSecond : Int) (ev : EventIds) (st : AudioState) :
    ∃ items,
      (__AudioDoState chanDoState cyclesPerSecond
        { mode := Mode.MODE_WRITE, stream := [], error := false } ev st).p.stream =
      Item.header Label.sceAudio 1 :: Item.word ev.eventAudioUpdate ::
       Item.word ev.eventHostAudioUpdate :: Item.word st.mixFrequency ::
       Item.word MIXBUFFER_QUEUE ::
       Item.array ((List.range MIXBUFFER_QUEUE.toNat).map st.mixBufferQueue) ::
       Item.word st.mixBufferHead :: Item.word st.mixBufferTail ::
       Item.word st.mixBufferCount ::
       Item.marker Label.FixedSizeQueueLR :: Item.word (st.chans.length : Int) :: items := by
  obtain ⟨items, hi⟩ := chansDoState_write chanDoState happ st.chans
    { mode := Mode.MODE_WRITE,
      stream := [Item.header Label.sceAudio 1, Item.word ev.eventAudioUpdate,
       Item.word ev.eventHostAudioUpdate, Item.word st.mixFrequency,
       Item.word MIXBUFFER_QUEUE,
       Item.array ((List.range MIXBUFFER_QUEUE.toNat).map st.mixBufferQueue),
       Item.word st.mixBufferHead, Item.word st.mixBufferTail, Item.word st.mixBufferCount,
       Item.marker Label.FixedSizeQueueLR, Item.word (st.chans.length : Int)],
      error := false } rfl
  refine ⟨items, ?_⟩
  have e : (__AudioDoState chanDoState cyclesPerSecond
      { mode := Mode.MODE_WRITE, stream := [], error := false } ev st).p =
      (chansDoState chanDoState
        { mode := Mode.MODE_WRITE,
          stream := [Item.header Label.sceAudio 1, Item.word ev.eventAudioUpdate,
           Item.word ev.eventHostAudioUpdate, Item.word st.mixFrequency,
           Item.word MIXBUFFER_QUEUE,
           Item.array ((List.range MIXBUFFER_QUEUE.toNat).map st.mixBufferQueue),
           Item.word st.mixBufferHead, Item.word st.mixBufferTail, Item.word st.mixBufferCount,
           Item.marker Label.FixedSizeQueueLR, Item.word (st.chans.length : Int)],
          error := false } st.chans).1 := by
    simp [__AudioDoState, queue_DoState, PointerWrap.Section, PointerWrap.Do,
      PointerWrap.DoArray, PointerWrap.DoMarker]
  rw [e, hi]
  rfl

/-- The function `queue_DoState` on a load whose next records are those of a saved ring
buffer of capacity `MIXBUFFER_QUEUE`: contents and cursors are taken from the records. -/
theorem queue_DoState_read (st : AudioState) (head tail count : Int) (vs : List Int)
    (items : List Item) (err : Bool) (hvs : vs.length = MIXBUFFER_QUEUE.toNat) :
    (queue_DoState
      { mode := Mode.MODE_READ,
        stream := Item.word MIXBUFFER_QUEUE :: Item.array vs :: Item.word head ::
          Item.word tail :: Item.word count :: Item.marker Label.FixedSizeQueueLR :: items,
        error := err } st) =
      ({ mode := Mode.MODE_READ, stream := items, error := err },
       { st with
         mixBufferQueue :=
           (fun i => if i < MIXBUFFER_QUEUE.toNat then vs.getD i 0 else st.mixBufferQueue i),
         mixBufferHead := head, mixBufferTail := tail, mixBufferCount := count }) := by
  simp [queue_DoState, PointerWrap.Do, PointerWrap.DoArray, PointerWrap.DoMarker, hvs]

/-- The function `queue_DoState` on a load whose recorded capacity is not `MIXBUFFER_QUEUE`:
the module state is returned as it is. -/
theorem queue_DoState_mismatch (st : AudioState) (size : Int) (items : List Item) (err : Bool)
    (hsize : size ≠ MIXBUFFER_QUEUE) :
    (queue_DoState
      { mode := Mode.MODE_READ, stream := Item.word size :: items, error := err } st).2 = st := by
  simp [queue_DoState, PointerWrap.Do, hsize]

/-- After the header of the section was accepted, `__AudioDoState` leaves the mix frequency
and the global ring buffer as `queue_DoState` returns them. -/
theorem audioDoState_ring_of_queue
    (chanDoState : PointerWrap → AudioChannel → PointerWrap × AudioChannel)
    (cyclesPerSecond : Int) (p : PointerWrap) (ev : EventIds) (st : AudioState)
    (hs : (p.Section Label.sceAudio 1).2 = true) (q : PointerWrap × AudioState)
    (hq : q = queue_DoState
      ((((p.Section Label.sceAudio 1).1.Do ev.eventAudioUpdate).1.Do
        ev.eventHostAudioUpdate).1.Do st.mixFrequency).1
      { st with mixFrequency :=
        ((((p.Section Label.sceAudio 1).1.Do ev.eventAudioUpdate).1.Do
          ev.eventHostAudioUpdate).1.Do st.mixFrequency).2 }) :
    (__AudioDoState chanDoState cyclesPerSecond p ev st).state.mixFrequency = q.2.mixFrequency ∧
    (__AudioDoState chanDoState cyclesPerSecond p ev st).state.mixBufferQueue =
      q.2.mixBufferQueue ∧
    (__AudioDoState chanDoState cyclesPerSecond p ev st).state.mixBufferHead =
      q.2.mixBufferHead ∧
    (__AudioDoState chanDoState cyclesPerSecond p ev st).state.mixBufferTail =
      q.2.mixBufferTail ∧
    (__AudioDoState chanDoState cyclesPerSecond p ev st).state.mixBufferCount =
      q.2.mixBufferCount := by
  unfold __AudioDoState
  simp only [hs, Bool.true_eq_false, if_false, ← hq]
  split_ifs <;> exact ⟨rfl, rfl, rfl, rfl, rfl⟩

/-- What a load restores from a stream that starts with the records of a save (capacity
`MIXBUFFER_QUEUE`, `MIXBUFFER_QUEUE` array entries): the mix frequency and the global ring
buffer, whatever follows in the stream and whatever the state was before the load. -/
theorem audioDoState_read_ring
    (chanDoState : PointerWrap → AudioChannel → PointerWrap × AudioChannel)
    (cyclesPerSecond : Int) (ev : EventIds) (st : AudioState) (e1 e2 freq head tail count : Int)
    (vs : List Int) (items : List Item) (hvs : vs.length = MIXBUFFER_QUEUE.toNat)
    (p : PointerWrap)
    (hp : p = PointerWrap.mk Mode.MODE_READ
        (Item.header Label.sceAudio 1 :: Item.word e1 :: Item.word e2 ::
          Item.word freq :: Item.word MIXBUFFER_QUEUE :: Item.array vs :: Item.word head ::
          Item.word tail :: Item.word count :: Item.marker Label.FixedSizeQueueLR :: items)
        false) :
    (__AudioDoState chanDoState cyclesPerSecond p ev st).state.mixFrequency = freq ∧
    (∀ i, i < MIXBUFFER_QUEUE.toNat →
      (__AudioDoState chanDoState cyclesPerSecond p ev st).state.mixBufferQueue i =
        vs.getD i 0) ∧
    (__AudioDoState chanDoState cyclesPerSecond p ev st).state.mixBufferHead = head ∧
    (__AudioDoState chanDoState cyclesPerSecond p ev st).state.mixBufferTail = tail ∧
    (__AudioDoState chanDoState cyclesPerSecond p ev st).state.mixBufferCount = count := by
  have hs : (p.Section Label.sceAudio 1).2 = true := by
    rw [hp]; simp [PointerWrap.Section]
  have hq := audioDoState_ring_of_queue chanDoState cyclesPerSecond p ev st hs _ rfl
  have hf : queue_DoState
      ((((p.Section Label.sceAudio 1).1.Do ev.eventAudioUpdate).1.Do
        ev.eventHostAudioUpdate).1.Do st.mixFrequency).1
      { st with mixFrequency :=
        ((((p.Section Label.sceAudio 1).1.Do ev.eventAudioUpdate).1.Do
          ev.eventHostAudioUpdate).1.Do st.mixFrequency).2 } =
      queue_DoState
        { mode := Mode.MODE_READ,
          stream := Item.word MIXBUFFER_QUEUE :: Item.array vs :: Item.word head ::
            Item.word tail :: Item.word count :: Item.marker Label.FixedSizeQueueLR :: items,
          error := false } { st with mixFrequency := freq } := by
    rw [hp]; simp [PointerWrap.Section, PointerWrap.Do]
  rw [hf, queue_DoState_read _ head tail count vs items false hvs] at hq
  obtain ⟨h1, h2, h3, h4, h5⟩ := hq
  refine ⟨h1, ?_, h3, h4, h5⟩
  intro i hi
  rw [h2]
  simp [hi]

/-- The save of one channel, as modelled, only appends to the stream. -/
theorem channel_DoState_write (p : PointerWrap) (ch : AudioChannel)
    (hp : p.mode = Mode.MODE_WRITE) :
    ∃ items, (AudioChannel.DoState p ch).1 = { p with stream := p.stream ++ items } := by
  unfold AudioChannel.DoState
  simp only [PointerWrap.Do, PointerWrap.DoArray, hp, List.append_assoc]
  exact ⟨_, rfl⟩

/-- C12. Save/restore round trip. For every state of the module, a save by `__AudioDoState`
followed, after arbitrary changes to the state, by a load by `__AudioDoState` of the stream
just written restores `mixFrequency`, the `MIXBUFFER_QUEUE` entries of `mixBufferQueue`,
`mixBufferHead`, `mixBufferTail` and `mixBufferCount` to their values at save time; and
when the saved cursors are in range, the next `__AudioMix` returns the same frame count and
the same data as it would have without the round trip. The save of a channel only appends
to the stream. -/
theorem audioDoState_round_trip
    (chanDoState : PointerWrap → AudioChannel → PointerWrap × AudioChannel)
    (happ : ∀ (p : PointerWrap) (ch : AudioChannel), p.mode = Mode.MODE_WRITE →
      ∃ items, (chanDoState p ch).1 = { p with stream := p.stream ++ items })
    (cpsSave cpsLoad : Int) (ev ev2 : EventIds) (st st2 : AudioState) :
    (saveThenLoad chanDoState cpsSave cpsLoad ev st ev2 st2).mixFrequency = st.mixFrequency ∧
    (∀ i, i < MIXBUFFER_QUEUE.toNat →
      (saveThenLoad chanDoState cpsSave cpsLoad ev st ev2 st2).mixBufferQueue i =
        st.mixBufferQueue i) ∧
    (saveThenLoad chanDoState cpsSave cpsLoad ev st ev2 st2).mixBufferHead = st.mixBufferHead ∧
    (saveThenLoad chanDoState cpsSave cpsLoad ev st ev2 st2).mixBufferTail = st.mixBufferTail ∧
    (saveThenLoad chanDoState cpsSave cpsLoad ev st ev2 st2).mixBufferCount =
      st.mixBufferCount ∧
    (0 ≤ st.mixBufferHead ∧ st.mixBufferHead < MIXBUFFER_QUEUE →
      0 ≤ st.mixBufferCount ∧ st.mixBufferCount ≤ MIXBUFFER_QUEUE →
      ∀ (outstereo : Nat → Int) (numFrames : Int),
        (__AudioMix (saveThenLoad chanDoState cpsSave cpsLoad ev st ev2 st2)
          outstereo numFrames).ret = (__AudioMix st outstereo numFrames).ret ∧
        ∀ i, (__AudioMix (saveThenLoad chanDoState cpsSave cpsLoad ev st ev2 st2)
          outstereo numFrames).outstereo i = (__AudioMix st outstereo numFrames).outstereo i) := by
  obtain ⟨items, hitems⟩ := audioDoState_write_stream chanDoState happ cpsSave ev st
  have hlen : ((List.range MIXBUFFER_QUEUE.toNat).map st.mixBufferQueue).length =
      MIXBUFFER_QUEUE.toNat := by simp
  have hr := audioDoState_read_ring chanDoState cpsLoad ev2 st2 ev.eventAudioUpdate
    ev.eventHostAudioUpdate st.mixFrequency st.mixBufferHead st.mixBufferTail
    st.mixBufferCount _ (Item.word (st.chans.length : Int) :: items) hlen
    { mode := Mode.MODE_READ,
      stream := (__AudioDoState chanDoState cpsSave
        { mode := Mode.MODE_WRITE, stream := [], error := false } ev st).p.stream,
      error := false } (by rw [hitems])
  have hdef : saveThenLoad chanDoState cpsSave cpsLoad ev st ev2 st2 =
      (__AudioDoState chanDoState cpsLoad
        { mode := Mode.MODE_READ,
          stream := (__AudioDoState chanDoState cpsSave
            { mode := Mode.MODE_WRITE, stream := [], error := false } ev st).p.stream,
          error := false } ev2 st2).state := rfl
  rw [← hdef] at hr
  obtain ⟨h1, h2, h3, h4, h5⟩ := hr
  have hq : ∀ i, i < MIXBUFFER_QUEUE.toNat →
      (saveThenLoad chanDoState cpsSave cpsLoad ev st ev2 st2).mixBufferQueue i =
        st.mixBufferQueue i := by
    intro i hi
    rw [h2 i hi, List.getD_eq_getElem?_getD, List.getElem?_map, List.getElem?_range hi]
    rfl
  refine ⟨h1, hq, h3, h4, h5, ?_⟩
  intro hh hc outstereo numFrames
  have m1 := audioMix_spec (saveThenLoad chanDoState cpsSave cpsLoad ev st ev2 st2) outstereo
    numFrames (by rw [h3]; exact hh) (by rw [h5]; exact hc)
  have m2 := audioMix_spec st outstereo numFrames hh hc
  refine ⟨by rw [m1.1, m2.1, h5], ?_⟩
  intro i
  rw [m1.2.2.2 i, m2.2.2.2 i, h5, h3]
  split_ifs with hi
  · apply hq
    have e8 : MIXBUFFER_QUEUE.toNat = 8192 := rfl
    rw [e8]
    omega
  · rfl


set_option maxRecDepth 100000 in
/-- Witness of C12: the module after two ticks is saved and loaded over the module as it
was before `__AudioInit`. -/
theorem audioDoState_round_trip_witness :
    (saveThenLoad AudioChannel.DoState 222000000 333000000
      { eventAudioUpdate := 1, eventHostAudioUpdate := 2 } exTwoTicks
      { eventAudioUpdate := 3, eventHostAudioUpdate := 4 } exBoot).mixBufferCount =
      exTwoTicks.mixBufferCount ∧
    (__AudioMix (saveThenLoad AudioChannel.DoState 222000000 333000000
      { eventAudioUpdate := 1, eventHostAudioUpdate := 2 } exTwoTicks
      { eventAudioUpdate := 3, eventHostAudioUpdate := 4 } exBoot) (fun _ => 5) 64).ret =
      (__AudioMix exTwoTicks (fun _ => 5) 64).ret :=
  have h := audioDoState_round_trip AudioChannel.DoState channel_DoState_write 222000000
    333000000 { eventAudioUpdate := 1, eventHostAudioUpdate := 2 }
    { eventAudioUpdate := 3, eventHostAudioUpdate := 4 } exTwoTicks exBoot
  ⟨h.2.2.2.2.1, (h.2.2.2.2.2 (by decide) (by decide) (fun _ => 5) 64).1⟩

/-- C20. Save-state incompatibility. On a load by `__AudioDoState` of a stream whose
recorded ring-buffer capacity is not `MIXBUFFER_QUEUE`, the contents of `mixBufferQueue` and
the values of `mixBufferHead`, `mixBufferTail` and `mixBufferCount` are exactly what they
were before the load; and on a load of a stream whose recorded channel count is not the
number of channels, no channel is modified. -/
theorem audioDoState_incompatible
    (chanDoState : PointerWrap → AudioChannel → PointerWrap × AudioChannel)
    (cyclesPerSecond : Int) (ev : EventIds) (st : AudioState) (e1 e2 freq : Int)
    (items : List Item) :
    (∀ size : Int, size ≠ MIXBUFFER_QUEUE →
      (__AudioDoState chanDoState cyclesPerSecond
        (PointerWrap.mk Mode.MODE_READ
          (Item.header Label.sceAudio 1 :: Item.word e1 :: Item.word e2 :: Item.word freq ::
            Item.word size :: items) false) ev st).state.mixBufferQueue = st.mixBufferQueue ∧
      (__AudioDoState chanDoState cyclesPerSecond
        (PointerWrap.mk Mode.MODE_READ
          (Item.header Label.sceAudio 1 :: Item.word e1 :: Item.word e2 :: Item.word freq ::
            Item.word size :: items) false) ev st).state.mixBufferHead = st.mixBufferHead ∧
      (__AudioDoState chanDoState cyclesPerSecond
        (PointerWrap.mk Mode.MODE_READ
          (Item.header Label.sceAudio 1 :: Item.word e1 :: Item.word e2 :: Item.word freq ::
            Item.word size :: items) false) ev st).state.mixBufferTail = st.mixBufferTail ∧
      (__AudioDoState chanDoState cyclesPerSecond
        (PointerWrap.mk Mode.MODE_READ
          (Item.header Label.sceAudio 1 :: Item.word e1 :: Item.word e2 :: Item.word freq ::
            Item.word size :: items) false) ev st).state.mixBufferCount = st.mixBufferCount) ∧
    (∀ (vs : List Int) (head tail count n : Int), vs.length = MIXBUFFER_QUEUE.toNat →
      n ≠ (st.chans.length : Int) →
      (__AudioDoState chanDoState cyclesPerSecond
        (PointerWrap.mk Mode.MODE_READ
          (Item.header Label.sceAudio 1 :: Item.word e1 :: Item.word e2 :: Item.word freq ::
            Item.word MIXBUFFER_QUEUE :: Item.array vs :: Item.word head :: Item.word tail ::
            Item.word count :: Item.marker Label.FixedSizeQueueLR :: Item.word n :: items)
          false) ev st).state.chans = st.chans) := by
  constructor
  · intro size hsize
    have hs : ((PointerWrap.mk Mode.MODE_READ
        (Item.header Label.sceAudio 1 :: Item.word e1 :: Item.word e2 :: Item.word freq ::
          Item.word size :: items) false).Section Label.sceAudio 1).2 = true := by
      simp [PointerWrap.Section]
    have hq := audioDoState_ring_of_queue chanDoState cyclesPerSecond _ ev st hs _ rfl
    have hf : (queue_DoState
        (((((PointerWrap.mk Mode.MODE_READ
          (Item.header Label.sceAudio 1 :: Item.word e1 :: Item.word e2 :: Item.word freq ::
            Item.word size :: items) false).Section Label.sceAudio 1).1.Do
              ev.eventAudioUpdate).1.Do ev.eventHostAudioUpdate).1.Do st.mixFrequency).1
        { st with mixFrequency :=
          (((((PointerWrap.mk Mode.MODE_READ
            (Item.header Label.sceAudio 1 :: Item.word e1 :: Item.word e2 :: Item.word freq ::
              Item.word size :: items) false).Section Label.sceAudio 1).1.Do
                ev.eventAudioUpdate).1.Do ev.eventHostAudioUpdate).1.Do st.mixFrequency).2 }).2 =
        { st with mixFrequency := freq } := by
      have := queue_DoState_mismatch { st with mixFrequency := freq } size items false hsize
      simpa [PointerWrap.Section, PointerWrap.Do] using this
    rw [hf] at hq
    exact ⟨hq.2.1, hq.2.2.1, hq.2.2.2.1, hq.2.2.2.2⟩
  · intro vs head tail count n hvs hn
    unfold __AudioDoState
    simp only [PointerWrap.Section, PointerWrap.Do, le_refl, and_self, if_true,
      Bool.true_eq_false, if_false]
    rw [queue_DoState_read _ head tail count vs (Item.word n :: items) false hvs]
    simp only [ne_eq, hn, not_false_eq_true, if_true]

/-- Witness of C20: a stream recorded with a ring buffer of capacity 4096, loaded on the
module after two ticks. -/
theorem audioDoState_incompatible_witness :
    (__AudioDoState AudioChannel.DoState 222000000
      (PointerWrap.mk Mode.MODE_READ
        (Item.header Label.sceAudio 1 :: Item.word 1 :: Item.word 2 :: Item.word 44100 ::
          Item.word 4096 :: []) false)
      { eventAudioUpdate := 3, eventHostAudioUpdate := 4 } exTwoTicks).state.mixBufferCount =
      exTwoTicks.mixBufferCount :=
  ((audioDoState_incompatible AudioChannel.DoState 222000000
      { eventAudioUpdate := 3, eventHostAudioUpdate := 4 } exTwoTicks 1 2 44100 []).1 4096
      (by decide)).2.2.2

/-! ## The wake/drain protocol -/

/-- Searching a list from which only elements that do not match were removed. -/
theorem find?_filter_of_imp {α : Type} (p q : α → Bool) (l : List α)
    (h : ∀ x, p x = true → q x = true) : (l.filter q).find? p = l.find? p := by
  induction l with
  | nil => rfl
  | cons a t ih =>
    by_cases hq : q a = true
    · rw [List.filter_cons_of_pos hq, List.find?_cons, List.find?_cons, ih]
    · have hp : p a = false := by
        cases hpa : p a with
        | false => rfl
        | true => exact absurd (h a hpa) hq
      rw [List.filter_cons_of_neg hq, List.find?_cons, hp, ih]

/-- Searching for a thread among the waits from which all its waits were removed. -/
theorem find?_filter_self (l : List ThreadWait) (t : Int) :
    (l.filter (fun w => !decide (w.threadID = t))).find? (fun w => decide (w.threadID = t)) =
      none := by
  rw [List.find?_eq_none]
  intro x hx
  have := (List.mem_filter.mp hx).2
  simpa using this

/-- The wait key of a thread after another thread, or the thread itself, was resumed. -/
theorem getWaitID_resume (k : Kernel) (t u : Int) (v : Nat) (type : Nat) :
    __KernelGetWaitID (__KernelResumeThreadFromWait k u v) t type =
      if t = u then 0 else __KernelGetWaitID k t type := by
  unfold __KernelGetWaitID __KernelResumeThreadFromWait
  by_cases h : t = u
  · subst h
    rw [if_pos rfl]
    simp only
    rw [find?_filter_self]
  · rw [if_neg h]
    simp only
    rw [find?_filter_of_imp]
    intro x hx
    have : x.threadID = t := by simpa using hx
    simp [this, h]

/-- The wait value of a thread after another thread was resumed. -/
theorem getWaitValue_resume (k : Kernel) (t u : Int) (v : Nat) (h : t ≠ u) :
    __KernelGetWaitValue (__KernelResumeThreadFromWait k u v) t = __KernelGetWaitValue k t := by
  unfold __KernelGetWaitValue __KernelResumeThreadFromWait
  simp only
  rw [find?_filter_of_imp]
  intro x hx
  have : x.threadID = t := by simpa using hx
  simp [this, h]

/-- The walk at an entry that is done and still parked: the thread is resumed and the entry
dropped. -/
theorem wakeLoop_cons_resolve (c : Consts) (result step : Int) (w : AudioChannelWaitInfo)
    (ws : List AudioChannelWaitInfo) (k : Kernel) (woke : Bool)
    (h : wrapS32 (w.numSamples - step) ≤ 0 ∧
      __KernelGetWaitID k w.threadID c.WAITTYPE_AUDIOCHANNEL ≠ 0) :
    wakeLoop c result step (w :: ws) k woke =
      wakeLoop c result step ws
        (__KernelResumeThreadFromWait k w.threadID
          (if result = 0 then __KernelGetWaitValue k w.threadID
           else c.SCE_ERROR_AUDIO_CHANNEL_NOT_RESERVED)) true := by
  rw [wakeLoop]
  simp only
  rw [if_pos h]

/-- The walk at an entry whose thread is not parked any more: the entry is dropped. -/
theorem wakeLoop_cons_drop (c : Consts) (result step : Int) (w : AudioChannelWaitInfo)
    (ws : List AudioChannelWaitInfo) (k : Kernel) (woke : Bool)
    (h : __KernelGetWaitID k w.threadID c.WAITTYPE_AUDIOCHANNEL = 0) :
    wakeLoop c result step (w :: ws) k woke = wakeLoop c result step ws k woke := by
  rw [wakeLoop]
  simp only
  rw [if_neg (fun hc => hc.2 h), if_pos h]

/-- The walk at an entry that is not done and whose thread is parked: the entry stays, with
its counter decremented. -/
theorem wakeLoop_cons_keep (c : Consts) (result step : Int) (w : AudioChannelWaitInfo)
    (ws : List AudioChannelWaitInfo) (k : Kernel) (woke : Bool)
    (h1 : ¬ wrapS32 (w.numSamples - step) ≤ 0)
    (h2 : __KernelGetWaitID k w.threadID c.WAITTYPE_AUDIOCHANNEL ≠ 0) :
    wakeLoop c result step (w :: ws) k woke =
      ({ w with numSamples := wrapS32 (w.numSamples - step) } ::
          (wakeLoop c result step ws k woke).1,
        (wakeLoop c result step ws k woke).2.1, (wakeLoop c result step ws k woke).2.2) := by
  rw [wakeLoop]
  simp only
  rw [if_neg (fun hc => h1 hc.1), if_neg h2]

/-- The walk over a wait list without an entry of thread `t` leaves `t` alone: no entry of
`t` appears, its wait and its stashed value stay, and it is not resumed. -/
theorem wakeLoop_other (c : Consts) (result step : Int) (t : Int)
    (ws : List AudioChannelWaitInfo) :
    ∀ (k : Kernel) (woke : Bool), (∀ e, e ∈ ws → e.threadID ≠ t) →
      (wakeLoop c result step ws k woke).1.filter (fun e => decide (e.threadID = t)) = [] ∧
      __KernelGetWaitID (wakeLoop c result step ws k woke).2.1 t c.WAITTYPE_AUDIOCHANNEL =
        __KernelGetWaitID k t c.WAITTYPE_AUDIOCHANNEL ∧
      __KernelGetWaitValue (wakeLoop c result step ws k woke).2.1 t =
        __KernelGetWaitValue k t ∧
      (wakeLoop c result step ws k woke).2.1.resumed.filter (fun p => decide (p.1 = t)) =
        k.resumed.filter (fun p => decide (p.1 = t)) := by
  induction ws with
  | nil =>
    intro k woke _
    exact ⟨rfl, rfl, rfl, rfl⟩
  | cons e es ih =>
    intro k woke hne
    have het : e.threadID ≠ t := hne e (List.mem_cons_self _ _)
    have hes : ∀ x, x ∈ es → x.threadID ≠ t := fun x hx => hne x (List.mem_cons_of_mem _ hx)
    by_cases h1 : wrapS32 (e.numSamples - step) ≤ 0 ∧
        __KernelGetWaitID k e.threadID c.WAITTYPE_AUDIOCHANNEL ≠ 0
    · rw [wakeLoop_cons_resolve c result step e es k woke h1]
      have h := ih (__KernelResumeThreadFromWait k e.threadID
        (if result = 0 then __KernelGetWaitValue k e.threadID
          else c.SCE_ERROR_AUDIO_CHANNEL_NOT_RESERVED)) true hes
      obtain ⟨a1, a2, a3, a4⟩ := h
      refine ⟨a1, ?_, ?_, ?_⟩
      · rw [a2, getWaitID_resume, if_neg (Ne.symm het)]
      · rw [a3, getWaitValue_resume _ _ _ _ (Ne.symm het)]
      · rw [a4]
        unfold __KernelResumeThreadFromWait
        simp only
        rw [List.filter_append]
        simp [het]
    · by_cases h2 : __KernelGetWaitID k e.threadID c.WAITTYPE_AUDIOCHANNEL = 0
      · rw [wakeLoop_cons_drop c result step e es k woke h2]
        exact ih k woke hes
      · rw [wakeLoop_cons_keep c result step e es k woke (fun hc => h1 ⟨hc, h2⟩) h2]
        have h := ih k woke hes
        obtain ⟨a1, a2, a3, a4⟩ := h
        refine ⟨?_, a2, a3, a4⟩
        show List.filter _ (_ :: _) = []
        rw [List.filter_cons_of_neg (by simpa using het)]
        exact a1

/-- The walk over a wait list that holds exactly one entry `w` of a thread that is parked
on an audio-channel wait: when the decremented counter is at most 0 the thread is resumed
and its entry removed, otherwise the entry stays with the decremented counter, the thread
stays parked and is not resumed. -/
theorem wakeLoop_entry (c : Consts) (result step : Int) (w : AudioChannelWaitInfo)
    (ws : List AudioChannelWaitInfo) :
    ∀ (k : Kernel) (woke : Bool),
      ws.filter (fun e => decide (e.threadID = w.threadID)) = [w] →
      __KernelGetWaitID k w.threadID c.WAITTYPE_AUDIOCHANNEL ≠ 0 →
      (wrapS32 (w.numSamples - step) ≤ 0 →
        (wakeLoop c result step ws k woke).1.filter
            (fun e => decide (e.threadID = w.threadID)) = [] ∧
        (wakeLoop c result step ws k woke).2.1.resumed.filter
            (fun p => decide (p.1 = w.threadID)) =
          k.resumed.filter (fun p => decide (p.1 = w.threadID)) ++
            [(w.threadID, if result = 0 then __KernelGetWaitValue k w.threadID
                          else c.SCE_ERROR_AUDIO_CHANNEL_NOT_RESERVED)]) ∧
      (¬ wrapS32 (w.numSamples - step) ≤ 0 →
        (wakeLoop c result step ws k woke).1.filter
            (fun e => decide (e.threadID = w.threadID)) =
          [{ w with numSamples := wrapS32 (w.numSamples - step) }] ∧
        (wakeLoop c result step ws k woke).2.1.resumed.filter
            (fun p => decide (p.1 = w.threadID)) =
          k.resumed.filter (fun p => decide (p.1 = w.threadID)) ∧
        __KernelGetWaitID (wakeLoop c result step ws k woke).2.1 w.threadID
            c.WAITTYPE_AUDIOCHANNEL =
          __KernelGetWaitID k w.threadID c.WAITTYPE_AUDIOCHANNEL ∧
        __KernelGetWaitValue (wakeLoop c result step ws k woke).2.1 w.threadID =
          __KernelGetWaitValue k w.threadID) := by
  induction ws with
  | nil =>
    intro k woke hf _
    simp at hf
  | cons e es ih =>
    intro k woke hf hpark
    by_cases het : e.threadID = w.threadID
    · -- the entry at hand is `w`
      rw [List.filter_cons_of_pos (by simpa using het)] at hf
      have hew : e = w := (List.cons.inj hf).1
      have hnil : es.filter (fun x => decide (x.threadID = w.threadID)) = [] :=
        (List.cons.inj hf).2
      have hes : ∀ x, x ∈ es → x.threadID ≠ w.threadID := by
        intro x hx hc
        have := List.filter_eq_nil_iff.mp hnil x hx
        simp [hc] at this
      subst hew
      constructor
      · intro hdone
        rw [wakeLoop_cons_resolve c result step e es k woke ⟨hdone, hpark⟩]
        have h := wakeLoop_other c result step e.threadID es
          (__KernelResumeThreadFromWait k e.threadID
            (if result = 0 then __KernelGetWaitValue k e.threadID
              else c.SCE_ERROR_AUDIO_CHANNEL_NOT_RESERVED)) true hes
        refine ⟨h.1, ?_⟩
        rw [h.2.2.2]
        unfold __KernelResumeThreadFromWait
        simp only
        rw [List.filter_append]
        simp
      · intro hnot
        rw [wakeLoop_cons_keep c result step e es k woke hnot hpark]
        have h := wakeLoop_other c result step e.threadID es k woke hes
        refine ⟨?_, h.2.2.2, h.2.1, h.2.2.1⟩
        show List.filter _ (_ :: _) = _
        rw [List.filter_cons_of_pos (by simp), h.1]
    · -- an entry of another thread
      rw [List.filter_cons_of_neg (by simpa using het)] at hf
      by_cases h1 : wrapS32 (e.numSamples - step) ≤ 0 ∧
          __KernelGetWaitID k e.threadID c.WAITTYPE_AUDIOCHANNEL ≠ 0
      · rw [wakeLoop_cons_resolve c result step e es k woke h1]
        have hid := getWaitID_resume k w.threadID e.threadID
          (if result = 0 then __KernelGetWaitValue k e.threadID
            else c.SCE_ERROR_AUDIO_CHANNEL_NOT_RESERVED) c.WAITTYPE_AUDIOCHANNEL
        rw [if_neg (Ne.symm het)] at hid
        have hval := getWaitValue_resume k w.threadID e.threadID
          (if result = 0 then __KernelGetWaitValue k e.threadID
            else c.SCE_ERROR_AUDIO_CHANNEL_NOT_RESERVED) (Ne.symm het)
        have hres : (__KernelResumeThreadFromWait k e.threadID
            (if result = 0 then __KernelGetWaitValue k e.threadID
              else c.SCE_ERROR_AUDIO_CHANNEL_NOT_RESERVED)).resumed.filter
              (fun p => decide (p.1 = w.threadID)) =
            k.resumed.filter (fun p => decide (p.1 = w.threadID)) := by
          unfold __KernelResumeThreadFromWait
          simp only
          rw [List.filter_append]
          simp [het]
        have h := ih (__KernelResumeThreadFromWait k e.threadID
          (if result = 0 then __KernelGetWaitValue k e.threadID
            else c.SCE_ERROR_AUDIO_CHANNEL_NOT_RESERVED)) true hf (by rw [hid]; exact hpark)
        rw [hid, hval, hres] at h
        exact h
      · by_cases h2 : __KernelGetWaitID k e.threadID c.WAITTYPE_AUDIOCHANNEL = 0
        · rw [wakeLoop_cons_drop c result step e es k woke h2]
          exact ih k woke hf hpark
        · rw [wakeLoop_cons_keep c result step e es k woke (fun hc => h1 ⟨hc, h2⟩) h2]
          have h := ih k woke hf hpark
          have hskip : ∀ l : List AudioChannelWaitInfo,
              List.filter (fun x => decide (x.threadID = w.threadID))
                ({ e with numSamples := wrapS32 (e.numSamples - step) } :: l) =
              List.filter (fun x => decide (x.threadID = w.threadID)) l := by
            intro l
            rw [List.filter_cons_of_neg (by simpa using het)]
          constructor
          · intro hdone
            refine ⟨?_, (h.1 hdone).2⟩
            show List.filter _ (_ :: _) = _
            rw [hskip]
            exact (h.1 hdone).1
          · intro hnot
            refine ⟨?_, (h.2 hnot).2⟩
            show List.filter _ (_ :: _) = _
            rw [hskip]
            exact (h.2 hnot).1

/-- What `__AudioWakeThreads` returns, in terms of the walk over the wait list: the
reschedule request touches neither the waits nor the log of resumptions. -/
theorem wakeThreads_proj (c : Consts) (chan : AudioChannel) (result step : Int) (k : Kernel) :
    (__AudioWakeThreads c chan result step k).1.waitingThreads =
      (wakeLoop c result step chan.waitingThreads k false).1 ∧
    (__AudioWakeThreads c chan result step k).2.resumed =
      (wakeLoop c result step chan.waitingThreads k false).2.1.resumed ∧
    (∀ t type, __KernelGetWaitID (__AudioWakeThreads c chan result step k).2 t type =
      __KernelGetWaitID (wakeLoop c result step chan.waitingThreads k false).2.1 t type) ∧
    (∀ t, __KernelGetWaitValue (__AudioWakeThreads c chan result step k).2 t =
      __KernelGetWaitValue (wakeLoop c result step chan.waitingThreads k false).2.1 t) ∧
    (__AudioWakeThreads c chan result step k).2.reschedules =
      (wakeLoop c result step chan.waitingThreads k false).2.1.reschedules +
        (if (wakeLoop c result step chan.waitingThreads k false).2.2 = true then 1 else 0) := by
  by_cases h : (wakeLoop c result step chan.waitingThreads k false).2.2 = true
  · simp [__AudioWakeThreads, h, __KernelReSchedule, __KernelGetWaitID, __KernelGetWaitValue]
  · simp [__AudioWakeThreads, h, __KernelGetWaitID, __KernelGetWaitValue]

/-- The state of one wait entry under repeated drains: before the cumulative step reaches
the counter the entry is there with its counter decremented, its thread parked and not
resumed; from the first call on at which the cumulative step reaches the counter the entry
is gone and the thread was resumed once, with its stashed value. -/
theorem drainCalls_entry (c : Consts) (step : Int) (chan : AudioChannel) (k : Kernel)
    (w : AudioChannelWaitInfo)
    (hentry : chan.waitingThreads.filter (fun e => decide (e.threadID = w.threadID)) = [w])
    (hR : 0 ≤ w.numSamples ∧ w.numSamples < 2147483648)
    (hstep : 0 < step ∧ step < 2147483648)
    (hpark : __KernelGetWaitID k w.threadID c.WAITTYPE_AUDIOCHANNEL ≠ 0) (n : Nat) :
    ((n = 0 ∨ (n : Int) * step < w.numSamples) →
      (drainCalls c step n (chan, k)).1.waitingThreads.filter
          (fun e => decide (e.threadID = w.threadID)) =
        [{ w with numSamples := w.numSamples - (n : Int) * step }] ∧
      (drainCalls c step n (chan, k)).2.resumed.filter (fun p => decide (p.1 = w.threadID)) =
        k.resumed.filter (fun p => decide (p.1 = w.threadID)) ∧
      __KernelGetWaitID (drainCalls c step n (chan, k)).2 w.threadID c.WAITTYPE_AUDIOCHANNEL =
        __KernelGetWaitID k w.threadID c.WAITTYPE_AUDIOCHANNEL ∧
      __KernelGetWaitValue (drainCalls c step n (chan, k)).2 w.threadID =
        __KernelGetWaitValue k w.threadID) ∧
    (1 ≤ n → w.numSamples ≤ (n : Int) * step →
      (drainCalls c step n (chan, k)).1.waitingThreads.filter
          (fun e => decide (e.threadID = w.threadID)) = [] ∧
      (drainCalls c step n (chan, k)).2.resumed.filter (fun p => decide (p.1 = w.threadID)) =
        k.resumed.filter (fun p => decide (p.1 = w.threadID)) ++
          [(w.threadID, __KernelGetWaitValue k w.threadID)]) := by
  induction n with
  | zero =>
    constructor
    · intro _
      refine ⟨?_, rfl, rfl, rfl⟩
      show chan.waitingThreads.filter _ = _
      rw [hentry]
      simp
    · intro h
      omega
  | succ n ih =>
    obtain ⟨ihA, ihB⟩ := ih
    have hcast : ((n + 1 : Nat) : Int) * step = (n : Int) * step + step := by
      push_cast; ring
    have hnn : 0 ≤ (n : Int) * step := by
      have : (0 : Int) ≤ (n : Int) := Int.natCast_nonneg n
      nlinarith [hstep.1]
    obtain ⟨prev, hprev⟩ : ∃ s, s = drainCalls c step n (chan, k) := ⟨_, rfl⟩
    have hstepdef : drainCalls c step (n + 1) (chan, k) =
        __AudioWakeThreads c prev.1 0 step prev.2 := by rw [hprev]; rfl
    rw [← hprev] at ihA ihB
    have hp := wakeThreads_proj c prev.1 0 step prev.2
    obtain ⟨hp1, hp2, hp3, hp4, _⟩ := hp
    rw [hstepdef, hp1, hp2, hp3, hp4, hcast]
    by_cases hres : n = 0 ∨ (n : Int) * step < w.numSamples
    · -- the entry is still there before this call
      obtain ⟨a1, a2, a3, a4⟩ := ihA hres
      have hwl := wakeLoop_entry c 0 step
        { w with numSamples := w.numSamples - (n : Int) * step } prev.1.waitingThreads prev.2 false
        a1 (by rw [a3]; exact hpark)
      have hpos : 0 ≤ w.numSamples - (n : Int) * step := by
        rcases hres with h | h
        · rw [h]; simp; exact hR.1
        · omega
      have hrange : wrapS32 (w.numSamples - (n : Int) * step - step) =
          w.numSamples - (n : Int) * step - step := by
        apply wrapS32_of_range <;> omega
      dsimp only at hwl
      simp only [hrange] at hwl
      obtain ⟨hdone, hkeep⟩ := hwl
      constructor
      · intro hlt
        have hlt2 : (n : Int) * step + step < w.numSamples := by
          rcases hlt with h | h
          · omega
          · exact h
        obtain ⟨b1, b2, b3, b4⟩ := hkeep (by omega)
        refine ⟨?_, by rw [b2, a2], by rw [b3, a3], by rw [b4, a4]⟩
        rw [b1]
        congr 2
        ring
      · intro _ hge
        obtain ⟨b1, b2⟩ := hdone (by omega)
        refine ⟨b1, ?_⟩
        rw [b2, a2, a4]
        simp
    · -- the entry was resolved by an earlier call
      have hn1 : 1 ≤ n := by omega
      have hge : w.numSamples ≤ (n : Int) * step := by omega
      obtain ⟨a1, a2⟩ := ihB hn1 hge
      have hes : ∀ e, e ∈ prev.1.waitingThreads → e.threadID ≠ w.threadID := by
        intro e he hc
        have := List.filter_eq_nil_iff.mp a1 e he
        simp [hc] at this
      have ho := wakeLoop_other c 0 step w.threadID prev.1.waitingThreads prev.2 false hes
      constructor
      · intro hlt
        exfalso
        rcases hlt with h | h
        · omega
        · omega
      · intro _ _
        exact ⟨ho.1, by rw [ho.2.2.2, a2]⟩

/-- C13, counterexample. The wait list of a channel holds two entries of thread 42, with the
counters 10 and 100, and thread 42 is parked on the audio-channel wait. For the entry with
`R = 100` and `step = 64` the first call with `k * step ≥ R` is the second one. But the
first call resolves the entry with counter 10, which resumes thread 42, then finds the
thread of the entry with counter 100 no longer parked and removes that entry too: after one
call the wait list is empty and thread 42 has been resumed. -/
theorem drain_removes_duplicate_entry_early :
    exWaitingTwice.waitingThreads =
      [{ threadID := 42, numSamples := 10 }, { threadID := 42, numSamples := 100 }] ∧
    __KernelGetWaitID (exParked 1) 42 exConsts.WAITTYPE_AUDIOCHANNEL ≠ 0 ∧
    (1 : Int) * 64 < 100 ∧ (100 : Int) ≤ 2 * 64 ∧
    (drainCalls exConsts 64 1 (exWaitingTwice, exParked 1)).1.waitingThreads = [] ∧
    (drainCalls exConsts 64 1 (exWaitingTwice, exParked 1)).2.resumed = [(42, 77)] := by
  decide

/-- C13, amended. Drain wakes exactly at threshold. For a wait entry with counter `R ≥ 0`,
the only entry of its thread in the wait list, whose thread is parked on the audio-channel
wait, and a step `> 0`: after `n` calls `__AudioWakeThreads(chan, 0, step)` in a row, as long as
`n = 0` or `n * step < R` the entry is still in the list (counter `R - n * step`) and its
thread was not resumed; and once `n ≥ 1` and `n * step ≥ R` the entry is gone and the thread
was resumed once, with its stashed value. So the entry is resolved during the first call
`k ≥ 1` with `k * step ≥ R` and by no earlier call. -/
theorem drain_wakes_at_threshold (c : Consts) (step : Int) (chan : AudioChannel) (k : Kernel)
    (w : AudioChannelWaitInfo)
    (hentry : chan.waitingThreads.filter (fun e => decide (e.threadID = w.threadID)) = [w])
    (hR : 0 ≤ w.numSamples ∧ w.numSamples < 2147483648)
    (hstep : 0 < step ∧ step < 2147483648)
    (hpark : __KernelGetWaitID k w.threadID c.WAITTYPE_AUDIOCHANNEL ≠ 0) (n : Nat) :
    ((n = 0 ∨ (n : Int) * step < w.numSamples) →
      (drainCalls c step n (chan, k)).1.waitingThreads.filter
          (fun e => decide (e.threadID = w.threadID)) =
        [{ w with numSamples := w.numSamples - (n : Int) * step }] ∧
      (drainCalls c step n (chan, k)).2.resumed.filter (fun p => decide (p.1 = w.threadID)) =
        k.resumed.filter (fun p => decide (p.1 = w.threadID))) ∧
    (1 ≤ n → w.numSamples ≤ (n : Int) * step →
      (drainCalls c step n (chan, k)).1.waitingThreads.filter
          (fun e => decide (e.threadID = w.threadID)) = [] ∧
      (drainCalls c step n (chan, k)).2.resumed.filter (fun p => decide (p.1 = w.threadID)) =
        k.resumed.filter (fun p => decide (p.1 = w.threadID)) ++
          [(w.threadID, __KernelGetWaitValue k w.threadID)]) :=
  have h := drainCalls_entry c step chan k w hentry hR hstep hpark n
  ⟨fun hn => ⟨(h.1 hn).1, (h.1 hn).2.1⟩, h.2⟩

/-- Witness of C13 (amended): a counter of 100 and steps of 64: the entry is there after one call and
resolved by the second. -/
theorem drain_wakes_at_threshold_witness :
    (drainCalls exConsts 64 1 (exWaiting 100, exParked 1)).1.waitingThreads.filter
        (fun e => decide (e.threadID = 42)) = [{ threadID := 42, numSamples := 100 - 1 * 64 }] ∧
    (drainCalls exConsts 64 2 (exWaiting 100, exParked 1)).2.resumed.filter
        (fun p => decide (p.1 = 42)) = [] ++ [(42, 77)] :=
  ⟨((drain_wakes_at_threshold exConsts 64 (exWaiting 100) (exParked 1)
      { threadID := 42, numSamples := 100 } (by decide) (by decide) (by decide) (by decide)
      1).1 (Or.inr (by decide))).1,
   ((drain_wakes_at_threshold exConsts 64 (exWaiting 100) (exParked 1)
      { threadID := 42, numSamples := 100 } (by decide) (by decide) (by decide) (by decide)
      2).2 (by decide) (by decide)).2⟩

/-- The threads a walk over a wait list resumes: each was parked on an audio-channel wait
(a non-zero wait key) when the walk began and has an entry whose decremented counter is at
most 0. -/
theorem wakeLoop_resumed (c : Consts) (result step : Int) (ws : List AudioChannelWaitInfo) :
    ∀ (k : Kernel) (woke : Bool),
      ∃ woken : List (Int × Nat),
        (wakeLoop c result step ws k woke).2.1.resumed = k.resumed ++ woken ∧
        ∀ p, p ∈ woken →
          __KernelGetWaitID k p.1 c.WAITTYPE_AUDIOCHANNEL ≠ 0 ∧
          ∃ e, e ∈ ws ∧ e.threadID = p.1 ∧ wrapS32 (e.numSamples - step) ≤ 0 := by
  induction ws with
  | nil =>
    intro k woke
    exact ⟨[], by simp [wakeLoop], fun p hp => by simp at hp⟩
  | cons e es ih =>
    intro k woke
    by_cases h1 : wrapS32 (e.numSamples - step) ≤ 0 ∧
        __KernelGetWaitID k e.threadID c.WAITTYPE_AUDIOCHANNEL ≠ 0
    · rw [wakeLoop_cons_resolve c result step e es k woke h1]
      obtain ⟨woken, hw1, hw2⟩ := ih (__KernelResumeThreadFromWait k e.threadID
        (if result = 0 then __KernelGetWaitValue k e.threadID
          else c.SCE_ERROR_AUDIO_CHANNEL_NOT_RESERVED)) true
      refine ⟨(e.threadID, if result = 0 then __KernelGetWaitValue k e.threadID
          else c.SCE_ERROR_AUDIO_CHANNEL_NOT_RESERVED) :: woken, ?_, ?_⟩
      · rw [hw1]
        simp [__KernelResumeThreadFromWait]
      · intro p hp
        rcases List.mem_cons.mp hp with hp | hp
        · rw [hp]
          exact ⟨h1.2, e, List.mem_cons_self _ _, rfl, h1.1⟩
        · obtain ⟨a, x, hx1, hx2, hx3⟩ := hw2 p hp
          rw [getWaitID_resume] at a
          refine ⟨?_, x, List.mem_cons_of_mem _ hx1, hx2, hx3⟩
          by_cases hpe : p.1 = e.threadID
          · rw [if_pos hpe] at a
            exact absurd rfl a
          · rw [if_neg hpe] at a
            exact a
    · by_cases h2 : __KernelGetWaitID k e.threadID c.WAITTYPE_AUDIOCHANNEL = 0
      · rw [wakeLoop_cons_drop c result step e es k woke h2]
        obtain ⟨woken, hw1, hw2⟩ := ih k woke
        refine ⟨woken, hw1, ?_⟩
        intro p hp
        obtain ⟨a, x, hx1, hx2, hx3⟩ := hw2 p hp
        exact ⟨a, x, List.mem_cons_of_mem _ hx1, hx2, hx3⟩
      · rw [wakeLoop_cons_keep c result step e es k woke (fun hc => h1 ⟨hc, h2⟩) h2]
        obtain ⟨woken, hw1, hw2⟩ := ih k woke
        refine ⟨woken, hw1, ?_⟩
        intro p hp
        obtain ⟨a, x, hx1, hx2, hx3⟩ := hw2 p hp
        exact ⟨a, x, List.mem_cons_of_mem _ hx1, hx2, hx3⟩

/-- C18, counterexample. Channel 0 (wait key `0 + 1 = 1`) still lists thread 42 with a
counter of 0, while thread 42 is parked on the audio-channel wait of another channel (wait
key 5): the drain of channel 0 resumes thread 42, with its stashed value 77. -/
theorem wakeThreads_resumes_foreign_wait :
    (exWaiting 0).waitingThreads = [{ threadID := 42, numSamples := 0 }] ∧
    __KernelGetWaitID (exParked 5) 42 exConsts.WAITTYPE_AUDIOCHANNEL = 5 ∧
    (5 : Int) ≠ 0 + 1 ∧
    (__AudioWakeThreads exConsts (exWaiting 0) 0 64 (exParked 5)).2.resumed = [(42, 77)] := by
  decide

/-- C18, amended. `__AudioWakeThreads` on a channel resumes a thread only if the thread has
an entry in the channel's wait list whose decremented counter is at most 0 and the
scheduler's wait-identity query shows the thread parked on an audio-channel wait, that is
with a wait key other than 0; the key is not compared with the channel's own `c + 1`. -/
theorem wakeThreads_resumes_only_parked (c : Consts) (chan : AudioChannel) (result step : Int)
    (k : Kernel) :
    ∃ woken : List (Int × Nat),
      (__AudioWakeThreads c chan result step k).2.resumed = k.resumed ++ woken ∧
      ∀ p, p ∈ woken →
        __KernelGetWaitID k p.1 c.WAITTYPE_AUDIOCHANNEL ≠ 0 ∧
        ∃ e, e ∈ chan.waitingThreads ∧ e.threadID = p.1 ∧
          wrapS32 (e.numSamples - step) ≤ 0 := by
  obtain ⟨woken, h1, h2⟩ := wakeLoop_resumed c result step chan.waitingThreads k false
  exact ⟨woken, by rw [(wakeThreads_proj c chan result step k).2.1, h1], h2⟩

/-- The force-wake walk over a wait list whose counters are not negative: the list is
emptied; the threads that have an entry and are parked are resumed once each, in the order
of their first entries; and `wokeThreads` is set as soon as one thread is resumed. -/
theorem wakeLoop_force (c : Consts) (result : Int) (ws : List AudioChannelWaitInfo) :
    ∀ (k : Kernel) (woke : Bool),
      (∀ e, e ∈ ws → 0 ≤ e.numSamples ∧ e.numSamples ≤ 2147483647) →
      (wakeLoop c result 2147483647 ws k woke).1 = [] ∧
      (wakeLoop c result 2147483647 ws k woke).2.1.resumed = k.resumed ++
        ((firstOccurrences (ws.map (fun e => e.threadID))).filter
            (fun t => decide (__KernelGetWaitID k t c.WAITTYPE_AUDIOCHANNEL ≠ 0))).map
          (fun t => (t, if result = 0 then __KernelGetWaitValue k t
                        else c.SCE_ERROR_AUDIO_CHANNEL_NOT_RESERVED)) ∧
      (wakeLoop c result 2147483647 ws k woke).2.1.reschedules = k.reschedules ∧
      (wakeLoop c result 2147483647 ws k woke).2.2 =
        (woke || decide (((firstOccurrences (ws.map (fun e => e.threadID))).filter
            (fun t => decide (__KernelGetWaitID k t c.WAITTYPE_AUDIOCHANNEL ≠ 0))) ≠ [])) := by
  induction ws with
  | nil =>
    intro k woke _
    simp [wakeLoop, firstOccurrences]
  | cons e es ih =>
    intro k woke hpos
    have he := hpos e (List.mem_cons_self _ _)
    have hes : ∀ x, x ∈ es → 0 ≤ x.numSamples ∧ x.numSamples ≤ 2147483647 :=
      fun x hx => hpos x (List.mem_cons_of_mem _ hx)
    have hdone : wrapS32 (e.numSamples - 2147483647) ≤ 0 := by
      rw [wrapS32_of_range _ (by omega) (by omega)]
      omega
    have hfo : firstOccurrences ((e :: es).map (fun x => x.threadID)) =
        e.threadID :: (firstOccurrences (es.map (fun x => x.threadID))).filter
          (fun u => decide (u ≠ e.threadID)) := rfl
    rw [hfo]
    by_cases hpark : __KernelGetWaitID k e.threadID c.WAITTYPE_AUDIOCHANNEL ≠ 0
    · rw [wakeLoop_cons_resolve c result 2147483647 e es k woke ⟨hdone, hpark⟩]
      obtain ⟨a1, a2, a3, a4⟩ := ih (__KernelResumeThreadFromWait k e.threadID
        (if result = 0 then __KernelGetWaitValue k e.threadID
          else c.SCE_ERROR_AUDIO_CHANNEL_NOT_RESERVED)) true hes
      refine ⟨a1, ?_, ?_, ?_⟩
      · rw [a2, List.filter_cons_of_pos (by simpa using hpark), List.map_cons,
          List.filter_filter]
        have hk : (__KernelResumeThreadFromWait k e.threadID
            (if result = 0 then __KernelGetWaitValue k e.threadID
              else c.SCE_ERROR_AUDIO_CHANNEL_NOT_RESERVED)).resumed =
            k.resumed ++ [(e.threadID, if result = 0 then __KernelGetWaitValue k e.threadID
              else c.SCE_ERROR_AUDIO_CHANNEL_NOT_RESERVED)] := rfl
        rw [hk, List.append_assoc, List.singleton_append]
        congr 2
        have hfilter : ∀ l : List Int,
            l.filter (fun t => decide (__KernelGetWaitID
              (__KernelResumeThreadFromWait k e.threadID
                (if result = 0 then __KernelGetWaitValue k e.threadID
                  else c.SCE_ERROR_AUDIO_CHANNEL_NOT_RESERVED)) t c.WAITTYPE_AUDIOCHANNEL ≠ 0)) =
            l.filter (fun a => decide (__KernelGetWaitID k a c.WAITTYPE_AUDIOCHANNEL ≠ 0) &&
              decide (a ≠ e.threadID)) := by
          intro l
          apply List.filter_congr
          intro t _
          rw [getWaitID_resume]
          by_cases hte : t = e.threadID
          · simp [hte]
          · simp [hte]
        rw [hfilter]
        apply List.map_congr_left
        intro t ht
        have hte : t ≠ e.threadID := by
          have := (List.mem_filter.mp ht).2
          simp at this
          exact this.2
        rw [getWaitValue_resume k t e.threadID _ hte]
      · rw [a3]; rfl
      · rw [a4, List.filter_cons_of_pos (by simpa using hpark)]
        simp
    · have hzero : __KernelGetWaitID k e.threadID c.WAITTYPE_AUDIOCHANNEL = 0 := by
        simpa using hpark
      rw [wakeLoop_cons_drop c result 2147483647 e es k woke hzero]
      obtain ⟨a1, a2, a3, a4⟩ := ih k woke hes
      have hfilter : ((e.threadID :: (firstOccurrences (es.map (fun x => x.threadID))).filter
            (fun u => decide (u ≠ e.threadID))).filter
            (fun t => decide (__KernelGetWaitID k t c.WAITTYPE_AUDIOCHANNEL ≠ 0))) =
          (firstOccurrences (es.map (fun x => x.threadID))).filter
            (fun t => decide (__KernelGetWaitID k t c.WAITTYPE_AUDIOCHANNEL ≠ 0)) := by
        rw [List.filter_cons_of_neg (by simpa using hzero), List.filter_filter]
        apply List.filter_congr
        intro t _
        by_cases hte : t = e.threadID
        · simp [hte, hzero]
        · simp [hte]
      rw [hfilter]
      exact ⟨a1, a2, a3, a4⟩

/-- C19. Force-wake. On a channel whose wait entries all have a counter `≥ 0`, the call
`__AudioWakeThreads(chan, result)` (step `0x7FFFFFFF`) leaves `waitingThreads` empty; the
threads that have an entry and are parked on an audio-channel wait are resumed exactly once
each, in list order, with the stashed wait value when `result == 0` and with
`SCE_ERROR_AUDIO_CHANNEL_NOT_RESERVED` otherwise; nothing else is resumed (entries whose
thread is not parked are removed without a resume); and a reschedule is requested exactly
once when a thread was resumed and not at all otherwise. -/
theorem forceWake_spec (c : Consts) (chan : AudioChannel) (result : Int) (k : Kernel)
    (hpos : ∀ e, e ∈ chan.waitingThreads → 0 ≤ e.numSamples ∧ e.numSamples ≤ 2147483647) :
    (__AudioWakeThreadsAll c chan result k).1.waitingThreads = [] ∧
    (__AudioWakeThreadsAll c chan result k).2.resumed =
      k.resumed ++ forceWoken c chan result k ∧
    (__AudioWakeThreadsAll c chan result k).2.reschedules =
      k.reschedules + (if forceWoken c chan result k = [] then 0 else 1) := by
  obtain ⟨a1, a2, a3, a4⟩ := wakeLoop_force c result chan.waitingThreads k false hpos
  obtain ⟨p1, p2, _, _, p5⟩ := wakeThreads_proj c chan result 2147483647 k
  unfold __AudioWakeThreadsAll
  refine ⟨by rw [p1, a1], by rw [p2, a2]; rfl, ?_⟩
  rw [p5, a3, a4]
  unfold forceWoken
  generalize (firstOccurrences (chan.waitingThreads.map (fun e => e.threadID))).filter
      (fun t => decide (__KernelGetWaitID k t c.WAITTYPE_AUDIOCHANNEL ≠ 0)) = l
  cases l with
  | nil => simp
  | cons t ts => simp

/-- Witness of C19: one entry of the parked thread 42, force-woken with `result == 0`. -/
theorem forceWake_spec_witness :
    (__AudioWakeThreadsAll exConsts (exWaiting 10) 0 (exParked 1)).1.waitingThreads = [] ∧
    (__AudioWakeThreadsAll exConsts (exWaiting 10) 0 (exParked 1)).2.resumed =
      (exParked 1).resumed ++ forceWoken exConsts (exWaiting 10) 0 (exParked 1) ∧
    forceWoken exConsts (exWaiting 10) 0 (exParked 1) = [(42, 77)] :=
  have h := forceWake_spec exConsts (exWaiting 10) 0 (exParked 1) (by decide)
  ⟨h.1, h.2.1, by decide⟩

/-! ## The general stereo path -/

/-- Pointwise reading of the scaling loop over a span: the loop runs in steps of two
samples, so it writes `2 * ((sz + 1) / 2)` slots, the even ones scaled by the left gain and
the odd ones by the right gain. -/
theorem scaleSpan_apply (lv rv : Int) (data : Nat → Int) (buf sz : Nat) (storage : Nat → Int)
    (x : Nat) :
    scaleSpan lv rv data buf sz storage x =
      if buf ≤ x ∧ x < buf + 2 * ((sz + 1) / 2) then
        adjustvolume (data (x - buf)) (if (x - buf) % 2 = 0 then lv else rv)
      else storage x := by
  unfold scaleSpan
  generalize (sz + 1) / 2 = m
  induction m with
  | zero =>
    have c0 : ¬ (buf ≤ x ∧ x < buf + 2 * 0) := by omega
    rw [if_neg c0]
    rfl
  | succ m ih =>
    rw [loop_succ]
    by_cases h1 : x = buf + 2 * m + 1
    · subst h1
      have c1 : buf ≤ buf + 2 * m + 1 ∧ buf + 2 * m + 1 < buf + 2 * (m + 1) := by omega
      have e1 : buf + 2 * m + 1 - buf = 2 * m + 1 := by omega
      have p1 : ¬ ((2 * m + 1) % 2 = 0) := by omega
      rw [Function.update_same, if_pos c1, e1, if_neg p1]
    · rw [Function.update_noteq h1]
      by_cases h2 : x = buf + 2 * m
      · subst h2
        have c1 : buf ≤ buf + 2 * m ∧ buf + 2 * m < buf + 2 * (m + 1) := by omega
        have e1 : buf + 2 * m - buf = 2 * m := by omega
        have p1 : (2 * m) % 2 = 0 := by omega
        rw [Function.update_same, if_pos c1, e1, if_pos p1]
      · rw [Function.update_noteq h2, ih]
        clear ih
        by_cases h3 : buf ≤ x ∧ x < buf + 2 * m
        · have c1 : buf ≤ x ∧ x < buf + 2 * (m + 1) := by omega
          rw [if_pos h3, if_pos c1]
        · have c1 : ¬ (buf ≤ x ∧ x < buf + 2 * (m + 1)) := by omega
          rw [if_neg h3, if_neg c1]

/-- The storage after the general stereo path, case of a single span. -/
theorem enqueueStereo_storage_one (mem : Memory) (lv rv : Int) (chan : AudioChannel)
    (h : chan.sampleQueue.tail + wrapU32 (chan.sampleCount * 2) < chan.sampleQueue.N) :
    (enqueueStereo mem lv rv chan).sampleQueue.storage =
      scaleSpan lv rv (fun i => readS16 mem (chan.sampleAddress + 2 * i))
        chan.sampleQueue.tail (wrapU32 (chan.sampleCount * 2)) chan.sampleQueue.storage := by
  simp only [enqueueStereo, FixedSizeQueue.pushPointers, if_pos h]

/-- The storage after the general stereo path, case of two spans. -/
theorem enqueueStereo_storage_two (mem : Memory) (lv rv : Int) (chan : AudioChannel)
    (h : ¬ chan.sampleQueue.tail + wrapU32 (chan.sampleCount * 2) < chan.sampleQueue.N) :
    (enqueueStereo mem lv rv chan).sampleQueue.storage =
      scaleSpan lv rv
        (fun i => readS16 mem
          (chan.sampleAddress + 2 * (chan.sampleQueue.N - chan.sampleQueue.tail + i)))
        0 (wrapU32 (chan.sampleCount * 2) - (chan.sampleQueue.N - chan.sampleQueue.tail))
        (scaleSpan lv rv (fun i => readS16 mem (chan.sampleAddress + 2 * i))
          chan.sampleQueue.tail (chan.sampleQueue.N - chan.sampleQueue.tail)
          chan.sampleQueue.storage) := by
  simp only [enqueueStereo, FixedSizeQueue.pushPointers, if_neg h]

/-- The general stereo path on a queue with an even capacity and an even write cursor
appends the guest samples, the even ones scaled by the left gain and the odd ones by the
right gain. -/
theorem enqueueStereo_spec (mem : Memory) (lv rv : Int) (chan : AudioChannel)
    (hwf : chan.sampleQueue.WF)
    (hroom : chan.sampleQueue.count + 2 * chan.sampleCount ≤ chan.sampleQueue.N)
    (hN : chan.sampleQueue.N % 2 = 0) (htail : chan.sampleQueue.tail % 2 = 0) :
    (enqueueStereo mem lv rv chan).sampleQueue.toList = chan.sampleQueue.toList ++
      (List.range (2 * chan.sampleCount)).map
        (fun j => adjustvolume (readS16 mem (chan.sampleAddress + 2 * j))
          (if j % 2 = 0 then lv else rv)) := by
  have hwf2 := hwf
  obtain ⟨h0, hb, hh, ht, hc, hm⟩ := hwf
  have hw : wrapU32 (chan.sampleCount * 2) = 2 * chan.sampleCount := by
    rw [wrapU32_of_lt _ (by omega)]; ring
  have hcase := mod_cases (chan.sampleQueue.head + chan.sampleQueue.count) chan.sampleQueue.N
    (by omega)
  have hf := pushPointers_fst chan.sampleQueue (wrapU32 (chan.sampleCount * 2))
  rw [hw] at hf
  have hcnt : (enqueueStereo mem lv rv chan).sampleQueue.count =
      chan.sampleQueue.count + 2 * chan.sampleCount := enqueueStereo_count mem lv rv chan hwf2 hroom
  have hNN : (enqueueStereo mem lv rv chan).sampleQueue.N = chan.sampleQueue.N := by
    have e : (enqueueStereo mem lv rv chan).sampleQueue.N =
      (chan.sampleQueue.pushPointers (wrapU32 (chan.sampleCount * 2))).1.N := rfl
    rw [e, hw, hf.2.1]
  have hhd : (enqueueStereo mem lv rv chan).sampleQueue.head = chan.sampleQueue.head := by
    have e : (enqueueStereo mem lv rv chan).sampleQueue.head =
      (chan.sampleQueue.pushPointers (wrapU32 (chan.sampleCount * 2))).1.head := rfl
    rw [e, hw, hf.2.2.1]
  apply toList_append_of_write chan.sampleQueue _ _ _ hwf2 hNN hhd hcnt
  · intro j hj
    have hcj := mod_cases (chan.sampleQueue.tail + j) chan.sampleQueue.N (by omega)
    by_cases hbr : chan.sampleQueue.tail + wrapU32 (chan.sampleCount * 2) < chan.sampleQueue.N
    · rw [enqueueStereo_storage_one mem lv rv chan hbr, scaleSpan_apply]
      rw [hw] at hbr ⊢
      rcases hcj with ⟨hlt, he⟩ | ⟨hge, he⟩
      · rw [he, if_pos (by omega)]
        have e1 : chan.sampleQueue.tail + j - chan.sampleQueue.tail = j := by omega
        rw [e1]
      · omega
    · rw [enqueueStereo_storage_two mem lv rv chan hbr]
      simp only [scaleSpan_apply]
      rw [hw] at hbr ⊢
      rcases hcj with ⟨hlt, he⟩ | ⟨hge, he⟩
      · rw [he, if_neg (by omega), if_pos (by omega)]
        have e1 : chan.sampleQueue.tail + j - chan.sampleQueue.tail = j := by omega
        rw [e1]
      · rw [he, if_pos (by omega)]
        have e1 : chan.sampleQueue.N - chan.sampleQueue.tail +
            (chan.sampleQueue.tail + j - chan.sampleQueue.N - 0) = j := by omega
        have e2 : (chan.sampleQueue.tail + j - chan.sampleQueue.N - 0) % 2 = j % 2 := by omega
        rw [e1]
        by_cases hpar : j % 2 = 0
        · rw [if_pos (by omega), if_pos hpar]
        · rw [if_neg (by omega), if_neg hpar]
  · intro i hi
    have hci := mod_cases (chan.sampleQueue.head + i) chan.sampleQueue.N (by omega)
    by_cases hbr : chan.sampleQueue.tail + wrapU32 (chan.sampleCount * 2) < chan.sampleQueue.N
    · rw [enqueueStereo_storage_one mem lv rv chan hbr, scaleSpan_apply]
      rw [hw] at hbr ⊢
      rw [if_neg (by omega)]
    · rw [enqueueStereo_storage_two mem lv rv chan hbr]
      simp only [scaleSpan_apply]
      rw [hw] at hbr ⊢
      rw [if_neg (by omega), if_neg (by omega)]

/-! ## The general scaling path at large volumes -/

set_option maxRecDepth 100000 in
/-- C15. At the channel volume `2^16`, the top of the data-model range, and the sample
32767, the pre-shifted gain `2^17` still fits in `int`, but the product
`32767 * 2^17 = 4294836224` does not: the scalar `adjustvolume` works on the wrapped
product and yields `-2`, where `clamp16(floor(sample * 2v / 2^16))` over the integers is
32767; `__AudioEnqueue` queues `-2` for both samples of a frame of two samples 32767. -/
theorem scaling_overflows_at_volume_65536 :
    wrapS32 (65536 * 2) = 131072 ∧
    (2147483648 : Int) ≤ 32767 * wrapS32 (65536 * 2) ∧
    wrapS32 (32767 * wrapS32 (65536 * 2)) = -131072 ∧
    adjustvolume 32767 (wrapS32 (65536 * 2)) = -2 ∧
    clamp_s16 (Int.fdiv (32767 * (2 * 65536)) 65536) = 32767 ∧
    (List.range (2 * 1)).map (fun i => readS16 exLoud (0x08800000 + 2 * i)) = [32767, 32767] ∧
    (__AudioEnqueue exConsts 1 exLoud (exKernel true)
      (exChan .PSP_AUDIO_FORMAT_STEREO 65536 0 0x08800000 1) 0 false).chan.sampleQueue.toList =
      [-2, -2] := by
  decide

/-! ## The general stereo path against the bulk copy -/

/-- On a queue whose capacity and write cursor are even, the general stereo path with both
pre-shifted gains at `2^16` leaves the channel exactly as the bulk copy does. -/
theorem enqueueStereo_unity (mem : Memory) (chan : AudioChannel)
    (hN : chan.sampleQueue.N % 2 = 0) (htail : chan.sampleQueue.tail % 2 = 0) :
    enqueueStereo mem 65536 65536 chan = enqueueFast mem chan := by
  have hev : wrapU32 (chan.sampleCount * 2) % 2 = 0 := by unfold wrapU32; omega
  have hs : (enqueueStereo mem 65536 65536 chan).sampleQueue.storage =
      (enqueueFast mem chan).sampleQueue.storage := by
    funext x
    by_cases hbr : chan.sampleQueue.tail + wrapU32 (chan.sampleCount * 2) < chan.sampleQueue.N
    · rw [enqueueStereo_storage_one mem _ _ chan hbr, enqueueFast_storage_one mem chan hbr,
        scaleSpan_apply, memcpy_apply]
      generalize wrapU32 (chan.sampleCount * 2) = sz at hev hbr ⊢
      have e : 2 * ((sz + 1) / 2) = sz := by omega
      rw [e]
      simp only [ite_self]
      by_cases hx : chan.sampleQueue.tail ≤ x ∧ x < chan.sampleQueue.tail + sz
      · rw [if_pos hx, if_pos hx, adjustvolume_unity _ (readS16_isS16 _ _)]
      · rw [if_neg hx, if_neg hx]
    · rw [enqueueStereo_storage_two mem _ _ chan hbr, enqueueFast_storage_two mem chan hbr]
      simp only [scaleSpan_apply, memcpy_apply, ite_self]
      generalize wrapU32 (chan.sampleCount * 2) = sz at hev hbr ⊢
      have e1 : 2 * ((chan.sampleQueue.N - chan.sampleQueue.tail + 1) / 2) =
          chan.sampleQueue.N - chan.sampleQueue.tail := by omega
      have e2 : 2 * ((sz - (chan.sampleQueue.N - chan.sampleQueue.tail) + 1) / 2) =
          sz - (chan.sampleQueue.N - chan.sampleQueue.tail) := by omega
      rw [e1, e2]
      by_cases hx : 0 ≤ x ∧ x < 0 + (sz - (chan.sampleQueue.N - chan.sampleQueue.tail))
      · rw [if_pos hx, if_pos hx, adjustvolume_unity _ (readS16_isS16 _ _)]
        congr 1
        ring
      · rw [if_neg hx, if_neg hx]
        by_cases hy : chan.sampleQueue.tail ≤ x ∧
            x < chan.sampleQueue.tail + (chan.sampleQueue.N - chan.sampleQueue.tail)
        · rw [if_pos hy, if_pos hy, adjustvolume_unity _ (readS16_isS16 _ _)]
        · rw [if_neg hy, if_neg hy]
  have e1 : enqueueStereo mem 65536 65536 chan =
      { chan with sampleQueue :=
          { (chan.sampleQueue.pushPointers (wrapU32 (chan.sampleCount * 2))).1 with
            storage := (enqueueStereo mem 65536 65536 chan).sampleQueue.storage } } := rfl
  have e2 : enqueueFast mem chan =
      { chan with sampleQueue :=
          { (chan.sampleQueue.pushPointers (wrapU32 (chan.sampleCount * 2))).1 with
            storage := (enqueueFast mem chan).sampleQueue.storage } } := rfl
  rw [e1, e2, hs]

/-! ## Whole frames on the channel queues -/

/-- A request for an even number of slots keeps the frames whole. -/
theorem pushPointers_wholeFrames (q : FixedSizeQueue) (n : Nat) (hn : n % 2 = 0)
    (h : q.WholeFrames) : (q.pushPointers n).1.WholeFrames := by
  obtain ⟨hc, hp⟩ := h
  unfold FixedSizeQueue.pushPointers FixedSizeQueue.WholeFrames
  split_ifs
  · refine ⟨?_, fun hN => ?_⟩
    · show (q.count + n) % 2 = 0
      omega
    · have := hp hN
      show q.head % 2 = 0 ∧ (q.tail + n) % 2 = 0
      omega
  · refine ⟨?_, fun hN => ?_⟩
    · show (q.count + n) % 2 = 0
      omega
    · have h2 := hp hN
      have h3 : q.N % 2 = 0 := hN
      show q.head % 2 = 0 ∧ (n - (q.N - q.tail)) % 2 = 0
      omega

/-- Two single-element writes keep the frames whole. -/
theorem push_push_wholeFrames (q : FixedSizeQueue) (a b : Int) (h : q.WholeFrames) :
    ((q.push a).push b).WholeFrames := by
  obtain ⟨hc, hp⟩ := h
  unfold FixedSizeQueue.WholeFrames
  refine ⟨?_, fun hN => ?_⟩
  · show (q.count + 1 + 1) % 2 = 0
    omega
  · have h3 : q.N % 2 = 0 := hN
    have h2 := hp h3
    show q.head % 2 = 0 ∧
      (if (if q.tail + 1 = q.N then 0 else q.tail + 1) + 1 = q.N then 0
        else (if q.tail + 1 = q.N then 0 else q.tail + 1) + 1) % 2 = 0
    split_ifs <;> omega

/-- A pop of an even number of slots keeps the frames whole. -/
theorem popPointers_wholeFrames (q : FixedSizeQueue) (n : Nat) (hn : n % 2 = 0)
    (h : q.WholeFrames) : (q.popPointers n).1.WholeFrames := by
  obtain ⟨hc, hp⟩ := h
  unfold FixedSizeQueue.popPointers FixedSizeQueue.WholeFrames
  simp only
  split_ifs
  · refine ⟨?_, fun hN => ?_⟩
    · show (q.count - q.count) % 2 = 0
      omega
    · have h3 : q.N % 2 = 0 := hN
      have h2 := hp h3
      show (q.head + q.count) % 2 = 0 ∧ q.tail % 2 = 0
      omega
  · refine ⟨?_, fun hN => ?_⟩
    · show (q.count - q.count) % 2 = 0
      omega
    · have h3 : q.N % 2 = 0 := hN
      have h2 := hp h3
      show (q.count - (q.N - q.head)) % 2 = 0 ∧ q.tail % 2 = 0
      omega
  · refine ⟨?_, fun hN => ?_⟩
    · show (q.count - n) % 2 = 0
      omega
    · have h3 : q.N % 2 = 0 := hN
      have h2 := hp h3
      show (q.head + n) % 2 = 0 ∧ q.tail % 2 = 0
      omega
  · refine ⟨?_, fun hN => ?_⟩
    · show (q.count - n) % 2 = 0
      omega
    · have h3 : q.N % 2 = 0 := hN
      have h2 := hp h3
      show (n - (q.N - q.head)) % 2 = 0 ∧ q.tail % 2 = 0
      omega

/-- The mono loop on the queue keeps the frames whole. -/
theorem mono_queue_wholeFrames (f g : Nat → Int) (n : Nat) (q : FixedSizeQueue)
    (h : q.WholeFrames) :
    (loop n (fun i q => FixedSizeQueue.push (FixedSizeQueue.push q (f i)) (g i))
      q).WholeFrames := by
  induction n with
  | zero => exact h
  | succ n ih =>
    rw [loop_succ]
    exact push_push_wholeFrames _ _ _ ih

/-- The total of a stereo request, formed in `u32`, is even. -/
theorem totalSamples_even (n : Nat) : wrapU32 (n * 2) % 2 = 0 := by
  unfold wrapU32
  omega

/-- Every branch of the data path keeps the frames whole. -/
theorem enqueueSamples_wholeFrames (c : Consts) (mem : Memory) (chan : AudioChannel)
    (h : chan.sampleQueue.WholeFrames) : (enqueueSamples c mem chan).sampleQueue.WholeFrames := by
  have hp := pushPointers_wholeFrames chan.sampleQueue (wrapU32 (chan.sampleCount * 2))
    (totalSamples_even chan.sampleCount) h
  unfold enqueueSamples
  simp only
  split_ifs with hc
  · exact hp
  · cases hf : chan.format with
    | PSP_AUDIO_FORMAT_STEREO => exact hp
    | PSP_AUDIO_FORMAT_MONO =>
      simp only [enqueueMono_eq]
      exact mono_queue_wholeFrames _ _ _ _ h

/-- `__AudioEnqueue` keeps the frames whole. -/
theorem audioEnqueue_wholeFrames (c : Consts) (minFactor : Int) (mem : Memory) (k : Kernel)
    (chan : AudioChannel) (chanNum : Int) (blocking : Bool)
    (h : chan.sampleQueue.WholeFrames) :
    (__AudioEnqueue c minFactor mem k chan chanNum blocking).chan.sampleQueue.WholeFrames := by
  have hs := enqueueSamples_wholeFrames c mem chan h
  have hs2 : ∀ w, (enqueueSamples c mem
      { chan with waitingThreads := w }).sampleQueue.WholeFrames :=
    fun w => enqueueSamples_wholeFrames c mem { chan with waitingThreads := w } h
  unfold __AudioEnqueue enqueueTail
  simp only
  split_ifs <;> first | exact h | exact hs | exact hs2 _

/-- The share of one channel in a mix tick keeps the frames whole. -/
theorem mixChannel_wholeFrames (c : Consts) (hw : Int) (chan : AudioChannel) (mb : Nat → Int)
    (k : Kernel) (h : chan.sampleQueue.WholeFrames) :
    (mixChannel c hw chan mb k).1.sampleQueue.WholeFrames := by
  have hev : (hw * 2).toNat % 2 = 0 := by omega
  have hp := popPointers_wholeFrames chan.sampleQueue (hw * 2).toNat hev h
  unfold mixChannel
  have hq : (__AudioWakeThreads c chan 0 hw k).1.sampleQueue = chan.sampleQueue := rfl
  simp only [hq]
  split_ifs
  · exact h
  · exact h
  · exact hp

/-- Every step keeps the frames whole. -/
theorem apply_wholeFrames (op : ChanOp) (chan : AudioChannel)
    (h : chan.sampleQueue.WholeFrames) : (op.apply chan).sampleQueue.WholeFrames := by
  cases op with
  | configure r a n lv rv f => exact h
  | enqueue c m mem k chanNum blocking =>
    exact audioEnqueue_wholeFrames c m mem k chan chanNum blocking h
  | tick c hw mb k => exact mixChannel_wholeFrames c hw chan mb k h
  | wake c result step k => exact h
  | clear =>
    refine ⟨rfl, fun _ => ⟨rfl, rfl⟩⟩

/-- Every sequence of steps keeps the frames whole. -/
theorem foldl_wholeFrames (ops : List ChanOp) :
    ∀ chan : AudioChannel, chan.sampleQueue.WholeFrames →
      (ops.foldl (fun ch op => op.apply ch) chan).sampleQueue.WholeFrames := by
  induction ops with
  | nil => intro chan h; exact h
  | cons op ops ih =>
    intro chan h
    exact ih _ (apply_wholeFrames op chan h)

/-- The queue of a channel the module reaches holds whole frames. -/
theorem after_wholeFrames (chan0 : AudioChannel) (ops : List ChanOp) :
    (chan0.after ops).sampleQueue.WholeFrames :=
  foldl_wholeFrames ops chan0.clear ⟨rfl, fun _ => ⟨rfl, rfl⟩⟩

/-- With both pre-shifted gains at `2^16` the general stereo path appends the guest samples
unchanged, provided the slot behind the request is free or the span up to the wrap boundary
is even. -/
theorem enqueueStereo_unity_toList (mem : Memory) (chan : AudioChannel)
    (hwf : chan.sampleQueue.WF)
    (hroom : chan.sampleQueue.count + 2 * chan.sampleCount ≤ chan.sampleQueue.N)
    (hpar : chan.sampleQueue.count + 2 * chan.sampleCount < chan.sampleQueue.N ∨
      (chan.sampleQueue.N - chan.sampleQueue.tail) % 2 = 0) :
    (enqueueStereo mem 65536 65536 chan).sampleQueue.toList = chan.sampleQueue.toList ++
      (List.range (2 * chan.sampleCount)).map
        (fun j => readS16 mem (chan.sampleAddress + 2 * j)) := by
  have hwf2 := hwf
  obtain ⟨h0, hb, hh, ht, hc, hm⟩ := hwf
  have hw : wrapU32 (chan.sampleCount * 2) = 2 * chan.sampleCount := by
    rw [wrapU32_of_lt _ (by omega)]; ring
  have hcase := mod_cases (chan.sampleQueue.head + chan.sampleQueue.count) chan.sampleQueue.N
    (by omega)
  have hf := pushPointers_fst chan.sampleQueue (wrapU32 (chan.sampleCount * 2))
  rw [hw] at hf
  have hcnt : (enqueueStereo mem 65536 65536 chan).sampleQueue.count =
      chan.sampleQueue.count + 2 * chan.sampleCount :=
    enqueueStereo_count mem 65536 65536 chan hwf2 hroom
  have hNN : (enqueueStereo mem 65536 65536 chan).sampleQueue.N = chan.sampleQueue.N := by
    have e : (enqueueStereo mem 65536 65536 chan).sampleQueue.N =
      (chan.sampleQueue.pushPointers (wrapU32 (chan.sampleCount * 2))).1.N := rfl
    rw [e, hw, hf.2.1]
  have hhd : (enqueueStereo mem 65536 65536 chan).sampleQueue.head = chan.sampleQueue.head := by
    have e : (enqueueStereo mem 65536 65536 chan).sampleQueue.head =
      (chan.sampleQueue.pushPointers (wrapU32 (chan.sampleCount * 2))).1.head := rfl
    rw [e, hw, hf.2.2.1]
  have hu : ∀ a, adjustvolume (readS16 mem a) 65536 = readS16 mem a :=
    fun a => adjustvolume_unity _ (readS16_isS16 _ _)
  apply toList_append_of_write chan.sampleQueue _ _ _ hwf2 hNN hhd hcnt
  · intro j hj
    have hcj := mod_cases (chan.sampleQueue.tail + j) chan.sampleQueue.N (by omega)
    by_cases hbr : chan.sampleQueue.tail + wrapU32 (chan.sampleCount * 2) < chan.sampleQueue.N
    · rw [enqueueStereo_storage_one mem _ _ chan hbr, scaleSpan_apply]
      rw [hw] at hbr ⊢
      rcases hcj with ⟨hlt, he⟩ | ⟨hge, he⟩
      · have c1 : chan.sampleQueue.tail ≤ chan.sampleQueue.tail + j ∧
            chan.sampleQueue.tail + j <
              chan.sampleQueue.tail + 2 * ((2 * chan.sampleCount + 1) / 2) := by omega
        have e1 : chan.sampleQueue.tail + j - chan.sampleQueue.tail = j := by omega
        rw [he, if_pos c1, e1]
        simp only [ite_self, hu]
      · omega
    · rw [enqueueStereo_storage_two mem _ _ chan hbr]
      simp only [scaleSpan_apply, ite_self, hu]
      rw [hw] at hbr ⊢
      rcases hcj with ⟨hlt, he⟩ | ⟨hge, he⟩
      · have c0 : ¬ (0 ≤ chan.sampleQueue.tail + j ∧ chan.sampleQueue.tail + j <
            0 + 2 * ((2 * chan.sampleCount -
              (chan.sampleQueue.N - chan.sampleQueue.tail) + 1) / 2)) := by
          rcases hcase with ⟨_, _⟩ | ⟨_, _⟩ <;> rcases hpar with hp | hp <;> omega
        have c1 : chan.sampleQueue.tail ≤ chan.sampleQueue.tail + j ∧
            chan.sampleQueue.tail + j < chan.sampleQueue.tail +
              2 * ((chan.sampleQueue.N - chan.sampleQueue.tail + 1) / 2) := by omega
        have e1 : chan.sampleQueue.tail + j - chan.sampleQueue.tail = j := by omega
        rw [he, if_neg c0, if_pos c1, e1]
      · have c0 : 0 ≤ chan.sampleQueue.tail + j - chan.sampleQueue.N ∧
            chan.sampleQueue.tail + j - chan.sampleQueue.N <
            0 + 2 * ((2 * chan.sampleCount -
              (chan.sampleQueue.N - chan.sampleQueue.tail) + 1) / 2) := by omega
        have e1 : chan.sampleQueue.N - chan.sampleQueue.tail +
            (chan.sampleQueue.tail + j - chan.sampleQueue.N - 0) = j := by omega
        rw [he, if_pos c0, e1]
  · intro i hi
    have hci := mod_cases (chan.sampleQueue.head + i) chan.sampleQueue.N (by omega)
    by_cases hbr : chan.sampleQueue.tail + wrapU32 (chan.sampleCount * 2) < chan.sampleQueue.N
    · rw [enqueueStereo_storage_one mem _ _ chan hbr, scaleSpan_apply]
      rw [hw] at hbr ⊢
      have c1 : ¬ (chan.sampleQueue.tail ≤ (chan.sampleQueue.head + i) % chan.sampleQueue.N ∧
          (chan.sampleQueue.head + i) % chan.sampleQueue.N <
            chan.sampleQueue.tail + 2 * ((2 * chan.sampleCount + 1) / 2)) := by
        rcases hcase with ⟨_, _⟩ | ⟨_, _⟩ <;> rcases hci with ⟨_, _⟩ | ⟨_, _⟩ <;> omega
      rw [if_neg c1]
    · rw [enqueueStereo_storage_two mem _ _ chan hbr]
      simp only [scaleSpan_apply, ite_self, hu]
      rw [hw] at hbr ⊢
      have c0 : ¬ (0 ≤ (chan.sampleQueue.head + i) % chan.sampleQueue.N ∧
          (chan.sampleQueue.head + i) % chan.sampleQueue.N <
            0 + 2 * ((2 * chan.sampleCount -
              (chan.sampleQueue.N - chan.sampleQueue.tail) + 1) / 2)) := by
        rcases hcase with ⟨_, _⟩ | ⟨_, _⟩ <;> rcases hci with ⟨_, _⟩ | ⟨_, _⟩ <;>
          rcases hpar with hp | hp <;> omega
      have c1 : ¬ (chan.sampleQueue.tail ≤ (chan.sampleQueue.head + i) % chan.sampleQueue.N ∧
          (chan.sampleQueue.head + i) % chan.sampleQueue.N <
            chan.sampleQueue.tail +
              2 * ((chan.sampleQueue.N - chan.sampleQueue.tail + 1) / 2)) := by
        rcases hcase with ⟨_, _⟩ | ⟨_, _⟩ <;> rcases hci with ⟨_, _⟩ | ⟨_, _⟩ <;> omega
      rw [if_neg c0, if_neg c1]

/-! ## The general stereo path on the channel states the module reaches -/

/-- C16. Fast-path equivalence. For every channel state the module reaches (from the
cleared channel by requests, enqueues, mix ticks, wakes and clears) on which
`__AudioEnqueue` takes the bulk copy (both gains at the value `2^15` the code tests for,
format stereo, little-endian build), with a valid ring buffer that has room for the
request: the general stereo scaling path (gains pre-shifted, every sample passed through
`adjustvolume`) run on the same channel state and the same guest input leaves the same
queued samples as the bulk copy does, the old ones followed by the `2 * sampleCount` guest
samples; and on an even capacity the two paths leave the very same channel (storage,
cursors and count). -/
theorem fast_path_equivalence (c : Consts) (mem : Memory) (chan0 : AudioChannel)
    (ops : List ChanOp) (chan : AudioChannel) (hreach : chan = chan0.after ops)
    (hfmt : chan.format = .PSP_AUDIO_FORMAT_STEREO)
    (hl : chan.leftVolume = 32768) (hr : chan.rightVolume = 32768)
    (hle : c.IS_LITTLE_ENDIAN = true)
    (hwf : chan.sampleQueue.WF)
    (hroom : chan.sampleQueue.size + 2 * chan.sampleCount ≤ chan.sampleQueue.N) :
    enqueueSamples c mem chan = enqueueFast mem chan ∧
    (enqueueStereo mem (wrapS32 (chan.leftVolume * 2)) (wrapS32 (chan.rightVolume * 2))
      chan).sampleQueue.toList = (enqueueFast mem chan).sampleQueue.toList ∧
    (enqueueFast mem chan).sampleQueue.toList = chan.sampleQueue.toList ++
      (List.range (2 * chan.sampleCount)).map
        (fun j => readS16 mem (chan.sampleAddress + 2 * j)) ∧
    (chan.sampleQueue.N % 2 = 0 →
      enqueueStereo mem (wrapS32 (chan.leftVolume * 2)) (wrapS32 (chan.rightVolume * 2)) chan =
        enqueueFast mem chan) := by
  have hg : wrapS32 (32768 * 2) = 65536 := by decide
  have hsz : chan.sampleQueue.size = chan.sampleQueue.count := rfl
  rw [hsz] at hroom
  have hframes : chan.sampleQueue.WholeFrames := by
    rw [hreach]
    exact after_wholeFrames chan0 ops
  obtain ⟨hcount, hcur⟩ := hframes
  have hpar : chan.sampleQueue.count + 2 * chan.sampleCount < chan.sampleQueue.N ∨
      (chan.sampleQueue.N - chan.sampleQueue.tail) % 2 = 0 := by
    by_cases hN : chan.sampleQueue.N % 2 = 0
    · have := hcur hN
      right
      omega
    · left
      omega
  have hfast := (enqueueFast_spec mem chan hwf hroom).1
  refine ⟨?_, ?_, hfast, ?_⟩
  · unfold enqueueSamples
    simp [hl, hr, hfmt, hle]
  · rw [hl, hr, hg, hfast]
    exact enqueueStereo_unity_toList mem chan hwf hroom hpar
  · intro hN
    rw [hl, hr, hg]
    exact enqueueStereo_unity mem chan hN (hcur hN).2

set_option maxRecDepth 100000 in
/-- Witness of C16: a channel of capacity 8 after an enqueue of two frames and a mix tick,
with a request of four frames of the ramp: the queue is empty with both cursors at 4, and
the write is split into two spans of four samples. -/
theorem fast_path_equivalence_witness :
    ((exReached 32768 32768).sampleQueue.head = 4 ∧ (exReached 32768 32768).sampleQueue.tail = 4 ∧
      (exReached 32768 32768).sampleQueue.count = 0 ∧
      (exReached 32768 32768).sampleQueue.N = 8) ∧
    (enqueueStereo exRamp (wrapS32 ((exReached 32768 32768).leftVolume * 2))
      (wrapS32 ((exReached 32768 32768).rightVolume * 2))
      (exReached 32768 32768)).sampleQueue.toList =
      (enqueueFast exRamp (exReached 32768 32768)).sampleQueue.toList ∧
    (enqueueFast exRamp (exReached 32768 32768)).sampleQueue.toList =
      [0, 256, 512, 768, 1024, 1280, 1536, 1792] :=
  ⟨by decide,
   (fast_path_equivalence exConsts exRamp (exSplitChan 32768 32768 0) _ (exReached 32768 32768)
      rfl rfl rfl rfl rfl
      ⟨by decide, by decide, by decide, by decide, by decide, by decide⟩ (by decide)).2.1,
   by decide⟩

/-! ## The general stereo path of `__AudioEnqueue` -/

/-- C17, counterexample. A stereo channel off the fast path (both volumes `2^14`) with a
non-zero sample address and a queue of even length (two samples) and even capacity with
room for the request: the non-blocking call is rejected as busy and appends nothing, the
queue keeps its two samples. -/
theorem audioEnqueue_stereo_busy_appends_nothing :
    (exChan .PSP_AUDIO_FORMAT_STEREO 16384 2 0x08800000 4).format = .PSP_AUDIO_FORMAT_STEREO ∧
    (exChan .PSP_AUDIO_FORMAT_STEREO 16384 2 0x08800000 4).leftVolume ≠ 32768 ∧
    (exChan .PSP_AUDIO_FORMAT_STEREO 16384 2 0x08800000 4).sampleAddress ≠ 0 ∧
    (exChan .PSP_AUDIO_FORMAT_STEREO 16384 2 0x08800000 4).sampleQueue.size % 2 = 0 ∧
    (exChan .PSP_AUDIO_FORMAT_STEREO 16384 2 0x08800000 4).sampleQueue.N % 2 = 0 ∧
    (exChan .PSP_AUDIO_FORMAT_STEREO 16384 2 0x08800000 4).sampleQueue.size + 2 * 4 ≤
      (exChan .PSP_AUDIO_FORMAT_STEREO 16384 2 0x08800000 4).sampleQueue.N ∧
    (exChan .PSP_AUDIO_FORMAT_STEREO 16384 2 0x08800000 4).sampleQueue.toList = [0, 0] ∧
    (__AudioEnqueue exConsts 1 exMem (exKernel true)
      (exChan .PSP_AUDIO_FORMAT_STEREO 16384 2 0x08800000 4) 0 false).chan.sampleQueue.toList =
      [0, 0] ∧
    (__AudioEnqueue exConsts 1 exMem (exKernel true)
      (exChan .PSP_AUDIO_FORMAT_STEREO 16384 2 0x08800000 4) 0 false).ret = 0x80260009 := by
  decide

/-- C17, amended. For every stereo channel the module reaches (from the cleared channel by
requests, enqueues, mix ticks, wakes and clears) that is off the fast path, with a non-zero
sample address, `sampleCount = N`, volumes whose double fits in `int`, and a valid queue of
even capacity (its length is then even too) with room for `2N` samples, on a call that is
not rejected as busy (the queue is empty, or the call is blocking and
`chanQueueMinSizeFactor` is not zero): `__AudioEnqueue` appends exactly `2N` samples with
`out[2i] == adjustvolume(in[2i], 2 * leftVolume)` and
`out[2i+1] == adjustvolume(in[2i+1], 2 * rightVolume)` for every `i < N`, whether or not
the write is split at the wrap boundary; the length of the queue is even and both spans of
the write have even length. -/
theorem audioEnqueue_general_stereo (c : Consts) (minFactor : Int) (mem : Memory) (k : Kernel)
    (chan0 : AudioChannel) (ops : List ChanOp) (chan : AudioChannel)
    (hreach : chan = chan0.after ops) (chanNum : Int) (blocking : Bool)
    (hfmt : chan.format = .PSP_AUDIO_FORMAT_STEREO)
    (hslow : ¬ (chan.leftVolume = 32768 ∧ chan.rightVolume = 32768 ∧
      c.IS_LITTLE_ENDIAN = true))
    (haddr : chan.sampleAddress ≠ 0)
    (hl : -1073741824 ≤ chan.leftVolume ∧ chan.leftVolume < 1073741824)
    (hr : -1073741824 ≤ chan.rightVolume ∧ chan.rightVolume < 1073741824)
    (hwf : chan.sampleQueue.WF)
    (hroom : chan.sampleQueue.size + 2 * chan.sampleCount ≤ chan.sampleQueue.N)
    (hN : chan.sampleQueue.N % 2 = 0)
    (hgate : chan.sampleQueue.size = 0 ∨ (blocking = true ∧ minFactor ≠ 0)) :
    ∃ out : List Int,
      (__AudioEnqueue c minFactor mem k chan chanNum blocking).chan.sampleQueue.toList =
        chan.sampleQueue.toList ++ out ∧
      out.length = 2 * chan.sampleCount ∧
      (∀ i, i < chan.sampleCount →
        out[2 * i]? = some (adjustvolume (readS16 mem (chan.sampleAddress + 2 * (2 * i)))
          (2 * chan.leftVolume)) ∧
        out[2 * i + 1]? = some (adjustvolume (readS16 mem (chan.sampleAddress + 2 * (2 * i + 1)))
          (2 * chan.rightVolume))) ∧
      chan.sampleQueue.size % 2 = 0 ∧
      (chan.sampleQueue.pushPointers (wrapU32 (chan.sampleCount * 2))).2.sz1 % 2 = 0 ∧
      (chan.sampleQueue.pushPointers (wrapU32 (chan.sampleCount * 2))).2.sz2 % 2 = 0 := by
  have hframes : chan.sampleQueue.WholeFrames := by
    rw [hreach]
    exact after_wholeFrames chan0 ops
  obtain ⟨hcount, hcur⟩ := hframes
  have htail : chan.sampleQueue.tail % 2 = 0 := (hcur hN).2
  have hwf2 := hwf
  obtain ⟨h0, hb, hh, ht, hc, hm⟩ := hwf
  have hsz : chan.sampleQueue.size = chan.sampleQueue.count := rfl
  rw [hsz] at hroom
  have hw : wrapU32 (chan.sampleCount * 2) = 2 * chan.sampleCount := by
    rw [wrapU32_of_lt _ (by omega)]; ring
  have hlv : wrapS32 (chan.leftVolume * 2) = 2 * chan.leftVolume := by
    rw [wrapS32_of_range _ (by omega) (by omega)]; ring
  have hrv : wrapS32 (chan.rightVolume * 2) = 2 * chan.rightVolume := by
    rw [wrapS32_of_range _ (by omega) (by omega)]; ring
  refine ⟨(List.range (2 * chan.sampleCount)).map (fun j =>
      adjustvolume (readS16 mem (chan.sampleAddress + 2 * j))
        (if j % 2 = 0 then 2 * chan.leftVolume else 2 * chan.rightVolume)), ?_, by simp, ?_,
      hcount, ?_, ?_⟩
  · have hq : (__AudioEnqueue c minFactor mem k chan chanNum blocking).chan.sampleQueue =
        (enqueueSamples c mem chan).sampleQueue := by
      unfold __AudioEnqueue enqueueTail
      by_cases hs : chan.sampleQueue.size > 0
      · have hbl : blocking = true := by
          rcases hgate with h | h
          · omega
          · exact h.1
        by_cases hd : __KernelIsDispatchEnabled k = true
        · simp only [hs, hbl, hd, haddr, if_true, if_false]
          exact (enqueueSamples_waits c mem chan _).2
        · simp [hs, hbl, hd, haddr]
      · simp [hs, haddr]
    rw [hq]
    have hs : enqueueSamples c mem chan =
        enqueueStereo mem (wrapS32 (chan.leftVolume * 2)) (wrapS32 (chan.rightVolume * 2))
          chan := by
      unfold enqueueSamples
      have hcond : ¬ (chan.leftVolume = 32768 ∧ chan.rightVolume = 32768 ∧
          chan.format = AudioFormat.PSP_AUDIO_FORMAT_STEREO ∧ c.IS_LITTLE_ENDIAN = true) :=
        fun h => hslow ⟨h.1, h.2.1, h.2.2.2⟩
      rw [if_neg hcond]
      simp only [hfmt]
    rw [hs, hlv, hrv]
    exact enqueueStereo_spec mem _ _ chan hwf2 hroom hN htail
  · intro i hi
    have p1 : (2 * i) % 2 = 0 := by omega
    have p2 : ¬ ((2 * i + 1) % 2 = 0) := by omega
    constructor
    · rw [List.getElem?_map, List.getElem?_range (by omega)]
      simp [p1]
    · rw [List.getElem?_map, List.getElem?_range (by omega)]
      simp [p2]
  · rw [hw]
    unfold FixedSizeQueue.pushPointers
    split_ifs <;> first | rfl | (simp only; omega)
  · rw [hw]
    unfold FixedSizeQueue.pushPointers
    split_ifs <;> first | rfl | (simp only; omega)

set_option maxRecDepth 100000 in
/-- Witness of C17 (amended): a channel of capacity 8 after an enqueue of two frames and a
mix tick, with a request of four frames of the ramp at the volumes `2^14` and `2^15`: the
queue is empty with both cursors at 4, and the write is split into two spans of four
samples. -/
theorem audioEnqueue_general_stereo_witness :
    ((exReached 16384 32768).sampleQueue.pushPointers (wrapU32 (4 * 2))).2 =
      { buf1 := 4, sz1 := 4, buf2 := some 0, sz2 := 4 } ∧
    (__AudioEnqueue exConsts 1 exRamp (exKernel true) (exReached 16384 32768) 0
      false).chan.sampleQueue.toList = [0, 256, 256, 768, 512, 1280, 768, 1792] ∧
    ∃ out : List Int,
      (__AudioEnqueue exConsts 1 exRamp (exKernel true) (exReached 16384 32768) 0
        false).chan.sampleQueue.toList = (exReached 16384 32768).sampleQueue.toList ++ out ∧
      out.length = 2 * 4 :=
  have h := audioEnqueue_general_stereo exConsts 1 exRamp (exKernel true)
    (exSplitChan 16384 32768 0) _ (exReached 16384 32768) rfl 0 false rfl (by decide)
    (by decide) ⟨by decide, by decide⟩ ⟨by decide, by decide⟩
    ⟨by decide, by decide, by decide, by decide, by decide, by decide⟩
    (by decide) (by decide) (Or.inl (by decide))
  ⟨by decide, by decide, h.elim (fun out ho => ⟨out, ho.1, ho.2.1⟩)⟩

end PspAudio
